import Mathlib

/-!
AdGuardDNS: device-ID extraction, upstream configuration, DoH routing

A shallow embedding of parts of

* `internal/dnssvc/deviceid.go`
* `internal/cmd/upstream.go`
* `internal/dnsserver/serverhttps.go`

together with the Go standard-library string and path functions they call.

Conventions.

* A Go `string` is a finite byte sequence; it is embedded as `List Char`, one
  `Char` per byte.  Every function below only compares bytes with each other
  or with the ASCII bytes `/`, `.` and `*`, and takes lengths and slices.
* A Go `error` value is an `Option`: `none` is `nil`.
* A Go function that may panic at run time (index or slice out of range, nil
  dereference) returns an `Option` of its results: `none` is the panic.
-/

namespace AdGuardDNS

/-- A Go string, as the list of its bytes. -/
abbrev GoString := List Char

/-! ## Package `strings` -/

namespace strings

/-- Go `strings.HasSuffix(s, suffix)`:
`len(s) >= len(suffix) && s[len(s)-len(suffix):] == suffix`. -/
def HasSuffix (s suffix : GoString) : Bool :=
  decide (suffix.length ≤ s.length) && (s.drop (s.length - suffix.length) == suffix)

/-- Go `strings.Split(s, sep)` for a separator `sep` of one byte, the only way
the embedded code calls it.  The result has one more element than `s` has
occurrences of `sep`. -/
def Split : GoString → Char → List GoString
  | [], _ => [[]]
  | c :: cs, sep =>
    if c = sep then [] :: Split cs sep
    else
      match Split cs sep with
      | [] => [[c]]
      | h :: t => (c :: h) :: t

end strings

/-! ## Package `path` -/

namespace path

/-- The backtracking of `path.Clean` at a `..` element, on the write index:
`for out.w > dotdot && out.index(out.w) != '/' { out.w-- }`, entered after the
first `out.w--`.  `buf` is the buffer content before the backtracking began. -/
def backtrack (buf : GoString) (dotdot : Nat) : Nat → Nat
  | 0 => 0
  | w + 1 =>
    if dotdot < w + 1 ∧ buf.get? (w + 1) ≠ some '/' then backtrack buf dotdot w
    else w + 1

/-- The copy loop of `path.Clean` for a real path element:
`for ; r < n && path[r] != '/'; r++ { out.append(path[r]) }`.
Returns the buffer and the unread rest of the path. -/
def copyElem : GoString → GoString → GoString × GoString
  | out, [] => (out, [])
  | out, c :: cs => if c = '/' then (out, c :: cs) else copyElem (out ++ [c]) cs

/-- The main loop `for r < n { switch ... }` of `path.Clean`.  The unread part
`path[r:]` is the list argument, `out` is the written part of the buffer (so
`out.w = out.length`), and `fuel` bounds the number of iterations: `none` is
returned only when it runs out. -/
def cleanLoop (rooted : Bool) : Nat → GoString → GoString → Nat → Option GoString
  | _, [], out, _ => some out
  | 0, _ :: _, _, _ => none
  | fuel + 1, c :: rest, out, dotdot =>
    if c = '/' then
      -- empty path element
      cleanLoop rooted fuel rest out dotdot
    else if c = '.' ∧ (rest = [] ∨ rest.head? = some '/') then
      -- . element
      cleanLoop rooted fuel rest out dotdot
    else if c = '.' ∧ rest.head? = some '.' ∧
        (rest.tail = [] ∨ rest.tail.head? = some '/') then
      -- .. element: remove to last /
      if dotdot < out.length then
        -- can backtrack
        cleanLoop rooted fuel rest.tail
          (out.take (backtrack out dotdot (out.length - 1))) dotdot
      else if !rooted then
        -- cannot backtrack, but not rooted, so append .. element.
        let out1 := if 0 < out.length then out ++ ['/'] else out
        let out2 := out1 ++ ['.', '.']
        cleanLoop rooted fuel rest.tail out2 out2.length
      else
        cleanLoop rooted fuel rest.tail out dotdot
    else
      -- real path element.  add slash if needed
      let out1 :=
        if (rooted ∧ out.length ≠ 1) ∨ (¬ rooted ∧ out.length ≠ 0) then out ++ ['/']
        else out
      -- copy element
      let copied := copyElem out1 (c :: rest)
      cleanLoop rooted fuel copied.2 copied.1 dotdot

/-- Go `path.Clean(path)`.  Every iteration of the main loop reads at least one
byte, so `len(path)` iterations are enough (`Clean_isSome` below). -/
def Clean (p : GoString) : Option GoString :=
  match p with
  | [] => some ['.']
  | c :: rest =>
    let rooted : Bool := c = '/'
    let r :=
      if rooted then cleanLoop rooted p.length rest ['/'] 1
      else cleanLoop rooted p.length p [] 0
    -- Turn empty string into "."
    r.map fun out => if out.length = 0 then ['.'] else out

end path

/-! ## Package `dnsserver`: constants and client information -/

namespace dnsserver

/-- The constant `MimeTypeDoH`. -/
def MimeTypeDoH : GoString := "application/dns-message".toList

/-- The constant `MimeTypeJSON`. -/
def MimeTypeJSON : GoString := "application/x-javascript".toList

/-- The constant `PathDoH`. -/
def PathDoH : GoString := "/dns-query".toList

/-- The constant `PathJSON`. -/
def PathJSON : GoString := "/resolve".toList

/-- The protocol tags `dnsserver.Protocol` (aliased as `agd.Protocol`). -/
inductive Protocol where
  | ProtoInvalid
  | ProtoDNSTCP
  | ProtoDNSUDP
  | ProtoDoH
  | ProtoDoQ
  | ProtoDoT
  | ProtoDNSCryptTCP
  | ProtoDNSCryptUDP
  deriving DecidableEq, Repr

/-- Go `url.Values`, the parsed query of a URL: keys with their values, a key
occurring at most once. -/
abbrev Values := List (GoString × List GoString)

/-- Go `url.Values.Get(key)`: the first value of the key, or the empty
string. -/
def Values.Get (v : Values) (key : GoString) : GoString :=
  match v.lookup key with
  | some (x :: _) => x
  | _ => []

/-- Go `*url.URL`, reduced to the fields the embedded code reads: `Path` and
the parsed query `u.Query()`. -/
structure URL where
  Path : GoString
  Query : Values := []
  deriving DecidableEq, Repr

/-- The struct `dnsserver.ClientInfo`; `URL` is a pointer and may be nil. -/
structure ClientInfo where
  URL : Option URL := none
  TLSServerName : GoString := []
  deriving DecidableEq, Repr

/-- The first lines of `deviceIDFromDoHURL` and of `isDoH`:
`parts := strings.Split(path.Clean(origPath), "/")` followed by
`if parts[0] == "" { parts = parts[1:] }`.  `none` is a panic of `parts[0]`. -/
def pathParts (origPath : GoString) : Option (List GoString) :=
  match path.Clean origPath with
  | none => none
  | some cleaned =>
    match strings.Split cleaned '/' with
    | [] => none
    | p0 :: tl => if p0 = [] then some tl else some (p0 :: tl)

/-- The errors of the DoH HTTP handler, kept structured. -/
inductive HTTPError where
  /-- The error `fmt.Errorf("no 'dns' query parameter found")`. -/
  | noDNSParam
  /-- The error `fmt.Errorf("multiple 'dns' query values found")`. -/
  | multipleDNSValues
  /-- The error `fmt.Errorf("method not allowed: %s", req.Method)`. -/
  | methodNotAllowed (method : GoString)
  /-- Go `base64.CorruptInputError`, with the offset of the illegal byte. -/
  | corruptInput (offset : Nat)
  /-- The error `fmt.Errorf("invalid request path: %s", r.URL.Path)`. -/
  | invalidPath (path : GoString)
  /-- The error `fmt.Errorf("invalid content type: %s", ct)`. -/
  | invalidContentType (ct : GoString)
  /-- An error of a function outside `serverhttps.go`, with its message. -/
  | other (msg : GoString)
  deriving DecidableEq, Repr

/-- Go `*http.Request`, reduced to what the embedded code reads: the field
`URL`, the method, the result of `io.ReadAll(req.Body)`, the address and port
that `RemoteAddr` holds (`none` when it is not a valid `ip:port`), and the
server name of the TLS connection (`none` when `r.TLS` is nil). -/
structure Request where
  URL : URL
  Method : GoString := "GET".toList
  Body : List Nat × Option HTTPError := ([], none)
  RemoteAddr : Option (Nat × Nat) := some (2130706433, 40000)
  TLSServerName : Option GoString := none
  deriving DecidableEq, Repr

/-- The function `isDoH`; the result is `(ok, isJSON, ct)`. -/
def isDoH (r : Request) : Option (Bool × Bool × GoString) :=
  match pathParts r.URL.Path with
  | none => none
  | some [] => none
  | some (p0 :: _) =>
    if p0 = [] then some (false, false, [])
    else if strings.HasSuffix PathDoH p0 = true then some (true, false, MimeTypeDoH)
    else if strings.HasSuffix PathJSON p0 = true then
      let desiredCt := r.URL.Query.Get "ct".toList
      if desiredCt = MimeTypeDoH then some (true, true, MimeTypeDoH)
      else some (true, true, MimeTypeJSON)
    else some (false, false, [])

end dnsserver

/-! ## Package `agd` and `agdnet`: parts not in the source tree -/

/-- Errors of the device-ID extraction.  `fmt.Errorf` values are kept
structured: the format and its argument, not the rendered message. -/
inductive GoError where
  /-- The error `fmt.Errorf("bad path %q", u.Path)`. -/
  | badPath (path : GoString)
  /-- The error `fmt.Errorf("bad path %q: extra parts", u.Path)`. -/
  | badPathExtraParts (path : GoString)
  /-- An error of `agd.NewDeviceID`, with its message. -/
  | badDeviceID (msg : GoString)
  /-- The value `&deviceIDError{err: err, typ: typ}`. -/
  | deviceIDError (err : GoError) (typ : GoString)
  deriving DecidableEq, Repr

namespace agd

/-- The type `agd.DeviceID`, a string. -/
abbrev DeviceID := GoString

/-- The device-ID grammar: for a string, the validation error or `none` when
the string is a valid device ID.  The spec leaves the grammar open, so it is
an argument of everything that validates. -/
abbrev Grammar := GoString → Option GoError

/-- Modelled from the spec: `agd.NewDeviceID` (package `internal/agd` is not
among the sources).  The string "is then validated against the device-ID
grammar (opaque to this spec ...)": a valid string is returned as the ID,
an invalid one gives the empty ID and the validation error. -/
def NewDeviceID (grammar : Grammar) (s : GoString) : DeviceID × Option GoError :=
  match grammar s with
  | none => (s, none)
  | some err => ([], some err)

end agd

namespace agdnet

/-- Modelled from the spec: `agdnet.IsImmediateSubdomain(domain, top)` (package
`internal/agdnet` is not among the sources).  "A client SNI matches if the
suffix after its first label equals exactly `<domain>` - i.e. immediate
subdomain, not arbitrary depth"; the wildcard is "matching exactly one label".
The first label is what precedes the first dot; it must be a label, that is,
not empty. -/
def IsImmediateSubdomain (domain top : GoString) : Bool :=
  let label := domain.takeWhile (· ≠ '.')
  let rest := domain.dropWhile (· ≠ '.')
  decide (label ≠ []) && (rest == '.' :: top)

end agdnet

/-! ## Package `dnssvc`: `deviceid.go` -/

namespace dnssvc

open dnsserver agd

/-- The wildcard loop of `deviceIDFromClientServerName`; returns
`matchedDomain`.  `none` is the panic of `wildcard[len("*."):]` on a wildcard
shorter than two bytes. -/
def matchWildcards (cliSrvName : GoString) : List GoString → Option GoString
  | [] => some []
  | wildcard :: rest =>
    if wildcard.length < 2 then none
    else
      let domain := wildcard.drop 2
      let matched := agdnet.IsImmediateSubdomain cliSrvName domain
      if matched then some domain else matchWildcards cliSrvName rest

/-- The function `deviceIDFromClientServerName`. -/
def deviceIDFromClientServerName (grammar : Grammar) (cliSrvName : GoString)
    (wildcards : List GoString) : Option (DeviceID × Option GoError) :=
  if cliSrvName = [] then some ([], none)
  else
    match matchWildcards cliSrvName wildcards with
    | none => none
    | some matchedDomain =>
      if matchedDomain = [] then some ([], none)
      else if cliSrvName.length < matchedDomain.length + 1 then
        -- cliSrvName[:len(cliSrvName)-len(matchedDomain)-1] with a negative bound
        none
      else
        let idStr := cliSrvName.take (cliSrvName.length - matchedDomain.length - 1)
        match NewDeviceID grammar idStr with
        | (_, some err) => some ([], some err)
        | (id, none) => some (id, none)

/-- The function `deviceIDFromDoHURL`, on a non-nil URL. -/
def deviceIDFromDoHURL (grammar : Grammar) (u : URL) : Option (DeviceID × Option GoError) :=
  match pathParts u.Path with
  | none => none
  | some [] => none
  | some (p0 :: tl) =>
    if p0 = [] ∨ (strings.HasSuffix PathDoH p0 = false ∧ strings.HasSuffix PathJSON p0 = false) then
      some ([], some (GoError.badPath u.Path))
    else
      match tl with
      | [] =>
        -- Just /dns-query, no device ID.
        some ([], none)
      | [p1] =>
        match NewDeviceID grammar p1 with
        | (_, some err) => some ([], some err)
        | (id, none) => some (id, none)
      | _ :: _ :: _ => some ([], some (GoError.badPathExtraParts u.Path))

/-- The method `(*deviceIDError).Unwrap`; `none` on an error of another type. -/
def deviceIDError.Unwrap : GoError → Option GoError
  | GoError.deviceIDError err _ => some err
  | _ => none

/-- The field `typ` of a `*deviceIDError`; `none` on an error of another type. -/
def deviceIDError.typ : GoError → Option GoString
  | GoError.deviceIDError _ typ => some typ
  | _ => none

/-- The method `(*deviceIDError).IsRavenReportable`; `none` on an error of
another type, which does not have the method. -/
def deviceIDError.IsRavenReportable : GoError → Option Bool
  | GoError.deviceIDError _ _ => some false
  | _ => none

/-- The function `deviceIDFromContext`.  The context is reduced to what
`dnsserver.MustClientInfoFromContext` finds in it: `none` when there is no
client information, in which case that function panics.  A nil `ci.URL`
panics in `deviceIDFromDoHURL` at `u.Path`. -/
def deviceIDFromContext (grammar : Grammar) (ctx : Option ClientInfo) (proto : Protocol)
    (wildcards : List GoString) : Option (DeviceID × Option GoError) :=
  match ctx with
  | none => none
  | some ci =>
    let sni : Option (DeviceID × Option GoError) :=
      if wildcards.length = 0 then some ([], none)
      else
        let cliSrvName := ci.TLSServerName
        match deviceIDFromClientServerName grammar cliSrvName wildcards with
        | none => none
        | some (_, some err) =>
          some ([], some (GoError.deviceIDError err "tls server name".toList))
        | some (id, none) => some (id, none)
    if proto = Protocol.ProtoDoH then
      match ci.URL with
      | none => none
      | some u =>
        match deviceIDFromDoHURL grammar u with
        | none => none
        | some (_, some err) => some ([], some (GoError.deviceIDError err "http url".toList))
        | some (id, none) =>
          if id ≠ [] then some (id, none)
          else
            -- Go on and check the domain name as well.
            sni
    else if proto ≠ Protocol.ProtoDoT ∧ proto ≠ Protocol.ProtoDoQ then some ([], none)
    else sni

/-- A sample device-ID grammar, used to run the functions on concrete inputs:
one to eight bytes, each a lower-case letter, a digit or a hyphen. -/
def sampleGrammar : Grammar := fun s =>
  if s.length = 0 then some (GoError.badDeviceID "too short".toList)
  else if 8 < s.length then some (GoError.badDeviceID "too long".toList)
  else if s.all (fun c => c.isLower || c.isDigit || c = '-') then none
  else some (GoError.badDeviceID "bad label".toList)

/-- The wildcard has the form `*.<domain>`. -/
def IsWildcard (w : GoString) : Prop := ∃ d : GoString, w = '*' :: '.' :: d

/-- The name is an immediate subdomain of the domain, exactly one label
deeper: it is `<label>.<domain>` for a non-empty label without a dot. -/
def ImmediateSubdomainOf (name domain : GoString) : Prop :=
  ∃ label : GoString, label ≠ [] ∧ '.' ∉ label ∧ name = label ++ '.' :: domain

end dnssvc

/-! ## Package `cmd`: `upstream.go` -/

namespace netip

/-- Go `netip.Addr`: the 128-bit address and the family-and-zone tag `z`,
which is `0` in the zero `Addr`. -/
structure Addr where
  addr : Nat := 0
  z : Nat := 0
  deriving DecidableEq, Repr

/-- Go `netip.AddrPort`; the zero value is `netip.AddrPort{}`. -/
structure AddrPort where
  ip : Addr := {}
  port : Nat := 0
  deriving DecidableEq, Repr

end netip

namespace cmd

/-- Go `time.Duration` inside `timeutil.Duration`: signed nanoseconds. -/
abbrev Duration := Int

/-- The errors of the configuration validation, kept structured. -/
inductive ConfigError where
  /-- The value `errNilConfig`. -/
  | errNilConfig
  /-- The error `errors.Error("no server")`. -/
  | noServer
  /-- The error `errors.Error("no fallback")`. -/
  | noFallback
  /-- The error `newMustBePositiveError(prop, v)`. -/
  | mustBePositive (prop : GoString) (v : Duration)
  /-- The error `fmt.Errorf("fallback at index %d: no address", i)`. -/
  | fallbackNoAddress (i : Nat)
  /-- The error `errors.Error("no domain_tmpl")`. -/
  | noDomainTmpl
  /-- An error annotated by `errors.Annotate(err, format)`. -/
  | annotated (format : GoString) (err : ConfigError)
  deriving DecidableEq, Repr

/-- The function `errors.Annotate` of golibs: nil stays nil, another error is
wrapped with the format. -/
def Annotate (err : Option ConfigError) (format : GoString) : Option ConfigError :=
  match err with
  | none => none
  | some e => some (ConfigError.annotated format e)

/-- The struct `upstreamHealthcheckConfig`. -/
structure upstreamHealthcheckConfig where
  DomainTmpl : GoString
  Interval : Duration
  Timeout : Duration
  BackoffDuration : Duration
  Enabled : Bool
  deriving DecidableEq, Repr

/-- The struct `upstreamConfig`; `Healthcheck` is a pointer and may be nil. -/
structure upstreamConfig where
  Healthcheck : Option upstreamHealthcheckConfig
  Server : netip.AddrPort
  FallbackServers : List netip.AddrPort
  Timeout : Duration
  deriving DecidableEq, Repr

/-- The method `(*upstreamHealthcheckConfig).validate`, on a pointer. -/
def upstreamHealthcheckConfig.validate (c : Option upstreamHealthcheckConfig) :
    Option ConfigError :=
  match c with
  | none => some ConfigError.errNilConfig
  | some c =>
    if !c.Enabled then none
    else if c.DomainTmpl = [] then some ConfigError.noDomainTmpl
    else if c.Interval ≤ 0 then some (ConfigError.mustBePositive "interval".toList c.Interval)
    else if c.Timeout ≤ 0 then some (ConfigError.mustBePositive "timeout".toList c.Timeout)
    else if c.BackoffDuration ≤ 0 then
      some (ConfigError.mustBePositive "backoff_duration".toList c.BackoffDuration)
    else none

/-- The loop `for i, ipp := range c.FallbackServers` of `upstreamConfig.validate`,
from index `i` on: the error of the first zero address, if there is one. -/
def validateFallbacks : List netip.AddrPort → Nat → Option ConfigError
  | [], _ => none
  | ipp :: rest, i =>
    if ipp = ({} : netip.AddrPort) then some (ConfigError.fallbackNoAddress i)
    else validateFallbacks rest (i + 1)

/-- The method `(*upstreamConfig).validate`, on a pointer. -/
def upstreamConfig.validate (c : Option upstreamConfig) : Option ConfigError :=
  match c with
  | none => some ConfigError.errNilConfig
  | some c =>
    if c.Server = ({} : netip.AddrPort) then some ConfigError.noServer
    else if c.FallbackServers.length = 0 then some ConfigError.noFallback
    else if c.Timeout ≤ 0 then some (ConfigError.mustBePositive "timeout".toList c.Timeout)
    else
      match validateFallbacks c.FallbackServers 0 with
      | some err => some err
      | none =>
        Annotate (upstreamHealthcheckConfig.validate c.Healthcheck) "healthcheck: %w".toList

/-- The invariants of an upstream configuration in the words of the spec, with
the healthcheck configuration optional: "primary is set; at least one
fallback; timeout strictly positive; if healthcheck enabled, all four
sub-durations positive and domain template non-empty". -/
def specInvariants (c : upstreamConfig) : Prop :=
  c.Server ≠ ({} : netip.AddrPort) ∧ c.FallbackServers ≠ [] ∧ 0 < c.Timeout ∧
    ∀ hc, c.Healthcheck = some hc → hc.Enabled = true →
      hc.DomainTmpl ≠ [] ∧ 0 < hc.Interval ∧ 0 < hc.Timeout ∧ 0 < hc.BackoffDuration

end cmd

/-! ## Package `forward`: the health state of the primary upstream -/

namespace forward

/-- The two health states of the primary upstream. -/
inductive Health where
  | Healthy
  | Unhealthy
  deriving DecidableEq, Repr

/-- The health state with the recorded `down_since`; times and durations are
signed nanoseconds. -/
structure HealthState where
  state : Health
  downSince : Int
  deriving DecidableEq, Repr

/-- The initial state is `Healthy`. -/
def initial : HealthState := { state := Health.Healthy, downSince := 0 }

/-- Modelled from the spec: one probe of the primary-upstream health state
machine (package `internal/dnsserver/forward` is not among the sources), at
time `now` with result `ok`.  The five transitions:
"`Healthy` + probe fails → `Unhealthy`, record `down_since = now`",
"`Unhealthy` + probe fails → stay `Unhealthy`; advance `down_since = now`",
"`Unhealthy` + probe succeeds + `now - down_since ≥ backoff_duration` →
`Healthy`", "`Unhealthy` + probe succeeds + `now - down_since <
backoff_duration` → stay `Unhealthy`", "`Healthy` + probe succeeds → stay
`Healthy`". -/
def probe (backoffDuration : Int) (s : HealthState) (now : Int) (ok : Bool) : HealthState :=
  match s.state, ok with
  | Health.Healthy, false => { state := Health.Unhealthy, downSince := now }
  | Health.Unhealthy, false => { state := Health.Unhealthy, downSince := now }
  | Health.Unhealthy, true =>
    if backoffDuration ≤ now - s.downSince then { s with state := Health.Healthy }
    else s
  | Health.Healthy, true => s

/-- The state after a sequence of probes, each with its time and result. -/
def run (backoffDuration : Int) (s : HealthState) : List (Int × Bool) → HealthState
  | [] => s
  | (now, ok) :: rest => run backoffDuration (probe backoffDuration s now ok) rest

/-- The states after each probe of a sequence. -/
def states (backoffDuration : Int) (s : HealthState) : List (Int × Bool) → List Health
  | [] => []
  | (now, ok) :: rest =>
    (probe backoffDuration s now ok).state ::
      states backoffDuration (probe backoffDuration s now ok) rest

/-- The time of the most recent failed probe of a sequence, if any failed. -/
def lastFailure : List (Int × Bool) → Option Int
  | [] => none
  | (now, ok) :: rest =>
    match lastFailure rest with
    | some t => some t
    | none => if ok then none else some now

end forward

/-! ## Package `dnsserver`: server configuration and lifecycle -/

namespace dnsserver

/-- Go `time.Second`, in nanoseconds. -/
def Second : Int := 1000000000

/-- The constant `DefaultReadTimeout`. -/
def DefaultReadTimeout : Int := 2 * Second

/-- The constant `DefaultWriteTimeout`. -/
def DefaultWriteTimeout : Int := 2 * Second

/-- The constant `DefaultTCPIdleTimeout`. -/
def DefaultTCPIdleTimeout : Int := 30 * Second

/-- The constant `dns.MinMsgSize` of the DNS library. -/
def MinMsgSize : Int := 512

/-- The struct `ConfigBase`, of which the servers read the name, the address
and the protocol; `Rest` stands for its other fields. -/
structure ConfigBase where
  Name : GoString
  Addr : GoString
  Proto : Protocol
  Rest : Nat := 0
  deriving DecidableEq, Repr

/-- The struct `ConfigDNS`; durations are signed nanoseconds. -/
structure ConfigDNS where
  ConfigBase : ConfigBase
  ReadTimeout : Int
  WriteTimeout : Int
  UDPSize : Int
  TCPSize : Int
  TCPIdleTimeout : Int
  deriving DecidableEq, Repr

/-- The errors that the lifecycle methods return. -/
inductive ServerError where
  /-- The value `ErrServerAlreadyStarted`. -/
  | ErrServerAlreadyStarted
  /-- The value `ErrServerNotStarted`. -/
  | ErrServerNotStarted
  /-- The value `ErrInvalidArgument`. -/
  | ErrInvalidArgument
  /-- An error of opening a listener. -/
  | listen (msg : GoString)
  /-- An error of waiting for the serve tasks, such as the end of the context. -/
  | wait (msg : GoString)
  deriving DecidableEq, Repr

/-- A listener field of a server: nil, an open listener or a closed one. -/
inductive Listener where
  | absent
  | opened
  | closed
  deriving DecidableEq, Repr

/-- The calls a lifecycle method makes on the network and on its worker tasks,
recorded in order. -/
inductive Call where
  /-- A call of `listenUDP`, `listenTCP` or `listenTLS`. -/
  | listen
  /-- A call of `closeListeners`. -/
  | closeListeners
  /-- A call of `conn.SetReadDeadline` on the connection with this number. -/
  | setReadDeadline (conn : Nat)
  /-- A serve task started with `go`. -/
  | serve
  /-- A call of `httpServer.Shutdown`. -/
  | httpShutdown
  /-- A call of `waitShutdown`. -/
  | waitShutdown
  deriving DecidableEq, Repr

/-- The struct `ServerBase`, reduced to the fields that `Start` and `Shutdown`
touch, with the record of the calls made so far.  The lock is held during the
whole of `Start` and of `shutdown`, so each of them is one step. -/
structure ServerBase where
  name : GoString
  addr : GoString
  proto : Protocol
  started : Bool
  udpListener : Listener
  tcpListener : Listener
  wg : Nat
  calls : List Call
  deriving DecidableEq, Repr

/-- Modelled from the spec: `newServerBase` (not among the sources): a server
that is not started and has no listener. -/
def newServerBase (conf : ConfigBase) : ServerBase :=
  { name := conf.Name, addr := conf.Addr, proto := conf.Proto, started := false,
    udpListener := Listener.absent, tcpListener := Listener.absent, wg := 0, calls := [] }

/-- Modelled from the spec: `(*ServerBase).closeListeners` (not among the
sources): "Close listeners (unblocks accept)".  A listener that is set is
closed. -/
def ServerBase.closeListeners (s : ServerBase) : ServerBase :=
  { s with
    udpListener := if s.udpListener = Listener.absent then Listener.absent else Listener.closed,
    tcpListener := if s.tcpListener = Listener.absent then Listener.absent else Listener.closed,
    calls := s.calls ++ [Call.closeListeners] }

/-- Modelled from the spec: `(*ServerBase).waitShutdown` (not among the
sources): "Wait for the accept/serve tasks to drain, bounded by the shutdown
context".  `waitErr` is its result; when it is nil the tasks have drained. -/
def ServerBase.waitShutdown (s : ServerBase) (waitErr : Option ServerError) :
    ServerBase × Option ServerError :=
  ({ s with wg := if waitErr = none then 0 else s.wg,
            calls := s.calls ++ [Call.waitShutdown] }, waitErr)

/-- A tracked TCP connection with its read deadline, if one was set. -/
structure Conn where
  id : Nat
  readDeadline : Option Int := none
  deriving DecidableEq, Repr

/-- The struct `ServerDNS`: the base, the configuration, the sizes of the two
buffer pools and the tracked TCP connections. -/
structure ServerDNS where
  ServerBase : ServerBase
  conf : ConfigDNS
  udpPoolSize : Int
  tcpPoolSize : Int
  tcpConns : List Conn
  deriving DecidableEq, Repr

/-- The function `newServerDNS`. -/
def newServerDNS (conf : ConfigDNS) : ServerDNS :=
  -- Init default settings first
  let conf := if conf.ReadTimeout = 0 then { conf with ReadTimeout := DefaultReadTimeout } else conf
  let conf :=
    if conf.WriteTimeout = 0 then { conf with WriteTimeout := DefaultWriteTimeout } else conf
  let conf :=
    if conf.TCPIdleTimeout = 0 then { conf with TCPIdleTimeout := DefaultTCPIdleTimeout }
    else conf
  let conf := if conf.UDPSize = 0 then { conf with UDPSize := MinMsgSize } else conf
  let conf := if conf.TCPSize = 0 then { conf with TCPSize := MinMsgSize } else conf
  { ServerBase := newServerBase conf.ConfigBase, conf := conf,
    tcpConns := [], udpPoolSize := conf.UDPSize, tcpPoolSize := conf.TCPSize }

/-- The method `(*ServerDNS).Start`.  `listenErr` is the result of `listenUDP`
or `listenTCP`, which on success sets the listener. -/
def ServerDNS.Start (s : ServerDNS) (listenErr : Option ServerError) :
    ServerDNS × Option ServerError :=
  if s.ServerBase.started then (s, some ServerError.ErrServerAlreadyStarted)
  else
    let b := { s.ServerBase with started := true }
    match b.proto with
    | Protocol.ProtoDNSUDP =>
      match listenErr with
      | some err => ({ s with ServerBase := { b with calls := b.calls ++ [Call.listen] } },
          some err)
      | none =>
        ({ s with ServerBase := { b with udpListener := Listener.opened, wg := b.wg + 1,
                                         calls := b.calls ++ [Call.listen, Call.serve] } },
          none)
    | Protocol.ProtoDNSTCP =>
      match listenErr with
      | some err => ({ s with ServerBase := { b with calls := b.calls ++ [Call.listen] } },
          some err)
      | none =>
        ({ s with ServerBase := { b with tcpListener := Listener.opened, wg := b.wg + 1,
                                         calls := b.calls ++ [Call.listen, Call.serve] } },
          none)
    | _ => ({ s with ServerBase := b }, some ServerError.ErrInvalidArgument)

/-- The method `(*ServerDNS).shutdown`. -/
def ServerDNS.shutdown (s : ServerDNS) : ServerDNS × Option ServerError :=
  if !s.ServerBase.started then (s, some ServerError.ErrServerNotStarted)
  else
    -- First, mark it as stopped.  Now close all listeners.
    ({ s with ServerBase := ({ s.ServerBase with started := false }).closeListeners }, none)

/-- The method `(*ServerDNS).unblockTCPConns`: every tracked connection gets
the read deadline `time.Unix(1, 0)`. -/
def ServerDNS.unblockTCPConns (s : ServerDNS) : ServerDNS :=
  { s with
    tcpConns := s.tcpConns.map fun c => { c with readDeadline := some Second },
    ServerBase := { s.ServerBase with
      calls := s.ServerBase.calls ++ s.tcpConns.map fun c => Call.setReadDeadline c.id } }

/-- The method `(*ServerDNS).Shutdown`; `waitErr` is the result of
`waitShutdown`. -/
def ServerDNS.Shutdown (s : ServerDNS) (waitErr : Option ServerError) :
    ServerDNS × Option ServerError :=
  match s.shutdown with
  | (s1, some err) => (s1, some err)
  | (s1, none) =>
    let s2 := s1.unblockTCPConns
    let w := s2.ServerBase.waitShutdown waitErr
    ({ s2 with ServerBase := w.1 }, w.2)

/-- The struct `ServerTLS`: a `ServerDNS` and whether a TLS configuration is
set. -/
structure ServerTLS where
  ServerDNS : ServerDNS
  hasTLSConfig : Bool
  deriving DecidableEq, Repr

/-- The function `NewServerTLS`. -/
def NewServerTLS (conf : ConfigDNS) (hasTLSConfig : Bool) : ServerTLS :=
  { ServerDNS := newServerDNS conf, hasTLSConfig := hasTLSConfig }

/-- The method `(*ServerTLS).Start`.  `listenErr` is the result of `listenTCP`
inside `listenTLS`, which on success sets the TCP listener. -/
def ServerTLS.Start (s : ServerTLS) (listenErr : Option ServerError) :
    ServerTLS × Option ServerError :=
  if s.ServerDNS.ServerBase.started then (s, some ServerError.ErrServerAlreadyStarted)
  else
    let b := { s.ServerDNS.ServerBase with started := true }
    match listenErr with
    | some err =>
      ({ s with ServerDNS := { s.ServerDNS with
          ServerBase := { b with calls := b.calls ++ [Call.listen] } } }, some err)
    | none =>
      -- Start the TLS server loop; the listener was just set and is not nil.
      ({ s with ServerDNS := { s.ServerDNS with
          ServerBase := { b with tcpListener := Listener.opened,
                                 calls := b.calls ++ [Call.listen, Call.serve] } } }, none)

/-- The method `Shutdown` of a `*ServerTLS`, which is the one of the embedded
`*ServerDNS`. -/
def ServerTLS.Shutdown (s : ServerTLS) (waitErr : Option ServerError) :
    ServerTLS × Option ServerError :=
  let r := s.ServerDNS.Shutdown waitErr
  ({ s with ServerDNS := r.1 }, r.2)

/-- The struct `ServerHTTPS`: the base, whether `httpServer` is set and whether
a TLS configuration is set. -/
structure ServerHTTPS where
  ServerBase : ServerBase
  httpServer : Bool
  hasTLSConfig : Bool
  deriving DecidableEq, Repr

/-- The function `NewServerHTTPS`. -/
def NewServerHTTPS (conf : ConfigBase) (hasTLSConfig : Bool) : ServerHTTPS :=
  { ServerBase := newServerBase conf, httpServer := false, hasTLSConfig := hasTLSConfig }

/-- The method `(*ServerHTTPS).Start`.  `listenErr` is the result of
`listenTCP` inside `listenTLS`, which on success sets the TCP listener. -/
def ServerHTTPS.Start (s : ServerHTTPS) (listenErr : Option ServerError) :
    ServerHTTPS × Option ServerError :=
  if s.ServerBase.started then (s, some ServerError.ErrServerAlreadyStarted)
  else
    let b := { s.ServerBase with started := true }
    match listenErr with
    | some err => ({ s with ServerBase := { b with calls := b.calls ++ [Call.listen] } },
        some err)
    | none =>
      -- Prepare and run the HTTP server.  Start the server thread.
      ({ s with httpServer := true,
                ServerBase := { b with tcpListener := Listener.opened, wg := b.wg + 1,
                                       calls := b.calls ++ [Call.listen, Call.serve] } },
        none)

/-- The method `(*ServerHTTPS).shutdown`.  `none` is the panic of
`s.httpServer.Shutdown` on a nil `httpServer`; an error of that call is only
logged. -/
def ServerHTTPS.shutdown (s : ServerHTTPS) : Option (ServerHTTPS × Option ServerError) :=
  if !s.ServerBase.started then some (s, some ServerError.ErrServerNotStarted)
  else
    -- First step, close the active listener right away
    let b := ({ s.ServerBase with started := false }).closeListeners
    -- Second, shutdown the HTTP server
    if s.httpServer then
      some ({ s with ServerBase := { b with calls := b.calls ++ [Call.httpShutdown] } }, none)
    else none

/-- The method `(*ServerHTTPS).Shutdown`; `waitErr` is the result of
`waitShutdown`. -/
def ServerHTTPS.Shutdown (s : ServerHTTPS) (waitErr : Option ServerError) :
    Option (ServerHTTPS × Option ServerError) :=
  match s.shutdown with
  | none => none
  | some (s1, some err) => some (s1, some err)
  | some (s1, none) =>
    let w := s1.ServerBase.waitShutdown waitErr
    some ({ s1 with ServerBase := w.1 }, w.2)

/-- A call of a lifecycle method, with the results of the environment that it
meets. -/
inductive Op where
  /-- A call of `Start`, with the result of listening. -/
  | start (listenErr : Option ServerError)
  /-- A call of `Shutdown`, with the result of waiting. -/
  | shutdown (waitErr : Option ServerError)
  deriving DecidableEq, Repr

/-- One call on a `ServerDNS`. -/
def ServerDNS.step (s : ServerDNS) : Op → ServerDNS × Option ServerError
  | Op.start listenErr => s.Start listenErr
  | Op.shutdown waitErr => s.Shutdown waitErr

/-- A sequence of calls on a `ServerDNS`: the final server and the results of
the calls, in order. -/
def ServerDNS.run (s : ServerDNS) : List Op → ServerDNS × List (Option ServerError)
  | [] => (s, [])
  | op :: ops =>
    let r := s.step op
    let rest := ServerDNS.run r.1 ops
    (rest.1, r.2 :: rest.2)

/-- The server is running: it is marked as started and a listener is open. -/
def ServerDNS.Running (s : ServerDNS) : Prop :=
  s.ServerBase.started = true ∧
    (s.ServerBase.udpListener = Listener.opened ∨ s.ServerBase.tcpListener = Listener.opened)

end dnsserver

/-! ## Package `ecscache`: `ecscache.go` -/

namespace netip

/-- The tag `z4` of an IPv4 address in the field `z` of a `netip.Addr`. -/
def z4 : Nat := 1

/-- The tag `z6noz` of an IPv6 address without a zone. -/
def z6noz : Nat := 2

/-- Go `netip.Addr.Is4`: `ip.z == z4`. -/
def Addr.Is4 (ip : Addr) : Bool := decide (ip.z = z4)

/-- Go `netip.Prefix`: an address and a prefix length; the zero value is
`netip.Prefix{}`. -/
structure Prefix where
  ip : Addr := {}
  bits : Int := 0
  deriving DecidableEq, Repr

/-- Go `netip.Prefix.Addr`. -/
def Prefix.Addr (p : Prefix) : Addr := p.ip

end netip

namespace agdnet

/-- The type `agdnet.AddrFamily`. -/
inductive AddrFamily where
  | AddrFamilyNone
  | AddrFamilyIPv4
  | AddrFamilyIPv6
  deriving DecidableEq, Repr

end agdnet

namespace agd

/-- The struct `agd.ECS`, reduced to the subnet and the scope. -/
structure ECS where
  Subnet : netip.Prefix
  Scope : Nat
  deriving DecidableEq, Repr

/-- The struct `agd.RequestInfo`, reduced to the fields that the cache
middleware reads; `ECS` is a pointer and may be nil. -/
structure RequestInfo where
  ECS : Option ECS
  RemoteIP : netip.Addr
  Host : GoString
  QType : Nat
  deriving DecidableEq, Repr

end agd

namespace ecscache

open agdnet

/-- The function `ecsFamFromReq`. -/
def ecsFamFromReq (ri : agd.RequestInfo) : AddrFamily :=
  match ri.ECS with
  | some ecs =>
    if ecs.Subnet.Addr.Is4 then AddrFamily.AddrFamilyIPv4
    else
      -- Assume that families other than IPv4 and IPv6 have been filtered out
      -- by dnsmsg.ECSFromMsg.
      AddrFamily.AddrFamilyIPv6
  | none =>
    -- Set the address family parameter to the one of the client's address
    if ri.RemoteIP.Is4 then AddrFamily.AddrFamilyIPv4 else AddrFamily.AddrFamilyIPv6

/-- The errors of the cache middleware, kept structured. -/
inductive Error where
  /-- An error of a function outside `ecscache.go`, with its message. -/
  | other (msg : GoString)
  /-- The error `fmt.Errorf(format, err)` with a format ending in `%w`. -/
  | wrapped (format : GoString) (err : Error)
  deriving DecidableEq, Repr

/-- The counters that `ecscache.go` increments and the gauges it sets. -/
inductive Metric where
  | ECSCacheLookupTotalHits
  | ECSCacheLookupHasSupportHits
  | ECSCacheLookupNoSupportHits
  | ECSCacheLookupTotalMisses
  | ECSCacheLookupHasSupportMisses
  | ECSCacheLookupNoSupportMisses
  | ECSHasSupportCacheSize
  | ECSNoSupportCacheSize
  deriving DecidableEq, Repr

/-- The functions that `ecscache.go` calls and that are not among the sources,
over a type `Msg` of DNS messages.  A function that changes the message it is
given returns the changed message. -/
structure Ops (Msg : Type) where
  /-- The function `dnsmsg.ECSFromMsg`: subnet, scope and error. -/
  ECSFromMsg : Msg → netip.Prefix × Nat × Option Error
  /-- The function `rmHopToHopData(resp, qt, reqDO)`. -/
  rmHopToHopData : Msg → Nat → Bool → Msg
  /-- The function `setRespAD(resp, reqAD, reqDO)`. -/
  setRespAD : Msg → Bool → Bool → Msg
  /-- The function `setECS(msg, ecs, ecsFam, isResp)`. -/
  setECS : Msg → agd.ECS → AddrFamily → Bool → Msg × Option Error
  /-- The field `AuthenticatedData` of a message. -/
  AuthenticatedData : Msg → Bool
  /-- The function `agdnet.ZeroSubnet`. -/
  ZeroSubnet : AddrFamily → netip.Prefix
  /-- The result of `rw.WriteMsg(ctx, req, resp)`. -/
  WriteMsg : Msg → Msg → Option Error

/-- The arguments of one call `m.set(resp, host, subnet, hostHasECS, reqDO)`. -/
structure SetCall (Msg : Type) where
  resp : Msg
  host : GoString
  subnet : netip.Prefix
  hostHasECS : Bool
  reqDO : Bool

/-- What a function of the middleware did: the metrics it touched, the calls
of `m.set` and the calls of `rw.WriteMsg` with request and response, all in
order. -/
structure Effects (Msg : Type) where
  metrics : List Metric := []
  stored : List (SetCall Msg) := []
  written : List (Msg × Msg) := []

/-- The function `writeCachedResponse`. -/
def writeCachedResponse {Msg : Type} (ops : Ops Msg) (req resp : Msg)
    (ecs : Option agd.ECS) (ecsFam : AddrFamily) (hostHasECS : Bool) :
    Effects Msg × Option Error :=
  let write (metrics : List Metric) (resp : Msg) : Effects Msg × Option Error :=
    match ops.WriteMsg req resp with
    | some err =>
      ({ metrics := metrics, written := [(req, resp)] },
        some (Error.wrapped "writing cached resp: %w".toList err))
    | none => ({ metrics := metrics, written := [(req, resp)] }, none)
  if hostHasECS then
    let metrics := [Metric.ECSCacheLookupTotalHits, Metric.ECSCacheLookupHasSupportHits]
    -- Only set the ECS info if the request had it originally.
    match ecs with
    | some e =>
      match ops.setECS resp e ecsFam true with
      | (_, some err) =>
        ({ metrics := metrics },
          some (Error.wrapped "setting ecs for cached resp: %w".toList err))
      | (resp1, none) => write metrics resp1
    | none => write metrics resp
  else
    write [Metric.ECSCacheLookupTotalHits, Metric.ECSCacheLookupNoSupportHits] resp

/-- The method `(*Middleware).writeUpstreamResponse`. -/
def writeUpstreamResponse {Msg : Type} (ops : Ops Msg) (req resp : Msg)
    (ri : agd.RequestInfo) (locSubnet : netip.Prefix) (ecsFam : AddrFamily) (reqDO : Bool) :
    Effects Msg × Option Error :=
  match ops.ECSFromMsg resp with
  | (_, _, some err) => ({}, some (Error.wrapped "getting ecs from resp: %w".toList err))
  | (subnet, scope, none) =>
    let resp := ops.rmHopToHopData resp ri.QType reqDO
    let hostHasECS : Bool := decide (scope ≠ 0) && decide (subnet ≠ ({} : netip.Prefix))
    let metrics :=
      if hostHasECS then
        [Metric.ECSCacheLookupTotalMisses, Metric.ECSCacheLookupHasSupportMisses,
          Metric.ECSHasSupportCacheSize]
      else
        [Metric.ECSCacheLookupTotalMisses, Metric.ECSCacheLookupNoSupportMisses,
          Metric.ECSNoSupportCacheSize]
    let locSubnet := if hostHasECS then locSubnet else ops.ZeroSubnet ecsFam
    let ecsFam := if hostHasECS then ecsFam else AddrFamily.AddrFamilyNone
    let stored : List (SetCall Msg) :=
      [{ resp := resp, host := ri.Host, subnet := locSubnet, hostHasECS := hostHasECS,
         reqDO := reqDO }]
    -- Set the AD bit and ECS information here, where it is safe to do so
    let resp := ops.setRespAD resp (ops.AuthenticatedData req) reqDO
    let write (resp : Msg) : Effects Msg × Option Error :=
      match ops.WriteMsg req resp with
      | some err =>
        ({ metrics := metrics, stored := stored, written := [(req, resp)] },
          some (Error.wrapped "writing upstream resp: %w".toList err))
      | none => ({ metrics := metrics, stored := stored, written := [(req, resp)] }, none)
    match hostHasECS, ri.ECS with
    | true, some e =>
      match ops.setECS resp e ecsFam true with
      | (_, some err) =>
        ({ metrics := metrics, stored := stored },
          some (Error.wrapped "responding with ecs: %w".toList err))
      | (resp1, none) => write resp1
    | _, _ => write resp

end ecscache

/-! ## Package `encoding/base64`: the encoding `RawURLEncoding` -/

namespace base64

/-- The alphabet `encodeURL`. -/
def encodeURL : GoString :=
  "ABCDEFGHIJKLMNOPQRSTUVWXYZabcdefghijklmnopqrstuvwxyz0123456789-_".toList

/-- The table `enc.encode` of `RawURLEncoding`; the index is below 64. -/
def encode (i : Nat) : Char := encodeURL.getD i 'A'

/-- The table `enc.decodeMap` of `RawURLEncoding`: the place of the byte in
the alphabet, and `0xff` for a byte that is not in it. -/
def decodeMap (c : Char) : Nat :=
  if encodeURL.indexOf c < 64 then encodeURL.indexOf c else 0xff

/-- Go `RawURLEncoding.EncodeToString`: three bytes give four bytes of the
alphabet, and a rest of one or two bytes gives two or three, without
padding. -/
def EncodeToString : List Nat → GoString
  | a :: b :: c :: rest =>
    let val := a <<< 16 ||| b <<< 8 ||| c
    encode (val >>> 18 &&& 0x3F) :: encode (val >>> 12 &&& 0x3F) ::
      encode (val >>> 6 &&& 0x3F) :: encode (val &&& 0x3F) :: EncodeToString rest
  | [a, b] =>
    let val := a <<< 16 ||| b <<< 8
    [encode (val >>> 18 &&& 0x3F), encode (val >>> 12 &&& 0x3F), encode (val >>> 6 &&& 0x3F)]
  | [a] =>
    let val := a <<< 16
    [encode (val >>> 18 &&& 0x3F), encode (val >>> 12 &&& 0x3F)]
  | [] => []

/-- The end of `decodeQuantum`: the `dlen` six-bit values read into `dbuf`
(two to four of them) are joined and `dlen - 1` bytes come out. -/
def quantumBytes (dbuf : List Nat) : List Nat :=
  let val := dbuf.getD 0 0 <<< 18 ||| dbuf.getD 1 0 <<< 12 ||| dbuf.getD 2 0 <<< 6 |||
    dbuf.getD 3 0
  let b2 := (val >>> 0) % 256
  let b1 := (val >>> 8) % 256
  let b0 := (val >>> 16) % 256
  match dbuf.length with
  | 4 => [b0, b1, b2]
  | 3 => [b0, b1]
  | 2 => [b0]
  | _ => []

/-- The results of `decodeQuantum`: the unread input `src[nsi:]`, the index
`nsi`, the bytes written to `dst`, and the offset of a `CorruptInputError`. -/
structure Quantum where
  rest : GoString
  nsi : Nat
  out : List Nat
  err : Option Nat
  deriving DecidableEq, Repr

/-- The method `decodeQuantum` of `RawURLEncoding`, which has no padding and
is not strict.  The unread input `src[si:]` is the list argument, `dbuf` holds
the `j` values read so far.  A byte outside the alphabet is skipped when it is
`\n` or `\r` and is an error otherwise, since no byte is the padding. -/
def decodeQuantum : GoString → Nat → List Nat → Quantum
  | [], si, dbuf =>
    match dbuf.length with
    | 0 => { rest := [], nsi := si, out := [], err := none }
    | 1 => { rest := [], nsi := si, out := [], err := some (si - 1) }
    | _ => { rest := [], nsi := si, out := quantumBytes dbuf, err := none }
  | c :: cs, si, dbuf =>
    if decodeMap c ≠ 0xff then
      if dbuf.length = 3 then
        { rest := cs, nsi := si + 1, out := quantumBytes (dbuf ++ [decodeMap c]), err := none }
      else decodeQuantum cs (si + 1) (dbuf ++ [decodeMap c])
    else if c = '\n' ∨ c = '\r' then decodeQuantum cs (si + 1) dbuf
    else { rest := cs, nsi := si + 1, out := [], err := some si }

/-- The loop `for si < len(src)` of `Decode`, which calls `decodeQuantum`
until the input is read or an error occurs; the bytes decoded so far are
returned with an error.  The loops of `Decode` that take eight and four bytes
at once give the same bytes as `decodeQuantum` and are left out.  `fuel` bounds
the number of rounds: `none` is returned only when it runs out. -/
def decodeLoop : Nat → GoString → Nat → Option (List Nat × Option Nat)
  | _, [], _ => some ([], none)
  | 0, _ :: _, _ => none
  | fuel + 1, c :: cs, si =>
    let q := decodeQuantum (c :: cs) si []
    match q.err with
    | some offset => some (q.out, some offset)
    | none =>
      match decodeLoop fuel q.rest q.nsi with
      | none => none
      | some (bs, err) => some (q.out ++ bs, err)

/-- Go `RawURLEncoding.DecodeString`.  Every round reads at least one byte, so
`len(s)` rounds are enough (`DecodeString_isSome` below). -/
def DecodeString (s : GoString) : Option (List Nat × Option Nat) :=
  decodeLoop s.length s 0

/-- The bytes of a string that the decoder does not skip: all but `\n` and
`\r`. -/
def significant (s : GoString) : GoString :=
  s.filter fun c => !(decide (c = '\n') || decide (c = '\r'))

/-- A string is unpadded base64url: every byte is in the alphabet and the
length is not 1 modulo 4. -/
def IsRawURL (s : GoString) : Prop :=
  (∀ c ∈ s, c ∈ encodeURL) ∧ s.length % 4 ≠ 1

/-- A string starts with a group that cannot be decoded: a byte outside the
alphabet after at most three bytes of the alphabet, or one byte of the alphabet
and nothing more. -/
def CorruptGroup (p : GoString) : Prop :=
  (∃ x : Char, x ∈ encodeURL ∧ p = [x]) ∨
    ∃ (gs : GoString) (c : Char) (tail : GoString),
      p = gs ++ c :: tail ∧ (∀ x ∈ gs, x ∈ encodeURL) ∧ gs.length ≤ 3 ∧ c ∉ encodeURL

end base64

/-! ## Package `dnsserver`: the DoH HTTP handler -/

namespace strings

/-- Go `strings.ToLower`.  A string of ASCII bytes is lowered byte by byte, the
bytes `A` to `Z` being moved by `a - A`.  A string with a byte of `0x80` or
above is handed to `strings.Map(unicode.ToLower, s)`, which is the parameter
`mapLower`: the case tables of package `unicode` are not embedded. -/
def ToLower (mapLower : GoString → GoString) (s : GoString) : GoString :=
  if s.all (fun c => decide (c.toNat < 0x80)) then s.map Char.toLower else mapLower s

end strings

namespace dnsserver

/-- The function `httpRequestToMsgPost`. -/
def httpRequestToMsgPost (req : Request) : List Nat × Option HTTPError := req.Body

/-- The function `httpRequestToMsgGet`.  `none` is returned only when the
decoder runs out of fuel. -/
def httpRequestToMsgGet (req : Request) : Option (List Nat × Option HTTPError) :=
  match req.URL.Query.lookup "dns".toList with
  | none => some ([], some HTTPError.noDNSParam)
  | some b64 =>
    match b64 with
    | [v] =>
      match base64.DecodeString v with
      | none => none
      | some (b, err) => some (b, err.map HTTPError.corruptInput)
    | _ => some ([], some HTTPError.multipleDNSValues)

/-- The method `Error` of the errors of the handler: the message. -/
def HTTPError.Error : HTTPError → GoString
  | HTTPError.noDNSParam => "no \x27dns\x27 query parameter found".toList
  | HTTPError.multipleDNSValues => "multiple \x27dns\x27 query values found".toList
  | HTTPError.methodNotAllowed method => "method not allowed: ".toList ++ method
  | HTTPError.corruptInput offset =>
    "illegal base64 data at input byte ".toList ++ (Nat.repr offset).toList
  | HTTPError.invalidPath path => "invalid request path: ".toList ++ path
  | HTTPError.invalidContentType ct => "invalid content type: ".toList ++ ct
  | HTTPError.other msg => msg

/-- The bytes of a string, every character standing for one byte. -/
def bytesOf (s : GoString) : List Nat := s.map Char.toNat

/-- The Go type `http.ResponseWriter`, as what the handler has done with it:
the status code of the first `WriteHeader`, the headers that were set before
it, and the bytes given to `Write`, in order (`none` when `Write` was never
called). -/
structure ResponseWriter where
  status : Option Nat := none
  contentType : Option GoString := none
  xContentTypeOptions : Option GoString := none
  cacheControl : Option GoString := none
  contentLength : Option Nat := none
  body : Option (List Nat) := none
  deriving DecidableEq, Repr

/-- Go `http.ResponseWriter.WriteHeader`: only the first call sends a status
code. -/
def ResponseWriter.WriteHeader (w : ResponseWriter) (code : Nat) : ResponseWriter :=
  if w.status.isSome then w else { w with status := some code }

/-- Go `http.ResponseWriter.Write`: it calls `WriteHeader(http.StatusOK)` when
no status code has been sent, and the bytes follow those written before. -/
def ResponseWriter.Write (w : ResponseWriter) (b : List Nat) : ResponseWriter :=
  { w.WriteHeader 200 with body := some (w.body.getD [] ++ b) }

/-- Go `http.Error(w, error, code)`: it sets the content type of a plain text
and `X-Content-Type-Options: nosniff`, removes `Content-Length`, calls
`WriteHeader(code)` and writes the message and a line feed with
`fmt.Fprintln(w, error)`.  Headers set after a status code has been sent have
no effect.  (Go before 1.23 leaves `Content-Length`; the handler calls
`http.Error` only where that header is not set or the status code has been
sent.) -/
def httpError (w : ResponseWriter) (error : GoString) (code : Nat) : ResponseWriter :=
  let w :=
    if w.status.isSome then w
    else { w with contentType := some "text/plain; charset=utf-8".toList,
                  xContentTypeOptions := some "nosniff".toList, contentLength := none }
  let w := w.WriteHeader code
  w.Write (bytesOf error ++ [10])

/-- The constant `http.StatusOK`. -/
def StatusOK : Nat := 200

/-- The constant `http.StatusBadRequest`. -/
def StatusBadRequest : Nat := 400

/-- The constant `http.StatusNotFound`. -/
def StatusNotFound : Nat := 404

/-- The constant `http.StatusInternalServerError`. -/
def StatusInternalServerError : Nat := 500

/-- What the HTTP handler meets outside `serverhttps.go`, over a type `Msg` of
DNS messages: the configured `NonDNSHandler`, and the functions that are not
among the sources. -/
structure HandlerEnv (Msg : Type) where
  /-- The field `conf.NonDNSHandler`, nil or a handler, which sends what it
  likes. -/
  NonDNSHandler : Option (Request → ResponseWriter → ResponseWriter)
  /-- The function `httpRequestToMsgJSON`. -/
  httpRequestToMsgJSON : Request → List Nat × Option HTTPError
  /-- The call `h.srv.serveDNS(ctx, m, rw)` on the client information and the
  bytes of the query: `none` when nothing was written, else the request
  `rw.req` and the response `rw.Msg()`. -/
  serveDNS : ClientInfo → List Nat → Option (Msg × Msg)
  /-- The function `normalize(NetworkTCP, req, resp)`, as the response it
  leaves. -/
  normalize : Msg → Msg → Msg
  /-- The method `resp.Pack()`. -/
  Pack : Msg → List Nat × Option HTTPError
  /-- The function `dnsMsgToJSON`. -/
  dnsMsgToJSON : Msg → List Nat × Option HTTPError
  /-- The header value `max-age=...` made from `minimalTTL(resp)`. -/
  maxAge : Msg → GoString
  /-- The result of `w.Write(buf)`. -/
  Write : List Nat → Option HTTPError
  /-- Go `strings.Map(unicode.ToLower, s)`, which `strings.ToLower` uses for a
  string that is not ASCII. -/
  mapToLower : GoString → GoString

/-- What one request did: what was sent, the number of calls of
`metrics.OnInvalidMsg`, the number of calls of `srv.serveDNS`, whether the
request was given to `NonDNSHandler`, and whether a panic was recovered by
`handlePanicAndRecover`. -/
structure Served where
  w : ResponseWriter := {}
  invalidMsgs : Nat := 0
  dnsCalls : Nat := 0
  delegated : Bool := false
  panicked : Bool := false
  deriving DecidableEq, Repr

/-- The function `httpRequestToMsg`.  `none` is a panic or the decoder out of
fuel. -/
def httpRequestToMsg {Msg : Type} (env : HandlerEnv Msg) (req : Request) :
    Option (List Nat × Option HTTPError) :=
  match isDoH req with
  | none => none
  | some (_, isJSON, _) =>
    if isJSON then some (env.httpRequestToMsgJSON req)
    else if req.Method = "GET".toList then httpRequestToMsgGet req
    else if req.Method = "POST".toList then some (httpRequestToMsgPost req)
    else some ([], some (HTTPError.methodNotAllowed req.Method))

/-- The method `(*httpHandler).writeResponse`: what was sent and the error.
`none` is a panic of `isDoH`. -/
def writeResponse {Msg : Type} (env : HandlerEnv Msg) (req resp : Msg) (r : Request)
    (w : ResponseWriter) : Option (ResponseWriter × Option HTTPError) :=
  -- normalize the response
  let resp := env.normalize req resp
  match isDoH r with
  | none => none
  | some (isDNS, _, ct) =>
    if !isDNS then some (w, some (HTTPError.invalidPath r.URL.Path))
    else
      let packed : Option ((List Nat × Option HTTPError) × GoString) :=
        if ct = MimeTypeDoH then some (env.Pack resp, MimeTypeDoH)
        else if ct = MimeTypeJSON then some (env.dnsMsgToJSON resp, MimeTypeJSON)
        else none
      match packed with
      | none => some (w, some (HTTPError.invalidContentType ct))
      | some ((buf, err), mime) =>
        let w := if w.status.isSome then w else { w with contentType := some mime }
        match err with
        | some e => some (w, some e)
        | none =>
          let w :=
            if w.status.isSome then w
            else { w with cacheControl := some (env.maxAge resp),
                          contentLength := some buf.length }
          let w := w.WriteHeader StatusOK
          -- Write the actual response
          some (w.Write buf, env.Write buf)

/-- The client information that `serveDoH` puts into the context: a clone of
the URL and, on a TLS connection, the server name in lower case. -/
def clientInfoOf {Msg : Type} (env : HandlerEnv Msg) (r : Request) : ClientInfo :=
  { URL := some r.URL,
    TLSServerName :=
      match r.TLSServerName with
      | some name => strings.ToLower env.mapToLower name
      | none => [] }

/-- The method `(*httpHandler).serveDoH`.  A panic, of `remoteAddr` on a
`RemoteAddr` that is not a valid `ip:port` or of `isDoH`, ends the request
with what was sent before it. -/
def serveDoH {Msg : Type} (env : HandlerEnv Msg) (r : Request) : Served :=
  match httpRequestToMsg env r with
  | none => { panicked := true }
  | some (_, some err) => { w := httpError {} err.Error StatusBadRequest, invalidMsgs := 1 }
  | some (m, none) =>
    match r.RemoteAddr with
    | none => { panicked := true }
    | some _ =>
      -- Serve the query
      match env.serveDNS (clientInfoOf env r) m with
      | none =>
        -- If no response were written, indicate it via an internal server error.
        { w := httpError {} "No response".toList StatusInternalServerError, dnsCalls := 1 }
      | some (req, resp) =>
        -- Write the response to the client
        match writeResponse env req resp r {} with
        | none => { dnsCalls := 1, panicked := true }
        | some (w, some _) =>
          -- Try writing an error response just in case.
          { w := httpError w "Internal error".toList StatusInternalServerError,
            dnsCalls := 1 }
        | some (w, none) => { w := w, dnsCalls := 1 }

/-- The method `(*httpHandler).ServeHTTP`.  A panic is recovered by
`handlePanicAndRecover`. -/
def ServeHTTP {Msg : Type} (env : HandlerEnv Msg) (r : Request) : Served :=
  match isDoH r with
  | none => { panicked := true }
  | some (isDNS, _, _) =>
    if isDNS then serveDoH env r
    else
      match env.NonDNSHandler with
      | some handler => { w := handler r {}, delegated := true }
      | none => { w := httpError {} [] StatusNotFound, invalidMsgs := 1 }

end dnsserver

/-! ## Sample values for running the functions -/

namespace dnsserver

/-- A UDP configuration with all defaults, for running the lifecycle. -/
def sampleConfigDNS : ConfigDNS :=
  { ConfigBase := { Name := "test".toList, Addr := "127.0.0.1:53".toList,
                    Proto := Protocol.ProtoDNSUDP },
    ReadTimeout := 0, WriteTimeout := 0, UDPSize := 0, TCPSize := 0, TCPIdleTimeout := 0 }

end dnsserver

namespace ecscache

open agdnet

/-- Sample operations on messages that are numbers, to run the functions of
the middleware: the upstream response `1` carries a subnet and a scope, every
other response carries none. -/
def sampleOps : Ops Nat :=
  { ECSFromMsg := fun m =>
      if m = 1 then ({ ip := { addr := 16909056, z := 1 }, bits := 24 }, 24, none)
      else ({}, 0, none),
    rmHopToHopData := fun m _ _ => m + 100,
    setRespAD := fun m _ _ => m + 1000,
    setECS := fun m _ _ _ => (m + 10000, none),
    AuthenticatedData := fun _ => false,
    ZeroSubnet := fun fam =>
      if fam = AddrFamily.AddrFamilyIPv4 then { ip := { addr := 0, z := 1 }, bits := 0 }
      else { ip := { addr := 0, z := 2 }, bits := 0 },
    WriteMsg := fun _ _ => none }

end ecscache

namespace dnsserver

/-- A sample environment of the HTTP handler on messages that are numbers, to
run it: no `NonDNSHandler`, a DNS handler that writes a response unless the
query is empty, and packing that succeeds. -/
def sampleEnv : HandlerEnv Nat :=
  { NonDNSHandler := none,
    httpRequestToMsgJSON := fun _ => ([], none),
    serveDNS := fun _ m => if m = [] then none else some (1, 2),
    normalize := fun _ resp => resp,
    Pack := fun _ => ([0, 0, 129, 128], none),
    dnsMsgToJSON := fun _ => ([123, 125], none),
    maxAge := fun _ => "max-age=60.000000".toList,
    Write := fun _ => none,
    mapToLower := fun s => s }

end dnsserver

/-! ## DNS messages and the hop-to-hop data of the cache middleware -/

namespace dns

/-- The constant `dns.TypeOPT` of the DNS library. -/
def TypeOPT : Nat := 41

/-- A resource record of the DNS library, reduced to its type and its data. -/
structure RR where
  Rrtype : Nat
  Data : List Nat := []
  deriving DecidableEq, Repr

/-- The struct `dns.Msg` of the DNS library, reduced to the ID, the AD bit and
the three sections of records; an OPT record is a record of type `TypeOPT`,
which stands in the additional section. -/
structure Msg where
  Id : Nat := 0
  AuthenticatedData : Bool := false
  Answer : List RR := []
  Ns : List RR := []
  Extra : List RR := []
  deriving DecidableEq, Repr

/-- The message contains an OPT record, in whichever section. -/
def Msg.hasOPT (m : Msg) : Bool :=
  (m.Answer ++ m.Ns ++ m.Extra).any fun rr => decide (rr.Rrtype = TypeOPT)

end dns

namespace ecscache

open agdnet

/-- Modelled from the spec: `rmHopToHopData(resp, qt, reqDO)` (the file of
package `ecscache` that defines it is not among the sources).  The spec has
"strip hop-to-hop data (OPT record, AD bit) to produce the cache value" and
"a cloned response message trimmed of hop-to-hop OPT fields and of the AD
bit": the OPT records are dropped and the AD bit is cleared. -/
def rmHopToHopData (resp : dns.Msg) (_qt : Nat) (_reqDO : Bool) : dns.Msg :=
  { resp with
    AuthenticatedData := false,
    Answer := resp.Answer.filter fun rr => decide (rr.Rrtype ≠ dns.TypeOPT),
    Ns := resp.Ns.filter fun rr => decide (rr.Rrtype ≠ dns.TypeOPT),
    Extra := resp.Extra.filter fun rr => decide (rr.Rrtype ≠ dns.TypeOPT) }

/-- Sample operations on DNS messages, to run `writeUpstreamResponse` with the
hop-to-hop removal above: the ECS data is a fixed subnet with scope 24 when
the response has an OPT record, the AD bit of the outbound copy is set when the
request asked for it, and `setECS` appends an OPT record. -/
def sampleMsgOps : Ops dns.Msg :=
  { ECSFromMsg := fun m =>
      if m.hasOPT then ({ ip := { addr := 16909056, z := 1 }, bits := 24 }, 24, none)
      else ({}, 0, none),
    rmHopToHopData := rmHopToHopData,
    setRespAD := fun m reqAD reqDO => { m with AuthenticatedData := reqAD || reqDO },
    setECS := fun m _ _ _ => ({ m with Extra := m.Extra ++ [{ Rrtype := dns.TypeOPT }] }, none),
    AuthenticatedData := fun m => m.AuthenticatedData,
    ZeroSubnet := fun fam =>
      if fam = AddrFamily.AddrFamilyIPv4 then { ip := { addr := 0, z := 1 }, bits := 0 }
      else { ip := { addr := 0, z := 2 }, bits := 0 },
    WriteMsg := fun _ _ => none }

/-- A sample upstream response: the AD bit set, one A record in the answer and
an OPT record in the additional section. -/
def sampleResp : dns.Msg :=
  { Id := 7, AuthenticatedData := true, Answer := [{ Rrtype := 1, Data := [93, 184, 216, 34] }],
    Extra := [{ Rrtype := dns.TypeOPT, Data := [0, 8] }] }

/-- A sample request with the AD bit set. -/
def sampleReq : dns.Msg := { Id := 7, AuthenticatedData := true }

/-- The request information of a client with an ECS option, for the sample
request. -/
def sampleRequestInfo : agd.RequestInfo :=
  { ECS := some { Subnet := { ip := { addr := 16909056, z := 1 }, bits := 24 }, Scope := 0 },
    RemoteIP := { addr := 16909060, z := 1 }, Host := "example.com".toList, QType := 1 }

end ecscache

/-! ## Lemmas: `path.Clean` -/

namespace path

theorem copyElem_length_le (out s : GoString) : (copyElem out s).2.length ≤ s.length := by
  induction s generalizing out with
  | nil => simp [copyElem]
  | cons c cs ih =>
    unfold copyElem
    split
    · simp
    · exact Nat.le_succ_of_le (ih _)

theorem copyElem_length_lt (out : GoString) (c : Char) (cs : GoString) (hc : c ≠ '/') :
    (copyElem out (c :: cs)).2.length < (c :: cs).length := by
  unfold copyElem
  rw [if_neg hc]
  exact Nat.lt_succ_of_le (copyElem_length_le _ _)

/-- With at least as much fuel as unread bytes, the amount of fuel is
irrelevant. -/
theorem cleanLoop_fuel (rooted : Bool) (fuel : Nat) :
    ∀ (fuel2 : Nat) (rest out : GoString) (dotdot : Nat),
      rest.length ≤ fuel → rest.length ≤ fuel2 →
      cleanLoop rooted fuel rest out dotdot = cleanLoop rooted fuel2 rest out dotdot := by
  induction fuel with
  | zero =>
    intro fuel2 rest out dotdot h1 _
    have : rest = [] := List.length_eq_zero.mp (Nat.le_zero.mp h1)
    subst this
    cases fuel2 <;> simp [cleanLoop]
  | succ n ih =>
    intro fuel2 rest out dotdot h1 h2
    cases rest with
    | nil => cases fuel2 <;> simp [cleanLoop]
    | cons c rest =>
      cases fuel2 with
      | zero => simp at h2
      | succ m =>
        have hn : rest.length ≤ n := by simpa using h1
        have hm : rest.length ≤ m := by simpa using h2
        have htn : rest.tail.length ≤ n := by
          have := List.length_tail rest; omega
        have htm : rest.tail.length ≤ m := by
          have := List.length_tail rest; omega
        simp only [cleanLoop]
        split
        · exact ih _ _ _ _ hn hm
        · split
          · exact ih _ _ _ _ hn hm
          · split
            · split
              · exact ih _ _ _ _ htn htm
              · split
                · exact ih _ _ _ _ htn htm
                · exact ih _ _ _ _ htn htm
            · rename_i hc _ _
              have := copyElem_length_lt
                (if (rooted = true ∧ out.length ≠ 1) ∨ (¬ rooted = true ∧ out.length ≠ 0)
                  then out ++ ['/'] else out) c rest hc
              simp only [List.length_cons] at this
              exact ih _ _ _ _ (by omega) (by omega)

/-- The main loop returns: with enough fuel it never runs out. -/
theorem cleanLoop_isSome (rooted : Bool) (fuel : Nat) :
    ∀ (rest out : GoString) (dotdot : Nat), rest.length ≤ fuel →
      (cleanLoop rooted fuel rest out dotdot).isSome = true := by
  induction fuel with
  | zero =>
    intro rest out dotdot h1
    have : rest = [] := List.length_eq_zero.mp (Nat.le_zero.mp h1)
    subst this
    simp [cleanLoop]
  | succ n ih =>
    intro rest out dotdot h1
    cases rest with
    | nil => simp [cleanLoop]
    | cons c rest =>
      have hn : rest.length ≤ n := by simpa using h1
      have htn : rest.tail.length ≤ n := by
        have := List.length_tail rest; omega
      simp only [cleanLoop]
      split
      · exact ih _ _ _ hn
      · split
        · exact ih _ _ _ hn
        · split
          · split
            · exact ih _ _ _ htn
            · split
              · exact ih _ _ _ htn
              · exact ih _ _ _ htn
          · rename_i hc _ _
            have := copyElem_length_lt
              (if (rooted = true ∧ out.length ≠ 1) ∨ (¬ rooted = true ∧ out.length ≠ 0)
                then out ++ ['/'] else out) c rest hc
            simp only [List.length_cons] at this
            exact ih _ _ _ (by omega)

/-- The copy loop does not see a slash inserted at an element boundary. -/
theorem copyElem_insert (y : GoString) (hy : y = [] ∨ y.head? = some '/') :
    ∀ (x out : GoString), ∃ x2 : GoString, x2.length ≤ x.length ∧
      copyElem out (x ++ '/' :: y) = ((copyElem out (x ++ y)).1, x2 ++ '/' :: y) ∧
      (copyElem out (x ++ y)).2 = x2 ++ y := by
  intro x
  induction x with
  | nil =>
    intro out
    refine ⟨[], le_refl _, ?_, ?_⟩
    · rcases hy with rfl | hy
      · simp [copyElem]
      · cases y with
        | nil => simp at hy
        | cons d y => simp at hy; subst hy; simp [copyElem]
    · rcases hy with rfl | hy
      · simp [copyElem]
      · cases y with
        | nil => simp at hy
        | cons d y => simp at hy; subst hy; simp [copyElem]
  | cons c x ih =>
    intro out
    by_cases hc : c = '/'
    · subst hc
      exact ⟨'/' :: x, le_refl _, by simp [copyElem], by simp [copyElem]⟩
    · obtain ⟨x2, hlen, h1, h2⟩ := ih (out ++ [c])
      refine ⟨x2, Nat.le_succ_of_le hlen, ?_, ?_⟩
      · simp only [List.cons_append, copyElem, if_neg hc]
        exact h1
      · simp only [List.cons_append, copyElem, if_neg hc]
        exact h2

/-- The main loop does not see a slash inserted before the end of the path or
before another slash. -/
theorem cleanLoop_insert (rooted : Bool) (y : GoString)
    (hy : y = [] ∨ y.head? = some '/') (fuel : Nat) :
    ∀ (x out : GoString) (dotdot : Nat), (x ++ '/' :: y).length ≤ fuel →
      cleanLoop rooted fuel (x ++ '/' :: y) out dotdot =
        cleanLoop rooted fuel (x ++ y) out dotdot := by
  induction fuel with
  | zero => intro x out dotdot h; simp at h
  | succ n ih =>
    intro x out dotdot h
    cases x with
    | nil =>
      simp only [List.nil_append, cleanLoop, if_true]
      simp only [List.nil_append, List.length_cons] at h
      exact cleanLoop_fuel rooted n (n + 1) y out dotdot (by omega) (by omega)
    | cons c x =>
      simp only [List.cons_append, List.length_cons, List.length_append] at h
      have hx : (x ++ '/' :: y).length ≤ n := by simp; omega
      show cleanLoop rooted (n + 1) (c :: (x ++ '/' :: y)) out dotdot =
        cleanLoop rooted (n + 1) (c :: (x ++ y)) out dotdot
      have e1 : (x ++ '/' :: y = [] ∨ (x ++ '/' :: y).head? = some '/') ↔
          (x ++ y = [] ∨ (x ++ y).head? = some '/') := by
        cases x with
        | nil => simp; exact hy
        | cons d x => simp
      by_cases hc : c = '/'
      · simp only [List.cons_append, cleanLoop, if_pos hc]
        exact ih x out dotdot hx
      · by_cases h1 : c = '.' ∧ (x ++ y = [] ∨ (x ++ y).head? = some '/')
        · have h1b : c = '.' ∧ (x ++ '/' :: y = [] ∨ (x ++ '/' :: y).head? = some '/') :=
            ⟨h1.1, e1.mpr h1.2⟩
          simp only [List.cons_append, cleanLoop, if_neg hc, if_pos h1, if_pos h1b]
          exact ih x out dotdot hx
        · have h1b : ¬ (c = '.' ∧
              (x ++ '/' :: y = [] ∨ (x ++ '/' :: y).head? = some '/')) :=
            fun hh => h1 ⟨hh.1, e1.mp hh.2⟩
          cases x with
          | nil =>
            -- the next byte is the inserted slash, or the boundary
            have h2 : ¬ (c = '.' ∧ y.head? = some '.' ∧
                (y.tail = [] ∨ y.tail.head? = some '/')) := by
              rintro ⟨_, hh, _⟩
              rcases hy with rfl | hy
              · simp at hh
              · rw [hy] at hh; simp at hh
            have h2b : ¬ (c = '.' ∧ ('/' :: y).head? = some '.' ∧
                (('/' :: y).tail = [] ∨ ('/' :: y).tail.head? = some '/')) := by
              rintro ⟨_, hh, _⟩
              simp at hh
            simp only [List.nil_append] at h1 h1b ⊢
            simp only [cleanLoop, if_neg hc, if_neg h1, if_neg h1b,
              if_neg h2, if_neg h2b]
            obtain ⟨x2, hlen, c1, c2⟩ := copyElem_insert y hy [c]
              (if (rooted = true ∧ out.length ≠ 1) ∨ (¬ rooted = true ∧ out.length ≠ 0)
                then out ++ ['/'] else out)
            have hlt := copyElem_length_lt
              (if (rooted = true ∧ out.length ≠ 1) ∨ (¬ rooted = true ∧ out.length ≠ 0)
                then out ++ ['/'] else out) c y hc
            simp only [List.cons_append, List.nil_append] at c1 c2
            rw [c1, c2]
            rw [c2] at hlt
            simp only [List.length_cons, List.length_append] at hlt
            exact ih x2 _ dotdot (by simp at hx ⊢; omega)
          | cons d x =>
            have e2 : ((x ++ '/' :: y) = [] ∨ (x ++ '/' :: y).head? = some '/') ↔
                (x ++ y = [] ∨ (x ++ y).head? = some '/') := by
              cases x with
              | nil => simp; exact hy
              | cons e x => simp
            by_cases h2 : c = '.' ∧ (d :: (x ++ y)).head? = some '.' ∧
                (x ++ y = [] ∨ (x ++ y).head? = some '/')
            · have h2b : c = '.' ∧ (d :: (x ++ '/' :: y)).head? = some '.' ∧
                  (x ++ '/' :: y = [] ∨ (x ++ '/' :: y).head? = some '/') :=
                ⟨h2.1, by simpa using h2.2.1, e2.mpr h2.2.2⟩
              have hx2 : (x ++ '/' :: y).length ≤ n := by simp at hx ⊢; omega
              simp only [List.cons_append] at h1 h1b h2 h2b
              simp only [List.cons_append, cleanLoop, if_neg hc, if_neg h1, if_neg h1b,
                if_pos h2, if_pos h2b, List.tail_cons]
              split
              · exact ih x _ dotdot hx2
              · split
                · exact ih x _ _ hx2
                · exact ih x _ dotdot hx2
            · have h2b : ¬ (c = '.' ∧ (d :: (x ++ '/' :: y)).head? = some '.' ∧
                  (x ++ '/' :: y = [] ∨ (x ++ '/' :: y).head? = some '/')) := by
                rintro ⟨ha, hb, hd⟩
                exact h2 ⟨ha, by simpa using hb, e2.mp hd⟩
              simp only [List.cons_append] at h1 h1b h2 h2b
              simp only [List.cons_append, cleanLoop, if_neg hc, if_neg h1, if_neg h1b,
                List.tail_cons, if_neg h2, if_neg h2b]
              obtain ⟨x2, hlen, c1, c2⟩ := copyElem_insert y hy (c :: d :: x)
                (if (rooted = true ∧ out.length ≠ 1) ∨ (¬ rooted = true ∧ out.length ≠ 0)
                  then out ++ ['/'] else out)
              have hlt := copyElem_length_lt
                (if (rooted = true ∧ out.length ≠ 1) ∨ (¬ rooted = true ∧ out.length ≠ 0)
                  then out ++ ['/'] else out) c (d :: x ++ y) hc
              simp only [List.cons_append] at c1 c2 hlt
              rw [c1, c2]
              rw [c2] at hlt
              simp only [List.length_cons, List.length_append] at hlt hx
              exact ih x2 _ dotdot (by simp; omega)

/-- Go `path.Clean` does not see a slash inserted before the end of the path
or before another slash: a trailing slash and a doubled slash are dropped. -/
theorem Clean_insert_slash (x y : GoString) (hy : y = [] ∨ y.head? = some '/')
    (hne : x ≠ [] ∨ y ≠ []) : Clean (x ++ '/' :: y) = Clean (x ++ y) := by
  cases x with
  | nil =>
    rcases hy with rfl | hy
    · simp at hne
    · cases y with
      | nil => simp at hy
      | cons d y =>
        simp at hy; subst hy
        simp only [List.nil_append, Clean, decide_True, if_true, cleanLoop]
  | cons c x =>
    simp only [List.cons_append, Clean]
    congr 1
    split
    · rw [cleanLoop_insert _ y hy _ x _ _ (by simp)]
      exact cleanLoop_fuel _ _ _ _ _ _ (by simp; omega) (by simp)
    · have := cleanLoop_insert (decide (c = '/')) y hy (c :: (x ++ '/' :: y)).length
        (c :: x) [] 0 (by simp)
      simp only [List.cons_append] at this
      rw [this]
      exact cleanLoop_fuel _ _ _ _ _ _ (by simp) (by simp)

/-- Go `path.Clean` returns for every path. -/
theorem Clean_isSome (p : GoString) : (Clean p).isSome = true := by
  cases p with
  | nil => simp [Clean]
  | cons c rest =>
    simp only [Clean, Option.isSome_map']
    split
    · exact cleanLoop_isSome _ _ _ _ _ (by simp)
    · exact cleanLoop_isSome _ _ _ _ _ (by simp)

end path

/-! ## Lemmas: immediate subdomains and the wildcard loop -/

namespace dnssvc

open dnsserver agd

theorem takeWhile_label (label top : GoString) (hdot : '.' ∉ label) :
    (label ++ '.' :: top).takeWhile (· ≠ '.') = label := by
  induction label with
  | nil => simp [List.takeWhile]
  | cons c cs ih =>
    have hc : c ≠ '.' := fun h => hdot (by simp [h])
    have hcs : '.' ∉ cs := fun h => hdot (List.mem_cons_of_mem _ h)
    have := ih hcs
    simp only [List.cons_append, List.takeWhile_cons, hc, ne_eq, not_false_eq_true,
      decide_True, if_true, this]

theorem dropWhile_label (label top : GoString) (hdot : '.' ∉ label) :
    (label ++ '.' :: top).dropWhile (· ≠ '.') = '.' :: top := by
  induction label with
  | nil => simp [List.dropWhile]
  | cons c cs ih =>
    have hc : c ≠ '.' := fun h => hdot (by simp [h])
    have hcs : '.' ∉ cs := fun h => hdot (List.mem_cons_of_mem _ h)
    have := ih hcs
    simp only [List.cons_append, List.dropWhile_cons, hc, ne_eq, not_false_eq_true,
      decide_True, if_true, this]

theorem not_mem_takeWhile_dot (s : GoString) : '.' ∉ s.takeWhile (· ≠ '.') := by
  intro h
  have := List.mem_takeWhile_imp h
  simp at this

/-- The matching function decides the relation "immediate subdomain". -/
theorem IsImmediateSubdomain_iff (name top : GoString) :
    agdnet.IsImmediateSubdomain name top = true ↔ ImmediateSubdomainOf name top := by
  constructor
  · intro h
    simp only [agdnet.IsImmediateSubdomain, Bool.and_eq_true, decide_eq_true_eq,
      beq_iff_eq] at h
    refine ⟨name.takeWhile (· ≠ '.'), h.1, not_mem_takeWhile_dot name, ?_⟩
    rw [← h.2]
    exact (List.takeWhile_append_dropWhile _ name).symm
  · rintro ⟨label, hne, hdot, rfl⟩
    simp only [agdnet.IsImmediateSubdomain, Bool.and_eq_true, decide_eq_true_eq,
      beq_iff_eq]
    rw [takeWhile_label label top hdot, dropWhile_label label top hdot]
    exact ⟨hne, rfl⟩

/-- A name is an immediate subdomain of at most one domain, and its label is
determined. -/
theorem ImmediateSubdomainOf_unique (l1 l2 d1 d2 : GoString)
    (h1 : '.' ∉ l1) (h2 : '.' ∉ l2) (h : l1 ++ '.' :: d1 = l2 ++ '.' :: d2) :
    l1 = l2 ∧ d1 = d2 := by
  have ht := congrArg (fun s : GoString => s.takeWhile (· ≠ '.')) h
  have hd := congrArg (fun s : GoString => s.dropWhile (· ≠ '.')) h
  simp only [takeWhile_label _ _ h1, takeWhile_label _ _ h2] at ht
  simp only [dropWhile_label _ _ h1, dropWhile_label _ _ h2] at hd
  exact ⟨ht, by simpa using hd⟩

theorem ImmediateSubdomainOf_domain_unique (name d1 d2 : GoString)
    (h1 : ImmediateSubdomainOf name d1) (h2 : ImmediateSubdomainOf name d2) : d1 = d2 := by
  obtain ⟨l1, _, hl1, e1⟩ := h1
  obtain ⟨l2, _, hl2, e2⟩ := h2
  exact (ImmediateSubdomainOf_unique l1 l2 d1 d2 hl1 hl2 (e1.symm.trans e2)).2

/-- The wildcard loop finds nothing when the name is an immediate subdomain of
no wildcard domain. -/
theorem matchWildcards_no_match (name : GoString) (wildcards : List GoString)
    (hform : ∀ w ∈ wildcards, IsWildcard w)
    (hno : ∀ d : GoString, ('*' :: '.' :: d) ∈ wildcards → ¬ ImmediateSubdomainOf name d) :
    matchWildcards name wildcards = some [] := by
  induction wildcards with
  | nil => rfl
  | cons w rest ih =>
    obtain ⟨d, rfl⟩ := hform w (List.mem_cons_self _ _)
    have hd : agdnet.IsImmediateSubdomain name d = false := by
      rw [Bool.eq_false_iff]
      intro h
      exact hno d (List.mem_cons_self _ _) ((IsImmediateSubdomain_iff name d).mp h)
    simp only [matchWildcards, List.length_cons, List.drop_succ_cons, List.drop_zero, hd]
    exact ih (fun w hw => hform w (List.mem_cons_of_mem _ hw))
      (fun d hd => hno d (List.mem_cons_of_mem _ hd))

/-- The wildcard loop finds the domain of which the name is an immediate
subdomain, wherever its wildcard stands in the list. -/
theorem matchWildcards_match (name domain : GoString) (wildcards : List GoString)
    (hform : ∀ w ∈ wildcards, IsWildcard w)
    (hmem : ('*' :: '.' :: domain) ∈ wildcards) (hsub : ImmediateSubdomainOf name domain) :
    matchWildcards name wildcards = some domain := by
  induction wildcards with
  | nil => simp at hmem
  | cons w rest ih =>
    obtain ⟨d, rfl⟩ := hform w (List.mem_cons_self _ _)
    by_cases hd : agdnet.IsImmediateSubdomain name d = true
    · have := ImmediateSubdomainOf_domain_unique name d domain
        ((IsImmediateSubdomain_iff name d).mp hd) hsub
      subst this
      simp [matchWildcards, hd]
    · have hne : d ≠ domain := by
        rintro rfl
        exact hd ((IsImmediateSubdomain_iff name d).mpr hsub)
      have hmem2 : ('*' :: '.' :: domain) ∈ rest := by
        rcases List.mem_cons.mp hmem with h | h
        · exact absurd (by simpa using h) (Ne.symm hne)
        · exact h
      simp only [Bool.not_eq_true] at hd
      simp [matchWildcards, hd]
      exact ih (fun w hw => hform w (List.mem_cons_of_mem _ hw)) hmem2

end dnssvc

/-! ## Device-ID extraction from the TLS server name -/

namespace dnssvc

open dnsserver agd

/-- C1: for wildcards of the form `*.<domain>` and a client server name
`<label>.<domain>` with a non-empty label without a dot, a non-empty domain
and `*.<domain>` in the list, `deviceIDFromClientServerName` returns what
`agd.NewDeviceID` gives for the label: the label itself as the ID when it is a
valid device ID, the empty ID and the validation error otherwise. -/
theorem deviceIDFromClientServerName_label (grammar : Grammar) (wildcards : List GoString)
    (label domain : GoString) (hform : ∀ w ∈ wildcards, IsWildcard w)
    (hlabel : label ≠ []) (hdot : '.' ∉ label) (hdomain : domain ≠ [])
    (hmem : ('*' :: '.' :: domain) ∈ wildcards) :
    deviceIDFromClientServerName grammar (label ++ '.' :: domain) wildcards =
        some (NewDeviceID grammar label) ∧
      (grammar label = none →
        deviceIDFromClientServerName grammar (label ++ '.' :: domain) wildcards =
          some (label, none)) ∧
      (∀ err, grammar label = some err →
        deviceIDFromClientServerName grammar (label ++ '.' :: domain) wildcards =
          some ([], some err)) := by
  have hm := matchWildcards_match (label ++ '.' :: domain) domain wildcards hform hmem
    ⟨label, hlabel, hdot, rfl⟩
  have hne : label ++ '.' :: domain ≠ [] := by simp
  have hlen : ¬ ((label ++ '.' :: domain).length < domain.length + 1) := by
    simp only [List.length_append, List.length_cons]; omega
  have htake : (label ++ '.' :: domain).take
      ((label ++ '.' :: domain).length - domain.length - 1) = label := by
    have : (label ++ '.' :: domain).length - domain.length - 1 = label.length := by
      simp only [List.length_append, List.length_cons]; omega
    rw [this, List.take_left']
    rfl
  have key : deviceIDFromClientServerName grammar (label ++ '.' :: domain) wildcards =
      match NewDeviceID grammar label with
      | (_, some err) => some ([], some err)
      | (id, none) => some (id, none) := by
    simp only [deviceIDFromClientServerName, if_neg hne, hm, if_neg hdomain, if_neg hlen,
      htake]
  refine ⟨?_, ?_, ?_⟩
  · rw [key]
    cases hg : grammar label <;> simp [NewDeviceID, hg]
  · intro hg
    rw [key]
    simp [NewDeviceID, hg]
  · intro err hg
    rw [key]
    simp [NewDeviceID, hg]

/-- C1, on the spec's scenario: the server name `dev42.d.example.com` with the
wildcard `*.d.example.com` yields the device ID `dev42`. -/
theorem deviceIDFromClientServerName_label_witness :
    deviceIDFromClientServerName sampleGrammar "dev42.d.example.com".toList
      ["*.d.example.com".toList] = some ("dev42".toList, none) :=
  (deviceIDFromClientServerName_label sampleGrammar ["*.d.example.com".toList]
    "dev42".toList "d.example.com".toList
    (by intro w hw; simp at hw; subst hw; exact ⟨"d.example.com".toList, rfl⟩)
    (by decide) (by decide) (by decide) (by decide)).2.1 (by decide)

/-- C2: a client server name that is empty, or that is an immediate subdomain
of the domain of no configured wildcard, gives the empty device ID and a nil
error.  Not an immediate subdomain of a domain are, among others, the domain
itself, every name two or more labels deeper than it, and every name that does
not end in a dot followed by the domain. -/
theorem deviceIDFromClientServerName_no_match (grammar : Grammar) (name : GoString)
    (wildcards : List GoString) (hform : ∀ w ∈ wildcards, IsWildcard w)
    (h : name = [] ∨
      ∀ d : GoString, ('*' :: '.' :: d) ∈ wildcards → ¬ ImmediateSubdomainOf name d) :
    deviceIDFromClientServerName grammar name wildcards = some ([], none) ∧
      (∀ d : GoString, ¬ ImmediateSubdomainOf d d) ∧
      (∀ x l d : GoString, ¬ ImmediateSubdomainOf (x ++ '.' :: (l ++ '.' :: d)) d) ∧
      (∀ n d : GoString, ¬ ('.' :: d) <:+ n → ¬ ImmediateSubdomainOf n d) := by
  refine ⟨?_, ?_, ?_, ?_⟩
  · rcases h with rfl | h
    · simp [deviceIDFromClientServerName]
    · by_cases hn : name = []
      · simp [deviceIDFromClientServerName, hn]
      · simp [deviceIDFromClientServerName, hn, matchWildcards_no_match name wildcards hform h]
  · rintro d ⟨label, _, _, e⟩
    have := congrArg List.length e
    simp only [List.length_append, List.length_cons] at this
    omega
  · rintro x l d ⟨label, _, hdot, e⟩
    have e2 : x ++ '.' :: l ++ '.' :: d = label ++ '.' :: d := by simpa using e
    have e3 := List.append_cancel_right e2
    exact hdot (by rw [← e3]; simp)
  · rintro n d hsuf ⟨label, _, _, rfl⟩
    exact hsuf (List.suffix_append _ _)

/-- C2, on the spec's scenario: the server name `evil.example.com` with the
wildcard `*.d.example.com` yields no ID and no error. -/
theorem deviceIDFromClientServerName_no_match_witness :
    deviceIDFromClientServerName sampleGrammar "evil.example.com".toList
      ["*.d.example.com".toList] = some ([], none) :=
  (deviceIDFromClientServerName_no_match sampleGrammar "evil.example.com".toList
    ["*.d.example.com".toList]
    (by intro w hw; simp at hw; subst hw; exact ⟨"d.example.com".toList, rfl⟩)
    (Or.inr (by
      intro d hd
      simp at hd
      subst hd
      exact fun hsub => absurd ((IsImmediateSubdomain_iff _ _).mpr hsub) (by decide)))).1

end dnssvc

/-! ## Device-ID extraction from the DoH URL path -/

namespace strings

theorem Split_of_not_mem (s : GoString) (sep : Char) (h : sep ∉ s) : Split s sep = [s] := by
  induction s with
  | nil => rfl
  | cons c cs ih =>
    have hc : c ≠ sep := fun e => h (by simp [e])
    have hcs : sep ∉ cs := fun e => h (List.mem_cons_of_mem _ e)
    simp [Split, hc, ih hcs]

theorem Split_append (a b : GoString) (sep : Char) (h : sep ∉ a) :
    Split (a ++ sep :: b) sep = a :: Split b sep := by
  induction a with
  | nil => simp [Split]
  | cons c cs ih =>
    have hc : c ≠ sep := fun e => h (by simp [e])
    have hcs : sep ∉ cs := fun e => h (List.mem_cons_of_mem _ e)
    simp [Split, hc, ih hcs]

end strings

namespace dnsserver

/-- The parts of a path whose cleaned form is a route. -/
theorem pathParts_route (p route : GoString) (hroute : route = PathDoH ∨ route = PathJSON)
    (hclean : path.Clean p = some route) : pathParts p = some [route.tail] := by
  rcases hroute with rfl | rfl <;> simp only [pathParts, hclean] <;> rfl

/-- The parts of a path whose cleaned form is a route followed by one more
segment. -/
theorem pathParts_route_id (p route id : GoString)
    (hroute : route = PathDoH ∨ route = PathJSON) (hid : '/' ∉ id)
    (hclean : path.Clean p = some (route ++ '/' :: id)) :
    pathParts p = some [route.tail, id] := by
  have hsplit : strings.Split (route ++ '/' :: id) '/' = [[], route.tail, id] := by
    rcases hroute with rfl | rfl
    · have e : PathDoH ++ '/' :: id = [] ++ '/' :: ("dns-query".toList ++ '/' :: id) := rfl
      rw [e, strings.Split_append _ _ _ (by simp),
        strings.Split_append _ _ _ (by decide), strings.Split_of_not_mem _ _ hid]
      rfl
    · have e : PathJSON ++ '/' :: id = [] ++ '/' :: ("resolve".toList ++ '/' :: id) := rfl
      rw [e, strings.Split_append _ _ _ (by simp),
        strings.Split_append _ _ _ (by decide), strings.Split_of_not_mem _ _ hid]
      rfl
  simp only [pathParts, hclean, hsplit, if_true]

theorem route_tail_accepted (route : GoString) (hroute : route = PathDoH ∨ route = PathJSON) :
    ¬ (route.tail = [] ∨ (strings.HasSuffix PathDoH route.tail = false ∧
      strings.HasSuffix PathJSON route.tail = false)) := by
  rcases hroute with rfl | rfl <;> decide

end dnsserver

namespace dnssvc

open dnsserver agd

theorem deviceIDFromDoHURL_of_route (grammar : Grammar) (u : URL) (route : GoString)
    (hroute : route = PathDoH ∨ route = PathJSON) (hclean : path.Clean u.Path = some route) :
    deviceIDFromDoHURL grammar u = some ([], none) := by
  simp only [deviceIDFromDoHURL, pathParts_route u.Path route hroute hclean,
    if_neg (route_tail_accepted route hroute)]

theorem deviceIDFromDoHURL_of_route_id (grammar : Grammar) (u : URL) (route id : GoString)
    (hroute : route = PathDoH ∨ route = PathJSON) (hid : '/' ∉ id)
    (hclean : path.Clean u.Path = some (route ++ '/' :: id)) :
    deviceIDFromDoHURL grammar u = some (NewDeviceID grammar id) := by
  simp only [deviceIDFromDoHURL, pathParts_route_id u.Path route id hroute hid hclean,
    if_neg (route_tail_accepted route hroute)]
  cases hg : grammar id <;> simp [NewDeviceID, hg]

/-- C3: a URL whose cleaned path is exactly `/dns-query` or `/resolve` gives
the empty ID and a nil error; a URL whose cleaned path is the route followed
by exactly one segment gives what `agd.NewDeviceID` gives for that segment.
The path is cleaned first: a slash added at the end of the path or in front of
another slash does not change the result. -/
theorem deviceIDFromDoHURL_accepted (grammar : Grammar) (u : URL) (route : GoString)
    (hroute : route = PathDoH ∨ route = PathJSON) :
    (path.Clean u.Path = some route → deviceIDFromDoHURL grammar u = some ([], none)) ∧
      (∀ id : GoString, '/' ∉ id → path.Clean u.Path = some (route ++ '/' :: id) →
        deviceIDFromDoHURL grammar u = some (NewDeviceID grammar id) ∧
        (grammar id = none → deviceIDFromDoHURL grammar u = some (id, none)) ∧
        (∀ err, grammar id = some err →
          deviceIDFromDoHURL grammar u = some ([], some err))) ∧
      (∀ x y : GoString, u.Path = x ++ y → (y = [] ∨ y.head? = some '/') →
        (path.Clean u.Path = some route ∨
          ∃ id : GoString, '/' ∉ id ∧ path.Clean u.Path = some (route ++ '/' :: id)) →
        deviceIDFromDoHURL grammar { u with Path := x ++ '/' :: y } =
          deviceIDFromDoHURL grammar u) := by
  refine ⟨deviceIDFromDoHURL_of_route grammar u route hroute, ?_, ?_⟩
  · intro id hid hclean
    have key := deviceIDFromDoHURL_of_route_id grammar u route id hroute hid hclean
    refine ⟨key, ?_, ?_⟩
    · intro hg; rw [key]; simp [NewDeviceID, hg]
    · intro err hg; rw [key]; simp [NewDeviceID, hg]
  · intro x y hxy hy hshape
    have hne : x ≠ [] ∨ y ≠ [] := by
      by_contra hcon
      push_neg at hcon
      rw [hxy, hcon.1, hcon.2] at hshape
      rcases hshape with h | ⟨id, _, h⟩
      · rcases hroute with rfl | rfl <;> exact absurd h (by decide)
      · have := congrArg (Option.map List.length) h
        rcases hroute with rfl | rfl <;> simp [path.Clean, PathDoH, PathJSON] at this
    have hins : path.Clean (x ++ '/' :: y) = path.Clean u.Path := by
      rw [hxy]; exact path.Clean_insert_slash x y hy hne
    rcases hshape with h | ⟨id, hid, h⟩
    · rw [deviceIDFromDoHURL_of_route grammar u route hroute h]
      exact deviceIDFromDoHURL_of_route grammar _ route hroute (hins.trans h)
    · rw [deviceIDFromDoHURL_of_route_id grammar u route id hroute hid h]
      exact deviceIDFromDoHURL_of_route_id grammar _ route id hroute hid (hins.trans h)

/-- C3, on the spec's scenario: the path `/dns-query/abc123` yields the device
ID `abc123`, and so does the path with a trailing slash. -/
theorem deviceIDFromDoHURL_accepted_witness :
    deviceIDFromDoHURL sampleGrammar { Path := "/dns-query/abc123".toList } =
        some ("abc123".toList, none) ∧
      deviceIDFromDoHURL sampleGrammar { Path := "/dns-query/abc123/".toList } =
        deviceIDFromDoHURL sampleGrammar { Path := "/dns-query/abc123".toList } :=
  ⟨((deviceIDFromDoHURL_accepted sampleGrammar { Path := "/dns-query/abc123".toList }
      PathDoH (Or.inl rfl)).2.1 "abc123".toList (by decide) (by decide)).2.1 (by decide),
    (deviceIDFromDoHURL_accepted sampleGrammar { Path := "/dns-query/abc123".toList }
      PathDoH (Or.inl rfl)).2.2 "/dns-query/abc123".toList [] (by decide) (Or.inl rfl)
      (Or.inr ⟨"abc123".toList, by decide, by decide⟩)⟩

/-- C4: a URL whose cleaned path has three or more segments, the first of them
`dns-query` or `resolve`, gives the empty device ID and the `extra parts`
error. -/
theorem deviceIDFromDoHURL_extra_parts (grammar : Grammar) (u : URL)
    (p0 p1 p2 : GoString) (rest : List GoString)
    (hparts : pathParts u.Path = some (p0 :: p1 :: p2 :: rest))
    (hroute : p0 = "dns-query".toList ∨ p0 = "resolve".toList) :
    deviceIDFromDoHURL grammar u = some ([], some (GoError.badPathExtraParts u.Path)) := by
  have hacc : ¬ (p0 = [] ∨ (strings.HasSuffix PathDoH p0 = false ∧
      strings.HasSuffix PathJSON p0 = false)) := by
    rcases hroute with rfl | rfl <;> decide
  simp only [deviceIDFromDoHURL, hparts, if_neg hacc]

/-- C4, on a concrete path: `/dns-query/abc123/x` has three segments and gives
no ID and the `extra parts` error. -/
theorem deviceIDFromDoHURL_extra_parts_witness :
    deviceIDFromDoHURL sampleGrammar { Path := "/dns-query/abc123/x".toList } =
      some ([], some (GoError.badPathExtraParts "/dns-query/abc123/x".toList)) :=
  deviceIDFromDoHURL_extra_parts sampleGrammar { Path := "/dns-query/abc123/x".toList }
    "dns-query".toList "abc123".toList "x".toList [] (by decide) (Or.inl rfl)

end dnssvc

/-! ## Device-ID extraction from the request context -/

namespace dnssvc

open dnsserver agd

/-- C5, as stated, fails: for the DoH path `/dns-query`, which gives no ID and
no error, and a TLS server name whose label is not a valid device ID, the
result of `deviceIDFromContext` is not the result of
`deviceIDFromClientServerName`: the error is wrapped in a `*deviceIDError`. -/
theorem deviceIDFromContext_not_sni_result :
    deviceIDFromDoHURL sampleGrammar { Path := "/dns-query".toList } = some ([], none) ∧
      deviceIDFromClientServerName sampleGrammar "invalid!device!id.d.example.com".toList
          ["*.d.example.com".toList] =
        some ([], some (GoError.badDeviceID "too long".toList)) ∧
      deviceIDFromContext sampleGrammar
          (some { URL := some { Path := "/dns-query".toList },
                  TLSServerName := "invalid!device!id.d.example.com".toList })
          Protocol.ProtoDoH ["*.d.example.com".toList] =
        some ([], some (GoError.deviceIDError (GoError.badDeviceID "too long".toList)
          "tls server name".toList)) ∧
      deviceIDFromContext sampleGrammar
          (some { URL := some { Path := "/dns-query".toList },
                  TLSServerName := "invalid!device!id.d.example.com".toList })
          Protocol.ProtoDoH ["*.d.example.com".toList] ≠
        deviceIDFromClientServerName sampleGrammar "invalid!device!id.d.example.com".toList
          ["*.d.example.com".toList] := by
  decide

/-- C5, amended: for a DoH request, `deviceIDFromContext` returns the ID of the
URL path whenever the path extraction succeeds with a non-empty ID, whatever
the TLS server name and the wildcards are.  When the path extraction succeeds
with no ID: without wildcards the result is the empty ID and a nil error;
otherwise the ID and a nil error of `deviceIDFromClientServerName` for the TLS
server name are returned unchanged, and an error of it is returned wrapped in
a `*deviceIDError` with the tag `tls server name`, with the empty ID. -/
theorem deviceIDFromContext_doh (grammar : Grammar) (ci : ClientInfo) (u : URL)
    (wildcards : List GoString) (hurl : ci.URL = some u) :
    (∀ id : DeviceID, id ≠ [] → deviceIDFromDoHURL grammar u = some (id, none) →
        deviceIDFromContext grammar (some ci) Protocol.ProtoDoH wildcards = some (id, none)) ∧
      (deviceIDFromDoHURL grammar u = some ([], none) →
        (wildcards = [] →
          deviceIDFromContext grammar (some ci) Protocol.ProtoDoH wildcards =
            some ([], none)) ∧
        (∀ id : DeviceID,
          deviceIDFromClientServerName grammar ci.TLSServerName wildcards = some (id, none) →
          deviceIDFromContext grammar (some ci) Protocol.ProtoDoH wildcards =
            some (id, none)) ∧
        (∀ (id : DeviceID) (err : GoError),
          deviceIDFromClientServerName grammar ci.TLSServerName wildcards =
            some (id, some err) →
          deviceIDFromContext grammar (some ci) Protocol.ProtoDoH wildcards =
            some ([], some (GoError.deviceIDError err "tls server name".toList))) ∧
        (deviceIDFromClientServerName grammar ci.TLSServerName wildcards = none →
          deviceIDFromContext grammar (some ci) Protocol.ProtoDoH wildcards = none)) := by
  refine ⟨?_, ?_⟩
  · intro id hid hpath
    simp [deviceIDFromContext, hurl, hpath, hid]
  · intro hpath
    refine ⟨?_, ?_, ?_, ?_⟩
    · rintro rfl
      simp [deviceIDFromContext, hurl, hpath]
    · intro id hsni
      cases wildcards with
      | nil =>
        have : id = [] := by
          by_cases hn : ci.TLSServerName = [] <;>
            simp [deviceIDFromClientServerName, matchWildcards, hn] at hsni <;>
            exact hsni
        simp [deviceIDFromContext, hurl, hpath, this]
      | cons w ws => simp [deviceIDFromContext, hurl, hpath, hsni]
    · intro id err hsni
      cases wildcards with
      | nil =>
        by_cases hn : ci.TLSServerName = [] <;>
          simp [deviceIDFromClientServerName, matchWildcards, hn] at hsni
      | cons w ws => simp [deviceIDFromContext, hurl, hpath, hsni]
    · intro hsni
      cases wildcards with
      | nil =>
        by_cases hn : ci.TLSServerName = [] <;>
          simp [deviceIDFromClientServerName, matchWildcards, hn] at hsni
      | cons w ws => simp [deviceIDFromContext, hurl, hpath, hsni]

/-- C5, amended, on concrete requests: the path `/dns-query/abc123` wins over
the server name `dev42.d.example.com`, and the path `/dns-query` leaves the
ID `dev42` of the server name. -/
theorem deviceIDFromContext_doh_witness :
    deviceIDFromContext sampleGrammar
        (some { URL := some { Path := "/dns-query/abc123".toList },
                TLSServerName := "dev42.d.example.com".toList })
        Protocol.ProtoDoH ["*.d.example.com".toList] = some ("abc123".toList, none) ∧
      deviceIDFromContext sampleGrammar
        (some { URL := some { Path := "/dns-query".toList },
                TLSServerName := "dev42.d.example.com".toList })
        Protocol.ProtoDoH ["*.d.example.com".toList] = some ("dev42".toList, none) :=
  ⟨(deviceIDFromContext_doh sampleGrammar
      { URL := some { Path := "/dns-query/abc123".toList },
        TLSServerName := "dev42.d.example.com".toList }
      { Path := "/dns-query/abc123".toList } ["*.d.example.com".toList] rfl).1
      "abc123".toList (by decide) (by decide),
    ((deviceIDFromContext_doh sampleGrammar
      { URL := some { Path := "/dns-query".toList },
        TLSServerName := "dev42.d.example.com".toList }
      { Path := "/dns-query".toList } ["*.d.example.com".toList] rfl).2 (by decide)).2.1
      "dev42".toList (by decide)⟩

/-- C6: every non-nil error of `deviceIDFromContext` is a `*deviceIDError`:
it wraps the error of the extraction (`Unwrap` returns it), its tag is
`http url` when the error came from the DoH URL path and `tls server name`
when it came from the TLS server name, and `IsRavenReportable` is false; and
with a non-nil error the returned device ID is empty. -/
theorem deviceIDFromContext_error (grammar : Grammar) (ctx : Option ClientInfo)
    (proto : Protocol) (wildcards : List GoString) (id : DeviceID) (err : GoError)
    (h : deviceIDFromContext grammar ctx proto wildcards = some (id, some err)) :
    id = [] ∧ ∃ (inner : GoError) (typ : GoString),
      err = GoError.deviceIDError inner typ ∧
      deviceIDError.Unwrap err = some inner ∧
      deviceIDError.typ err = some typ ∧
      deviceIDError.IsRavenReportable err = some false ∧
      ((typ = "http url".toList ∧ proto = Protocol.ProtoDoH ∧
          ∃ (ci : ClientInfo) (u : URL) (i : DeviceID), ctx = some ci ∧ ci.URL = some u ∧
            deviceIDFromDoHURL grammar u = some (i, some inner)) ∨
        (typ = "tls server name".toList ∧
          ∃ (ci : ClientInfo) (i : DeviceID), ctx = some ci ∧
            deviceIDFromClientServerName grammar ci.TLSServerName wildcards =
              some (i, some inner))) := by
  cases ctx with
  | none => simp [deviceIDFromContext] at h
  | some ci =>
    -- the part shared by DoH without a path ID, DoT and DoQ
    have sni : ∀ r : Option (DeviceID × Option GoError),
        r = (if wildcards.length = 0 then some ([], none)
          else
            match deviceIDFromClientServerName grammar ci.TLSServerName wildcards with
            | none => none
            | some (_, some e) =>
              some ([], some (GoError.deviceIDError e "tls server name".toList))
            | some (i, none) => some (i, none)) →
        r = some (id, some err) →
        id = [] ∧ ∃ inner, err = GoError.deviceIDError inner "tls server name".toList ∧
          ∃ i, deviceIDFromClientServerName grammar ci.TLSServerName wildcards =
            some (i, some inner) := by
      intro r hr hres
      rw [hr] at hres
      split at hres
      · simp at hres
      · split at hres
        · simp at hres
        · rename_i i e heq
          simp only [Option.some.injEq, Prod.mk.injEq] at hres
          exact ⟨hres.1.symm, e, hres.2.symm, i, heq⟩
        · simp at hres
    by_cases hp : proto = Protocol.ProtoDoH
    · subst hp
      cases hu : ci.URL with
      | none => simp [deviceIDFromContext, hu] at h
      | some u =>
        cases hd : deviceIDFromDoHURL grammar u with
        | none => simp [deviceIDFromContext, hu, hd] at h
        | some res =>
          obtain ⟨i, e⟩ := res
          cases e with
          | some e =>
            simp only [deviceIDFromContext, hu, hd, if_true, Option.some.injEq,
              Prod.mk.injEq] at h
            obtain ⟨h1, h2⟩ := h
            subst h1 h2
            exact ⟨rfl, e, _, rfl, rfl, rfl, rfl, Or.inl ⟨rfl, rfl, ci, u, i, rfl, hu, hd⟩⟩
          | none =>
            by_cases hi : i = []
            · simp only [deviceIDFromContext, hu, hd, if_true, hi, ne_eq,
                not_true_eq_false, if_false] at h
              obtain ⟨h1, inner, h2, j, h3⟩ := sni _ rfl h
              subst h2
              exact ⟨h1, inner, _, rfl, rfl, rfl, rfl, Or.inr ⟨rfl, ci, j, rfl, h3⟩⟩
            · simp [deviceIDFromContext, hu, hd, hi] at h
    · by_cases hq : proto ≠ Protocol.ProtoDoT ∧ proto ≠ Protocol.ProtoDoQ
      · simp [deviceIDFromContext, hp, hq] at h
      · simp only [deviceIDFromContext, if_neg hp, if_neg hq] at h
        obtain ⟨h1, inner, h2, j, h3⟩ := sni _ rfl h
        subst h2
        exact ⟨h1, inner, _, rfl, rfl, rfl, rfl, Or.inr ⟨rfl, ci, j, rfl, h3⟩⟩

/-- C6, on a concrete request: the DoH path `/foo` gives the `bad path` error
wrapped with the tag `http url`, and no ID. -/
theorem deviceIDFromContext_error_witness :
    deviceIDFromContext sampleGrammar (some { URL := some { Path := "/foo".toList } })
        Protocol.ProtoDoH [] =
      some ([], some (GoError.deviceIDError (GoError.badPath "/foo".toList)
        "http url".toList)) ∧
    ([] : DeviceID) = [] ∧ ∃ (inner : GoError) (typ : GoString),
      GoError.deviceIDError (GoError.badPath "/foo".toList) "http url".toList =
        GoError.deviceIDError inner typ ∧
      deviceIDError.Unwrap
        (GoError.deviceIDError (GoError.badPath "/foo".toList) "http url".toList) =
          some inner ∧
      deviceIDError.typ
        (GoError.deviceIDError (GoError.badPath "/foo".toList) "http url".toList) =
          some typ ∧
      deviceIDError.IsRavenReportable
        (GoError.deviceIDError (GoError.badPath "/foo".toList) "http url".toList) =
          some false ∧
      ((typ = "http url".toList ∧ Protocol.ProtoDoH = Protocol.ProtoDoH ∧
          ∃ (ci : ClientInfo) (u : URL) (i : DeviceID),
            some ({ URL := some { Path := "/foo".toList } } : ClientInfo) = some ci ∧
            ci.URL = some u ∧
            deviceIDFromDoHURL sampleGrammar u = some (i, some inner)) ∨
        (typ = "tls server name".toList ∧
          ∃ (ci : ClientInfo) (i : DeviceID),
            some ({ URL := some { Path := "/foo".toList } } : ClientInfo) = some ci ∧
            deviceIDFromClientServerName sampleGrammar ci.TLSServerName [] =
              some (i, some inner))) :=
  ⟨by decide,
    deviceIDFromContext_error sampleGrammar (some { URL := some { Path := "/foo".toList } })
      Protocol.ProtoDoH [] [] _ (by decide)⟩

end dnssvc

/-! ## Validation of the upstream configuration -/

namespace cmd

theorem validateFallbacks_eq_none (l : List netip.AddrPort) (i : Nat)
    (h : ∀ ipp ∈ l, ipp ≠ ({} : netip.AddrPort)) : validateFallbacks l i = none := by
  induction l generalizing i with
  | nil => rfl
  | cons a rest ih =>
    simp only [validateFallbacks, if_neg (h a (List.mem_cons_self _ _))]
    exact ih _ (fun ipp hipp => h ipp (List.mem_cons_of_mem _ hipp))

/-- C7: when `validate` returns nil for an upstream configuration, the stated
invariants hold: the server is not the zero address and port, there is at
least one fallback server, the timeout is strictly positive, and, if the
healthcheck is enabled, its domain template is not empty and its interval,
timeout and backoff duration are strictly positive. -/
theorem upstreamConfig_validate_sound (c : Option upstreamConfig)
    (h : upstreamConfig.validate c = none) :
    ∃ cfg : upstreamConfig, c = some cfg ∧
      cfg.Server ≠ ({} : netip.AddrPort) ∧ cfg.FallbackServers ≠ [] ∧ 0 < cfg.Timeout ∧
      ∀ hc, cfg.Healthcheck = some hc → hc.Enabled = true →
        hc.DomainTmpl ≠ [] ∧ 0 < hc.Interval ∧ 0 < hc.Timeout ∧ 0 < hc.BackoffDuration := by
  cases c with
  | none => simp [upstreamConfig.validate] at h
  | some cfg =>
    refine ⟨cfg, rfl, ?_⟩
    simp only [upstreamConfig.validate] at h
    split at h
    · simp at h
    · rename_i hserver
      split at h
      · simp at h
      · rename_i hfb
        split at h
        · simp at h
        · rename_i htimeout
          refine ⟨hserver, ?_, not_le.mp htimeout, ?_⟩
          · intro e; exact hfb (by simp [e])
          · intro hc hpresent henabled
            split at h
            · simp at h
            · rw [hpresent] at h
              simp only [upstreamHealthcheckConfig.validate, henabled, Bool.not_true,
                Bool.false_eq_true, if_false] at h
              split at h
              · simp [Annotate] at h
              · rename_i hdom
                split at h
                · simp [Annotate] at h
                · rename_i hint
                  split at h
                  · simp [Annotate] at h
                  · rename_i htmo
                    split at h
                    · simp [Annotate] at h
                    · rename_i hback
                      exact ⟨hdom, not_le.mp hint, not_le.mp htmo, not_le.mp hback⟩

/-- C7, on a concrete configuration: a configuration with a server, one
fallback, a timeout of one second and an enabled healthcheck is accepted, and
the invariants hold for it. -/
theorem upstreamConfig_validate_sound_witness :
    ∃ cfg : upstreamConfig,
      some ({ Healthcheck := some { DomainTmpl := "probe.example.org".toList,
                                    Interval := 2000000000, Timeout := 1000000000,
                                    BackoffDuration := 30000000000, Enabled := true },
              Server := { ip := { addr := 134744072, z := 1 }, port := 53 },
              FallbackServers := [{ ip := { addr := 16843009, z := 1 }, port := 53 }],
              Timeout := 1000000000 } : upstreamConfig) = some cfg ∧
      cfg.Server ≠ ({} : netip.AddrPort) ∧ cfg.FallbackServers ≠ [] ∧ 0 < cfg.Timeout ∧
      ∀ hc, cfg.Healthcheck = some hc → hc.Enabled = true →
        hc.DomainTmpl ≠ [] ∧ 0 < hc.Interval ∧ 0 < hc.Timeout ∧ 0 < hc.BackoffDuration :=
  upstreamConfig_validate_sound _ (by decide)

/-- C8, as stated, fails: a configuration that satisfies the stated invariants
and has no healthcheck section is rejected with the nil-configuration error,
and so is one whose only fallback is the zero address and port. -/
theorem upstreamConfig_validate_rejects :
    (specInvariants { Healthcheck := none,
                      Server := { ip := { addr := 134744072, z := 1 }, port := 53 },
                      FallbackServers := [{ ip := { addr := 16843009, z := 1 }, port := 53 }],
                      Timeout := 1000000000 } ∧
      upstreamConfig.validate
        (some { Healthcheck := none,
                Server := { ip := { addr := 134744072, z := 1 }, port := 53 },
                FallbackServers := [{ ip := { addr := 16843009, z := 1 }, port := 53 }],
                Timeout := 1000000000 }) =
        some (ConfigError.annotated "healthcheck: %w".toList ConfigError.errNilConfig)) ∧
    (specInvariants { Healthcheck := some { DomainTmpl := [], Interval := 0, Timeout := 0,
                                            BackoffDuration := 0, Enabled := false },
                      Server := { ip := { addr := 134744072, z := 1 }, port := 53 },
                      FallbackServers := [{}],
                      Timeout := 1000000000 } ∧
      upstreamConfig.validate
        (some { Healthcheck := some { DomainTmpl := [], Interval := 0, Timeout := 0,
                                      BackoffDuration := 0, Enabled := false },
                Server := { ip := { addr := 134744072, z := 1 }, port := 53 },
                FallbackServers := [{}],
                Timeout := 1000000000 }) =
        some (ConfigError.fallbackNoAddress 0)) := by
  refine ⟨⟨⟨by decide, by decide, by decide, ?_⟩, by decide⟩,
    ⟨⟨by decide, by decide, by decide, ?_⟩, by decide⟩⟩
  · intro hc h; simp at h
  · intro hc h he
    simp only [Option.some.injEq] at h
    subst h
    simp at he

/-- C8, amended: `validate` returns nil for every upstream configuration in
which the server is set, there is at least one fallback and every fallback is
set, the timeout is strictly positive, and the healthcheck configuration is
present and either disabled or enabled with a non-empty domain template and
strictly positive interval, timeout and backoff duration. -/
theorem upstreamConfig_validate_complete (c : upstreamConfig)
    (hc : upstreamHealthcheckConfig)
    (hserver : c.Server ≠ ({} : netip.AddrPort)) (hfb : c.FallbackServers ≠ [])
    (hfbset : ∀ ipp ∈ c.FallbackServers, ipp ≠ ({} : netip.AddrPort))
    (htimeout : 0 < c.Timeout) (hpresent : c.Healthcheck = some hc)
    (hhc : hc.Enabled = false ∨
      (hc.DomainTmpl ≠ [] ∧ 0 < hc.Interval ∧ 0 < hc.Timeout ∧ 0 < hc.BackoffDuration)) :
    upstreamConfig.validate (some c) = none := by
  have h1 : ¬ c.FallbackServers.length = 0 := fun e => hfb (List.length_eq_zero.mp e)
  have h2 : ¬ c.Timeout ≤ 0 := not_le.mpr htimeout
  simp only [upstreamConfig.validate, if_neg hserver, if_neg h1, if_neg h2,
    validateFallbacks_eq_none _ 0 hfbset, hpresent, upstreamHealthcheckConfig.validate]
  rcases hhc with he | ⟨hd, hi, ht, hb⟩
  · simp [he, Annotate]
  · have hi2 : ¬ hc.Interval ≤ 0 := not_le.mpr hi
    have ht2 : ¬ hc.Timeout ≤ 0 := not_le.mpr ht
    have hb2 : ¬ hc.BackoffDuration ≤ 0 := not_le.mpr hb
    cases hen : hc.Enabled <;> simp [hd, hi2, ht2, hb2, Annotate]

/-- C8, amended, on concrete configurations: a configuration with a disabled
healthcheck section is accepted. -/
theorem upstreamConfig_validate_complete_witness :
    upstreamConfig.validate
      (some { Healthcheck := some { DomainTmpl := [], Interval := 0, Timeout := 0,
                                    BackoffDuration := 0, Enabled := false },
              Server := { ip := { addr := 134744072, z := 1 }, port := 53 },
              FallbackServers := [{ ip := { addr := 16843009, z := 1 }, port := 53 }],
              Timeout := 1000000000 }) = none :=
  upstreamConfig_validate_complete _
    { DomainTmpl := [], Interval := 0, Timeout := 0, BackoffDuration := 0, Enabled := false }
    (by decide) (by decide) (by decide) (by decide) rfl (Or.inl rfl)

end cmd

/-! ## The health state machine of the primary upstream -/

namespace forward

theorem probe_fail (backoffDuration : Int) (s : HealthState) (now : Int) :
    probe backoffDuration s now false = { state := Health.Unhealthy, downSince := now } := by
  cases hs : s.state <;> simp [probe, hs]

theorem probe_ok_unhealthy (backoffDuration : Int) (s : HealthState) (now : Int)
    (hs : s.state = Health.Unhealthy) :
    (probe backoffDuration s now true).state = Health.Healthy ↔
      backoffDuration ≤ now - s.downSince := by
  by_cases hb : backoffDuration ≤ now - s.downSince
  · simp [probe, hs, hb]
  · simp [probe, hs, hb]

theorem run_append (backoffDuration : Int) (s : HealthState) (trace : List (Int × Bool))
    (now : Int) (ok : Bool) :
    run backoffDuration s (trace ++ [(now, ok)]) =
      probe backoffDuration (run backoffDuration s trace) now ok := by
  induction trace generalizing s with
  | nil => rfl
  | cons x rest ih =>
    obtain ⟨t, r⟩ := x
    simp only [List.cons_append, run]
    exact ih _

/-- In state `Unhealthy`, `down_since` is the time of the most recent failed
probe, or still the one of the start state when no probe has failed. -/
theorem run_downSince (backoffDuration : Int) (trace : List (Int × Bool)) :
    ∀ s : HealthState, (run backoffDuration s trace).state = Health.Unhealthy →
      lastFailure trace = some (run backoffDuration s trace).downSince ∨
      (lastFailure trace = none ∧ s.state = Health.Unhealthy ∧
        (run backoffDuration s trace).downSince = s.downSince) := by
  induction trace with
  | nil => intro s h; exact Or.inr ⟨rfl, h, rfl⟩
  | cons x rest ih =>
    obtain ⟨now, ok⟩ := x
    intro s h
    simp only [run] at h ⊢
    rcases ih _ h with h1 | ⟨h1, h2, h3⟩
    · left
      simp [lastFailure, h1]
    · cases ok with
      | false =>
        left
        rw [probe_fail] at h3 ⊢
        simp only [lastFailure, h1]
        exact congrArg some h3.symm
      | true =>
        right
        cases hs : s.state with
        | Healthy => simp [probe, hs] at h2
        | Unhealthy =>
          by_cases hb : backoffDuration ≤ now - s.downSince
          · simp [probe, hs, hb] at h2
          · have hp : probe backoffDuration s now true = s := by simp [probe, hs, hb]
            rw [hp] at h3 ⊢
            exact ⟨by simp [lastFailure, h1], rfl, h3⟩

/-- C9: in the health state machine, started in `Healthy`, a failed probe
always leaves the state `Unhealthy` with `down_since` the time of that probe;
a successful probe in state `Unhealthy` moves to `Healthy` if and only if at
least the backoff duration has passed since `down_since`, which is the time of
the most recent failed probe.  So for probes fail, fail, success one interval
apart with a backoff of three intervals the states are `Unhealthy`,
`Unhealthy`, `Unhealthy`, and for fail, then success four intervals later, the
final state is `Healthy`. -/
theorem health_backoff (backoffDuration : Int) :
    (∀ (s : HealthState) (now : Int),
      probe backoffDuration s now false =
        { state := Health.Unhealthy, downSince := now }) ∧
    (∀ (s : HealthState) (now : Int), s.state = Health.Unhealthy →
      ((probe backoffDuration s now true).state = Health.Healthy ↔
        backoffDuration ≤ now - s.downSince)) ∧
    (∀ (trace : List (Int × Bool)) (now : Int),
      (run backoffDuration initial trace).state = Health.Unhealthy →
      ∃ t : Int, lastFailure trace = some t ∧
        (run backoffDuration initial trace).downSince = t ∧
        ((run backoffDuration initial (trace ++ [(now, true)])).state = Health.Healthy ↔
          backoffDuration ≤ now - t)) ∧
    (∀ t0 interval : Int, 0 < interval → backoffDuration = 3 * interval →
      states backoffDuration initial
          [(t0, false), (t0 + interval, false), (t0 + 2 * interval, true)] =
        [Health.Unhealthy, Health.Unhealthy, Health.Unhealthy]) ∧
    (∀ t0 interval : Int, 0 ≤ interval → backoffDuration = 3 * interval →
      (run backoffDuration initial [(t0, false), (t0 + 4 * interval, true)]).state =
        Health.Healthy) := by
  refine ⟨probe_fail backoffDuration, probe_ok_unhealthy backoffDuration, ?_, ?_, ?_⟩
  · intro trace now h
    rcases run_downSince backoffDuration trace initial h with h1 | ⟨_, h2, _⟩
    · refine ⟨_, h1, rfl, ?_⟩
      rw [run_append]
      exact probe_ok_unhealthy backoffDuration _ now h
    · simp [initial] at h2
  · intro t0 interval hpos hb
    subst hb
    have h1 : ¬ (3 * interval ≤ t0 + 2 * interval - (t0 + interval)) := by omega
    simp only [states, probe, initial, if_neg h1]
  · intro t0 interval hpos hb
    subst hb
    have h1 : 3 * interval ≤ t0 + 4 * interval - t0 := by omega
    simp only [run, probe, initial, if_pos h1]

/-- C9, on the spec's scenarios with an interval of 100 ms and a backoff of
300 ms: fail, fail, success at 0, 100 and 200 ms leaves `Unhealthy` three
times; fail at 0 and success at 400 ms ends `Healthy`. -/
theorem health_backoff_witness :
    states 300000000 initial [(0, false), (100000000, false), (200000000, true)] =
        [Health.Unhealthy, Health.Unhealthy, Health.Unhealthy] ∧
      (run 300000000 initial [(0, false), (400000000, true)]).state = Health.Healthy :=
  ⟨(health_backoff 300000000).2.2.2.1 0 100000000 (by decide) (by decide),
    (health_backoff 300000000).2.2.2.2 0 100000000 (by decide) (by decide)⟩

end forward

/-! ## DoH routing -/

namespace dnsserver

/-- C10: a request whose cleaned path has the first segment `dns-query` gives
`(true, false, application/dns-message)`; one whose first segment is `resolve`
gives `(true, true, ct)` with `ct` the wire-format content type if the `ct`
query parameter asks for it and `application/x-javascript` otherwise.  The
segments after the first do not change the result, and whenever `ok` is true
`ct` is one of the two content types. -/
theorem isDoH_routes (r : Request) :
    (∀ rest : List GoString, pathParts r.URL.Path = some ("dns-query".toList :: rest) →
      isDoH r = some (true, false, MimeTypeDoH)) ∧
    (∀ rest : List GoString, pathParts r.URL.Path = some ("resolve".toList :: rest) →
      isDoH r = some (true, true,
        if r.URL.Query.Get "ct".toList = MimeTypeDoH then MimeTypeDoH else MimeTypeJSON)) ∧
    (∀ (r2 : Request) (p0 : GoString) (rest rest2 : List GoString),
      pathParts r.URL.Path = some (p0 :: rest) →
      pathParts r2.URL.Path = some (p0 :: rest2) →
      r2.URL.Query.Get "ct".toList = r.URL.Query.Get "ct".toList →
      isDoH r2 = isDoH r) ∧
    (∀ (isJSON : Bool) (ct : GoString), isDoH r = some (true, isJSON, ct) →
      ct = MimeTypeDoH ∨ ct = MimeTypeJSON) := by
  refine ⟨?_, ?_, ?_, ?_⟩
  · intro rest h
    simp only [isDoH, h]
    rfl
  · intro rest h
    simp only [isDoH, h]
    have h0 : ¬ ("resolve".toList = []) := by decide
    have h1 : ¬ (strings.HasSuffix PathDoH "resolve".toList = true) := by decide
    have h2 : strings.HasSuffix PathJSON "resolve".toList = true := by decide
    simp only [if_neg h0, if_neg h1, if_pos h2]
    split <;> rfl
  · intro r2 p0 rest rest2 h h2 hct
    simp only [isDoH, h, h2, hct]
  · intro isJSON ct h
    simp only [isDoH] at h
    split at h
    · simp at h
    · simp at h
    · split at h
      · simp at h
      · split at h
        · simp only [Option.some.injEq, Prod.mk.injEq] at h
          exact Or.inl h.2.2.symm
        · split at h
          · split at h
            · simp only [Option.some.injEq, Prod.mk.injEq] at h
              exact Or.inl h.2.2.symm
            · simp only [Option.some.injEq, Prod.mk.injEq] at h
              exact Or.inr h.2.2.symm
          · simp at h

/-- C10, on concrete requests: `/dns-query/abc123` is wire-format DoH,
`/resolve` is JSON, and `/resolve?ct=application/dns-message` is JSON with
the wire-format content type. -/
theorem isDoH_routes_witness :
    isDoH { URL := { Path := "/dns-query/abc123".toList } } =
        some (true, false, "application/dns-message".toList) ∧
      isDoH { URL := { Path := "/resolve".toList } } =
        some (true, true, "application/x-javascript".toList) ∧
      isDoH { URL := { Path := "/resolve".toList,
                       Query := [("ct".toList, ["application/dns-message".toList])] } } =
        some (true, true, "application/dns-message".toList) :=
  ⟨(isDoH_routes { URL := { Path := "/dns-query/abc123".toList } }).1
      ["abc123".toList] (by decide),
    (isDoH_routes { URL := { Path := "/resolve".toList } }).2.1 [] (by decide),
    (isDoH_routes
      { URL := { Path := "/resolve".toList,
                 Query := [("ct".toList, ["application/dns-message".toList])] } }).2.1 []
      (by decide)⟩

end dnsserver

/-! ## DoH routing: which paths are accepted -/

namespace strings

theorem HasSuffix_iff (s suffix : GoString) : HasSuffix s suffix = true ↔ suffix <:+ s := by
  constructor
  · intro h
    simp only [HasSuffix, Bool.and_eq_true, decide_eq_true_eq, beq_iff_eq] at h
    rw [← h.2]
    exact List.drop_suffix _ _
  · intro h
    simp only [HasSuffix, Bool.and_eq_true, decide_eq_true_eq, beq_iff_eq]
    exact ⟨h.length_le, (List.suffix_iff_eq_drop.mp h).symm⟩

theorem Split_ne_nil (s : GoString) (sep : Char) : Split s sep ≠ [] := by
  cases s with
  | nil => simp [Split]
  | cons c cs =>
    simp only [Split]
    split
    · simp
    · split <;> simp

end strings

namespace path

theorem Clean_ne_nil (p s : GoString) (h : Clean p = some s) : s ≠ [] := by
  cases p with
  | nil =>
    simp only [Clean, Option.some.injEq] at h
    rw [← h]; simp
  | cons c rest =>
    simp only [Clean, Option.map_eq_some'] at h
    obtain ⟨out, _, hout⟩ := h
    rw [← hout]
    split
    · simp
    · rename_i hlen
      intro e
      exact hlen (by rw [e]; rfl)

end path

namespace dnsserver

/-- The first lines of `isDoH` and of `deviceIDFromDoHURL` never index out of
range: there is always a first part. -/
theorem pathParts_cons (p : GoString) :
    ∃ (p0 : GoString) (rest : List GoString), pathParts p = some (p0 :: rest) := by
  have hsome := path.Clean_isSome p
  cases hc : path.Clean p with
  | none => rw [hc] at hsome; simp at hsome
  | some s =>
    have hne := path.Clean_ne_nil p s hc
    cases s with
    | nil => exact absurd rfl hne
    | cons c cs =>
      simp only [pathParts, hc]
      by_cases hslash : c = '/'
      · subst hslash
        cases hs : strings.Split cs '/' with
        | nil => exact absurd hs (strings.Split_ne_nil cs '/')
        | cons q0 qs => exact ⟨q0, qs, by simp [strings.Split, hs]⟩
      · cases hs : strings.Split cs '/' with
        | nil => exact absurd hs (strings.Split_ne_nil cs '/')
        | cons q0 qs => exact ⟨c :: q0, qs, by simp [strings.Split, hs, hslash]⟩

/-- The result `ok` of `isDoH` in terms of the first part of the path. -/
theorem isDoH_of_parts (r : Request) (p0 : GoString) (rest : List GoString)
    (h : pathParts r.URL.Path = some (p0 :: rest)) :
    ∃ (isJSON : Bool) (ct : GoString),
      isDoH r = some (decide (p0 ≠ [] ∧ (p0 <:+ PathDoH ∨ p0 <:+ PathJSON)), isJSON, ct) := by
  simp only [isDoH, h]
  by_cases h0 : p0 = []
  · exact ⟨false, [], by simp [h0]⟩
  · by_cases h1 : strings.HasSuffix PathDoH p0 = true
    · have := (strings.HasSuffix_iff _ _).mp h1
      exact ⟨false, MimeTypeDoH, by simp [h0, h1, this]⟩
    · have n1 : ¬ p0 <:+ PathDoH := fun hh => h1 ((strings.HasSuffix_iff _ _).mpr hh)
      by_cases h2 : strings.HasSuffix PathJSON p0 = true
      · have := (strings.HasSuffix_iff _ _).mp h2
        simp only [if_neg h0, if_neg h1, if_pos h2]
        split
        · exact ⟨true, MimeTypeDoH, by simp [h0, this]⟩
        · exact ⟨true, MimeTypeJSON, by simp [h0, this]⟩
      · have n2 : ¬ p0 <:+ PathJSON := fun hh => h2 ((strings.HasSuffix_iff _ _).mpr hh)
        exact ⟨false, [], by simp [h0, h1, h2, n1, n2]⟩

/-- C20: `isDoH` returns `ok = true` exactly when the first segment of the
cleaned request path, which always exists, is a non-empty string that is a
suffix of `/dns-query` or of `/resolve`.  So a request whose path is `/query`
or `/ns-query` is accepted as wire-format DoH, and the path `/`, whose first
segment is empty, is not accepted. -/
theorem isDoH_ok_iff (r : Request) :
    (∃ (p0 : GoString) (rest : List GoString),
      pathParts r.URL.Path = some (p0 :: rest) ∧
      ∃ (isJSON : Bool) (ct : GoString),
        isDoH r =
          some (decide (p0 ≠ [] ∧ (p0 <:+ PathDoH ∨ p0 <:+ PathJSON)), isJSON, ct)) ∧
      isDoH { r with URL := { r.URL with Path := "/query".toList } } =
        some (true, false, MimeTypeDoH) ∧
      isDoH { r with URL := { r.URL with Path := "/ns-query".toList } } =
        some (true, false, MimeTypeDoH) ∧
      pathParts "/".toList = some [[]] ∧
      isDoH { r with URL := { r.URL with Path := "/".toList } } = some (false, false, []) := by
  refine ⟨?_, ?_, ?_, by decide, ?_⟩
  · obtain ⟨p0, rest, h⟩ := pathParts_cons r.URL.Path
    exact ⟨p0, rest, h, isDoH_of_parts r p0 rest h⟩
  · have h : pathParts "/query".toList = some ["query".toList] := by decide
    simp only [isDoH, h]
    rfl
  · have h : pathParts "/ns-query".toList = some ["ns-query".toList] := by decide
    simp only [isDoH, h]
    rfl
  · have h : pathParts "/".toList = some [[]] := by decide
    simp only [isDoH, h]
    rfl

/-! ## The defaults of `newServerDNS` -/

/-- C19: `newServerDNS` keeps every `ReadTimeout`, `WriteTimeout`,
`TCPIdleTimeout`, `UDPSize` and `TCPSize` of the configuration that is not zero
and replaces each one that is zero by its default, two seconds, two seconds,
thirty seconds, 512 bytes and 512 bytes; the rest of the configuration is not
changed, and none of the five fields of the result is zero. -/
theorem newServerDNS_defaults (conf : ConfigDNS) :
    (newServerDNS conf).conf.ReadTimeout =
        (if conf.ReadTimeout = 0 then 2000000000 else conf.ReadTimeout) ∧
      (newServerDNS conf).conf.WriteTimeout =
        (if conf.WriteTimeout = 0 then 2000000000 else conf.WriteTimeout) ∧
      (newServerDNS conf).conf.TCPIdleTimeout =
        (if conf.TCPIdleTimeout = 0 then 30000000000 else conf.TCPIdleTimeout) ∧
      (newServerDNS conf).conf.UDPSize = (if conf.UDPSize = 0 then 512 else conf.UDPSize) ∧
      (newServerDNS conf).conf.TCPSize = (if conf.TCPSize = 0 then 512 else conf.TCPSize) ∧
      (newServerDNS conf).conf.ConfigBase = conf.ConfigBase ∧
      (newServerDNS conf).conf.ReadTimeout ≠ 0 ∧
      (newServerDNS conf).conf.WriteTimeout ≠ 0 ∧
      (newServerDNS conf).conf.TCPIdleTimeout ≠ 0 ∧
      (newServerDNS conf).conf.UDPSize ≠ 0 ∧
      (newServerDNS conf).conf.TCPSize ≠ 0 := by
  simp only [newServerDNS, DefaultReadTimeout, DefaultWriteTimeout, DefaultTCPIdleTimeout,
    MinMsgSize, Second]
  by_cases h1 : conf.ReadTimeout = 0 <;> by_cases h2 : conf.WriteTimeout = 0 <;>
    by_cases h3 : conf.TCPIdleTimeout = 0 <;> by_cases h4 : conf.UDPSize = 0 <;>
    by_cases h5 : conf.TCPSize = 0 <;> simp [h1, h2, h3, h4, h5]

end dnsserver

/-! ## The address family of the cache middleware -/

namespace ecscache

open agdnet

/-- C16: `ecsFamFromReq` returns the IPv4 family exactly when the request has
an ECS option whose subnet address is IPv4, or has no ECS option and the remote
IP is IPv4; otherwise it returns the IPv6 family.  With an ECS option the
remote IP does not matter, and the family is never `AddrFamilyNone`. -/
theorem ecsFamFromReq_family (ri : agd.RequestInfo) :
    (ecsFamFromReq ri = AddrFamily.AddrFamilyIPv4 ↔
        ((∃ ecs : agd.ECS, ri.ECS = some ecs ∧ ecs.Subnet.Addr.Is4 = true) ∨
          (ri.ECS = none ∧ ri.RemoteIP.Is4 = true))) ∧
      (ecsFamFromReq ri = AddrFamily.AddrFamilyIPv6 ↔
        ¬ ((∃ ecs : agd.ECS, ri.ECS = some ecs ∧ ecs.Subnet.Addr.Is4 = true) ∨
          (ri.ECS = none ∧ ri.RemoteIP.Is4 = true))) ∧
      (∀ (ecs : agd.ECS) (ip : netip.Addr),
        ecsFamFromReq { ri with ECS := some ecs, RemoteIP := ip } =
          ecsFamFromReq { ri with ECS := some ecs }) ∧
      ecsFamFromReq ri ≠ AddrFamily.AddrFamilyNone := by
  refine ⟨?_, ?_, ?_, ?_⟩
  · cases he : ri.ECS with
    | none => by_cases h : ri.RemoteIP.Is4 = true <;> simp [ecsFamFromReq, he, h]
    | some ecs => by_cases h : ecs.Subnet.Addr.Is4 = true <;> simp [ecsFamFromReq, he, h]
  · cases he : ri.ECS with
    | none => by_cases h : ri.RemoteIP.Is4 = true <;> simp [ecsFamFromReq, he, h]
    | some ecs => by_cases h : ecs.Subnet.Addr.Is4 = true <;> simp [ecsFamFromReq, he, h]
  · intro ecs ip
    simp [ecsFamFromReq]
  · cases he : ri.ECS with
    | none => by_cases h : ri.RemoteIP.Is4 = true <;> simp [ecsFamFromReq, he, h]
    | some ecs => by_cases h : ecs.Subnet.Addr.Is4 = true <;> simp [ecsFamFromReq, he, h]

end ecscache

/-! ## The lifecycle of the servers -/

namespace dnsserver

/-- C14: for `ServerDNS`, `ServerTLS` and `ServerHTTPS`, `Start` on a server
whose started flag is set returns `ErrServerAlreadyStarted`, and `Shutdown` on
a server whose started flag is clear returns `ErrServerNotStarted`; in both
cases the server is left as it was: the flag, the listeners, the connections
with their deadlines, and the record of calls made. -/
theorem lifecycle_guards :
    (∀ (s : ServerDNS) (listenErr : Option ServerError), s.ServerBase.started = true →
      s.Start listenErr = (s, some ServerError.ErrServerAlreadyStarted)) ∧
    (∀ (s : ServerTLS) (listenErr : Option ServerError),
      s.ServerDNS.ServerBase.started = true →
      s.Start listenErr = (s, some ServerError.ErrServerAlreadyStarted)) ∧
    (∀ (s : ServerHTTPS) (listenErr : Option ServerError), s.ServerBase.started = true →
      s.Start listenErr = (s, some ServerError.ErrServerAlreadyStarted)) ∧
    (∀ (s : ServerDNS) (waitErr : Option ServerError), s.ServerBase.started = false →
      s.Shutdown waitErr = (s, some ServerError.ErrServerNotStarted)) ∧
    (∀ (s : ServerTLS) (waitErr : Option ServerError),
      s.ServerDNS.ServerBase.started = false →
      s.Shutdown waitErr = (s, some ServerError.ErrServerNotStarted)) ∧
    (∀ (s : ServerHTTPS) (waitErr : Option ServerError), s.ServerBase.started = false →
      s.Shutdown waitErr = some (s, some ServerError.ErrServerNotStarted)) := by
  refine ⟨?_, ?_, ?_, ?_, ?_, ?_⟩
  · intro s listenErr h
    simp [ServerDNS.Start, h]
  · intro s listenErr h
    simp [ServerTLS.Start, h]
  · intro s listenErr h
    simp [ServerHTTPS.Start, h]
  · intro s waitErr h
    simp [ServerDNS.Shutdown, ServerDNS.shutdown, h]
  · intro s waitErr h
    simp [ServerTLS.Shutdown, ServerDNS.Shutdown, ServerDNS.shutdown, h]
  · intro s waitErr h
    simp [ServerHTTPS.Shutdown, ServerHTTPS.shutdown, h]

/-- C14, on concrete servers: a second `Start` of a started UDP server and a
`Shutdown` of a new one change nothing and return the two errors. -/
theorem lifecycle_guards_witness :
    ((newServerDNS sampleConfigDNS).Start none).1.Start none =
        (((newServerDNS sampleConfigDNS).Start none).1,
          some ServerError.ErrServerAlreadyStarted) ∧
      (newServerDNS sampleConfigDNS).Shutdown none =
        (newServerDNS sampleConfigDNS, some ServerError.ErrServerNotStarted) :=
  ⟨lifecycle_guards.1 _ none (by decide), lifecycle_guards.2.2.2.1 _ none (by decide)⟩

/-- C15, as stated, fails: on a new UDP server the calls `Start`, `Shutdown`,
`Start`, all without error, end with the server marked as started and its
listener open again, although the `Shutdown` in between succeeded and left the
server not started. -/
theorem lifecycle_restart :
    ((newServerDNS sampleConfigDNS).run
        [Op.start none, Op.shutdown none, Op.start none]).2 = [none, none, none] ∧
      ((newServerDNS sampleConfigDNS).run
        [Op.start none, Op.shutdown none]).1.ServerBase.started = false ∧
      ((newServerDNS sampleConfigDNS).run
        [Op.start none, Op.shutdown none, Op.start none]).1.ServerBase.started = true ∧
      ((newServerDNS sampleConfigDNS).run
        [Op.start none, Op.shutdown none, Op.start none]).1.ServerBase.udpListener =
          Listener.opened := by
  decide

/-- A `Shutdown` that succeeds leaves the server not started, and a `Start`
right after it whose listening succeeds, on a UDP or TCP server, returns no
error and leaves the server running. -/
theorem serverDNS_restart (s : ServerDNS) (waitErr : Option ServerError)
    (hok : (s.Shutdown waitErr).2 = none)
    (hproto : s.ServerBase.proto = Protocol.ProtoDNSUDP ∨
      s.ServerBase.proto = Protocol.ProtoDNSTCP) :
    (s.Shutdown waitErr).1.ServerBase.started = false ∧
      ¬ (s.Shutdown waitErr).1.Running ∧
      ((s.Shutdown waitErr).1.Start none).2 = none ∧
      ((s.Shutdown waitErr).1.Start none).1.Running := by
  by_cases hs : s.ServerBase.started = true
  · have hw : waitErr = none := by
      simpa [ServerDNS.Shutdown, ServerDNS.shutdown, hs, ServerBase.waitShutdown] using hok
    subst hw
    rcases hproto with hp | hp
    · refine ⟨?_, ?_, ?_, ?_⟩ <;>
        simp [ServerDNS.Shutdown, ServerDNS.shutdown, hs, ServerBase.waitShutdown,
          ServerDNS.unblockTCPConns, ServerBase.closeListeners, ServerDNS.Start,
          ServerDNS.Running, hp]
    · refine ⟨?_, ?_, ?_, ?_⟩ <;>
        simp [ServerDNS.Shutdown, ServerDNS.shutdown, hs, ServerBase.waitShutdown,
          ServerDNS.unblockTCPConns, ServerBase.closeListeners, ServerDNS.Start,
          ServerDNS.Running, hp]
  · simp [ServerDNS.Shutdown, ServerDNS.shutdown, hs] at hok

/-- The protocol of a server is not changed by `Start`. -/
theorem serverDNS_start_proto (s : ServerDNS) (listenErr : Option ServerError) :
    (s.Start listenErr).1.ServerBase.proto = s.ServerBase.proto := by
  obtain ⟨⟨name, addr, proto, started, udp, tcp, wg, calls⟩, conf, up, tp, conns⟩ := s
  cases started <;> cases proto <;> cases listenErr <;> rfl

/-- The protocol of a server is not changed by `Shutdown`. -/
theorem serverDNS_shutdown_proto (s : ServerDNS) (waitErr : Option ServerError) :
    (s.Shutdown waitErr).1.ServerBase.proto = s.ServerBase.proto := by
  obtain ⟨⟨name, addr, proto, started, udp, tcp, wg, calls⟩, conf, up, tp, conns⟩ := s
  cases started <;> rfl

/-- The protocol of a server is the same after every sequence of calls. -/
theorem serverDNS_run_proto (ops : List Op) :
    ∀ s : ServerDNS, (s.run ops).1.ServerBase.proto = s.ServerBase.proto := by
  induction ops with
  | nil => intro s; rfl
  | cons op ops ih =>
    intro s
    show ((s.step op).1.run ops).1.ServerBase.proto = _
    rw [ih]
    cases op with
    | start listenErr => exact serverDNS_start_proto s listenErr
    | shutdown waitErr => exact serverDNS_shutdown_proto s waitErr

/-- On a server that is not started, every sequence of `Shutdown` calls
returns `ErrServerNotStarted` each time and changes nothing. -/
theorem serverDNS_run_shutdowns (ws : List (Option ServerError)) (s : ServerDNS)
    (hs : s.ServerBase.started = false) :
    (s.run (ws.map Op.shutdown)).1 = s ∧
      ∀ e ∈ (s.run (ws.map Op.shutdown)).2, e = some ServerError.ErrServerNotStarted := by
  induction ws with
  | nil => exact ⟨rfl, by intro e he; simp [ServerDNS.run] at he⟩
  | cons w ws ih =>
    have hstep : s.Shutdown w = (s, some ServerError.ErrServerNotStarted) := by
      simp [ServerDNS.Shutdown, ServerDNS.shutdown, hs]
    have hrun : s.run ((w :: ws).map Op.shutdown) =
        ((s.run (ws.map Op.shutdown)).1,
          some ServerError.ErrServerNotStarted :: (s.run (ws.map Op.shutdown)).2) := by
      simp only [List.map_cons, ServerDNS.run, ServerDNS.step, hstep]
    rw [hrun]
    refine ⟨ih.1, ?_⟩
    intro e he
    rcases List.mem_cons.mp he with h | h
    · exact h
    · exact ih.2 e h

/-- C15, amended: the lifecycle is driven by the started flag alone and has no
terminal state.  In every sequence of `Start` and `Shutdown` calls on a UDP or
TCP `ServerDNS`, once a `Shutdown` has succeeded the server is not started and
not running; the `Shutdown` calls that follow return `ErrServerNotStarted` and
change nothing; and the next `Start` call, when its listening succeeds, returns
no error and puts the server back into the running state. -/
theorem lifecycle_start_after_shutdown (s0 : ServerDNS) (ops : List Op)
    (waitErr : Option ServerError) (ws : List (Option ServerError))
    (hok : ((s0.run ops).1.Shutdown waitErr).2 = none)
    (hproto : s0.ServerBase.proto = Protocol.ProtoDNSUDP ∨
      s0.ServerBase.proto = Protocol.ProtoDNSTCP) :
    ((s0.run ops).1.Shutdown waitErr).1.ServerBase.started = false ∧
      ¬ ((s0.run ops).1.Shutdown waitErr).1.Running ∧
      (((s0.run ops).1.Shutdown waitErr).1.run (ws.map Op.shutdown)).1 =
        ((s0.run ops).1.Shutdown waitErr).1 ∧
      (∀ e ∈ (((s0.run ops).1.Shutdown waitErr).1.run (ws.map Op.shutdown)).2,
        e = some ServerError.ErrServerNotStarted) ∧
      ((((s0.run ops).1.Shutdown waitErr).1.run (ws.map Op.shutdown)).1.Start none).2 =
        none ∧
      ((((s0.run ops).1.Shutdown waitErr).1.run
        (ws.map Op.shutdown)).1.Start none).1.Running := by
  have hp : (s0.run ops).1.ServerBase.proto = Protocol.ProtoDNSUDP ∨
      (s0.run ops).1.ServerBase.proto = Protocol.ProtoDNSTCP := by
    rw [serverDNS_run_proto ops s0]
    exact hproto
  obtain ⟨h1, h2, h3, h4⟩ := serverDNS_restart (s0.run ops).1 waitErr hok hp
  obtain ⟨h5, h6⟩ := serverDNS_run_shutdowns ws ((s0.run ops).1.Shutdown waitErr).1 h1
  refine ⟨h1, h2, h5, h6, ?_, ?_⟩
  · rw [h5]; exact h3
  · rw [h5]; exact h4

/-- C15, amended, on a concrete server: after `Start` and `Shutdown` of a new
UDP server and one more `Shutdown`, which is refused, `Start` succeeds and the
server runs again. -/
theorem lifecycle_start_after_shutdown_witness :
    (((((newServerDNS sampleConfigDNS).run [Op.start none]).1.Shutdown none).1.run
        ([none].map Op.shutdown)).1.Start none).2 = none ∧
      (((((newServerDNS sampleConfigDNS).run [Op.start none]).1.Shutdown none).1.run
        ([none].map Op.shutdown)).1.Start none).1.Running :=
  (lifecycle_start_after_shutdown (newServerDNS sampleConfigDNS) [Op.start none] none [none]
    (by decide) (Or.inl (by decide))).2.2.2.2

end dnsserver

/-! ## The cache middleware: what is stored and what is written -/

namespace ecscache

open agdnet

/-- C17: when the ECS data of the upstream response is read without error,
`writeUpstreamResponse` makes one call of `m.set`.  The host honours ECS exactly
when the scope is not zero and the subnet is not the zero prefix: then the
response is stored with the marker under the location subnet; otherwise it is
stored without the marker under the zero subnet of the ECS address family,
whatever the location subnet is, so that other locations give the same call. -/
theorem writeUpstreamResponse_stored {Msg : Type} (ops : Ops Msg) (req resp : Msg)
    (ri : agd.RequestInfo) (locSubnet : netip.Prefix) (ecsFam : AddrFamily) (reqDO : Bool)
    (subnet : netip.Prefix) (scope : Nat) (h : ops.ECSFromMsg resp = (subnet, scope, none)) :
    (scope ≠ 0 ∧ subnet ≠ ({} : netip.Prefix) →
      (writeUpstreamResponse ops req resp ri locSubnet ecsFam reqDO).1.stored =
        [{ resp := ops.rmHopToHopData resp ri.QType reqDO, host := ri.Host,
           subnet := locSubnet, hostHasECS := true, reqDO := reqDO }]) ∧
    (¬ (scope ≠ 0 ∧ subnet ≠ ({} : netip.Prefix)) →
      (writeUpstreamResponse ops req resp ri locSubnet ecsFam reqDO).1.stored =
        [{ resp := ops.rmHopToHopData resp ri.QType reqDO, host := ri.Host,
           subnet := ops.ZeroSubnet ecsFam, hostHasECS := false, reqDO := reqDO }] ∧
      ∀ locSubnet2 : netip.Prefix,
        (writeUpstreamResponse ops req resp ri locSubnet2 ecsFam reqDO).1.stored =
          (writeUpstreamResponse ops req resp ri locSubnet ecsFam reqDO).1.stored) := by
  have key : ∀ loc : netip.Prefix,
      (writeUpstreamResponse ops req resp ri loc ecsFam reqDO).1.stored =
        [{ resp := ops.rmHopToHopData resp ri.QType reqDO, host := ri.Host,
           subnet := if (decide (scope ≠ 0) && decide (subnet ≠ ({} : netip.Prefix))) = true
             then loc else ops.ZeroSubnet ecsFam,
           hostHasECS := decide (scope ≠ 0) && decide (subnet ≠ ({} : netip.Prefix)),
           reqDO := reqDO }] := by
    intro loc
    simp only [writeUpstreamResponse, h]
    split
    · split <;> (try split) <;> rfl
    · split <;> rfl
  constructor
  · intro hh
    have hb : (decide (scope ≠ 0) && decide (subnet ≠ ({} : netip.Prefix))) = true := by
      simp [hh.1, hh.2]
    rw [key, hb]
    simp
  · intro hh
    have hb : (decide (scope ≠ 0) && decide (subnet ≠ ({} : netip.Prefix))) = false := by
      rw [Bool.eq_false_iff]
      intro hc
      simp only [Bool.and_eq_true, decide_eq_true_eq] at hc
      exact hh hc
    refine ⟨?_, ?_⟩
    · rw [key, hb]
      simp
    · intro loc2
      rw [key, key, hb]
      simp

/-- C17, on a concrete response without scope: it is stored without the marker
under the zero IPv4 subnet, and the same for another location subnet. -/
theorem writeUpstreamResponse_stored_witness :
    (writeUpstreamResponse sampleOps 7 2
        { ECS := none, RemoteIP := { addr := 16909060, z := 1 }, Host := "example.com".toList,
          QType := 1 }
        { ip := { addr := 167772160, z := 1 }, bits := 8 } AddrFamily.AddrFamilyIPv4
        false).1.stored =
      [{ resp := 102, host := "example.com".toList,
         subnet := { ip := { addr := 0, z := 1 }, bits := 0 }, hostHasECS := false,
         reqDO := false }] :=
  ((writeUpstreamResponse_stored sampleOps 7 2
    { ECS := none, RemoteIP := { addr := 16909060, z := 1 }, Host := "example.com".toList,
      QType := 1 }
    { ip := { addr := 167772160, z := 1 }, bits := 8 } AddrFamily.AddrFamilyIPv4 false
    {} 0 rfl).2 (by decide)).1

/-- C18: on a cache hit, `writeCachedResponse` writes the response changed by
`setECS`, with the ECS data of the request and its ECS family, exactly when the
entry is marked as honouring ECS and the request had an ECS option; in every
other case it writes the cached response as it is.  Whenever setting ECS does
not fail there is exactly one call of `WriteMsg`, with the request; when it
fails there is none. -/
theorem writeCachedResponse_written {Msg : Type} (ops : Ops Msg) (req resp : Msg)
    (ecs : Option agd.ECS) (ecsFam : AddrFamily) (hostHasECS : Bool) :
    (∀ (e : agd.ECS) (resp1 : Msg), hostHasECS = true → ecs = some e →
      ops.setECS resp e ecsFam true = (resp1, none) →
      (writeCachedResponse ops req resp ecs ecsFam hostHasECS).1.written = [(req, resp1)]) ∧
    (∀ (e : agd.ECS) (resp1 : Msg) (err : Error), hostHasECS = true → ecs = some e →
      ops.setECS resp e ecsFam true = (resp1, some err) →
      (writeCachedResponse ops req resp ecs ecsFam hostHasECS).1.written = [] ∧
      (writeCachedResponse ops req resp ecs ecsFam hostHasECS).2 =
        some (Error.wrapped "setting ecs for cached resp: %w".toList err)) ∧
    (hostHasECS = false ∨ ecs = none →
      (writeCachedResponse ops req resp ecs ecsFam hostHasECS).1.written = [(req, resp)]) := by
  refine ⟨?_, ?_, ?_⟩
  · intro e resp1 hh he hset
    subst hh he
    simp only [writeCachedResponse, hset, if_true]
    split <;> rfl
  · intro e resp1 err hh he hset
    subst hh he
    simp [writeCachedResponse, hset]
  · intro hh
    cases hostHasECS with
    | false =>
      simp only [writeCachedResponse, Bool.false_eq_true, if_false]
      split <;> rfl
    | true =>
      rcases hh with hh | hh
      · simp at hh
      · subst hh
        simp only [writeCachedResponse, if_true]
        split <;> rfl

/-- C18, on concrete hits: with the marker and an ECS option in the request the
response changed by `setECS` is written; without the marker the cached response
is written as it is; each time with the request. -/
theorem writeCachedResponse_written_witness :
    (writeCachedResponse sampleOps 7 2
        (some { Subnet := { ip := { addr := 16909056, z := 1 }, bits := 24 }, Scope := 0 })
        AddrFamily.AddrFamilyIPv4 true).1.written = [(7, 10002)] ∧
      (writeCachedResponse sampleOps 7 2
        (some { Subnet := { ip := { addr := 16909056, z := 1 }, bits := 24 }, Scope := 0 })
        AddrFamily.AddrFamilyIPv4 false).1.written = [(7, 2)] :=
  ⟨(writeCachedResponse_written sampleOps 7 2
      (some { Subnet := { ip := { addr := 16909056, z := 1 }, bits := 24 }, Scope := 0 })
      AddrFamily.AddrFamilyIPv4 true).1 _ 10002 rfl rfl rfl,
    (writeCachedResponse_written sampleOps 7 2
      (some { Subnet := { ip := { addr := 16909056, z := 1 }, bits := 24 }, Scope := 0 })
      AddrFamily.AddrFamilyIPv4 false).2.2 (Or.inl rfl)⟩

end ecscache

/-! ## The DoH HTTP handler: dispatch and status codes -/

namespace dnsserver

/-- C11, at the failing input: a request with the path `/query`, whose first
segment is neither `dns-query` nor `resolve`, gets `ok = true` from `isDoH`,
so `ServeHTTP` serves it as DNS: it is not given to `NonDNSHandler` and is not
answered with 404; without a `dns` parameter it is answered with 400. -/
theorem ServeHTTP_query_served_as_DNS {Msg : Type} (env : HandlerEnv Msg) :
    pathParts "/query".toList = some ["query".toList] ∧
      isDoH { URL := { Path := "/query".toList } } = some (true, false, MimeTypeDoH) ∧
      ServeHTTP env { URL := { Path := "/query".toList } } =
        serveDoH env { URL := { Path := "/query".toList } } ∧
      (ServeHTTP env { URL := { Path := "/query".toList } }).delegated = false ∧
      (ServeHTTP env { URL := { Path := "/query".toList } }).w.status =
        some StatusBadRequest := by
  have h1 : isDoH { URL := { Path := "/query".toList } } = some (true, false, MimeTypeDoH) := by
    decide
  have h2 : httpRequestToMsg env { URL := { Path := "/query".toList } } =
      some ([], some HTTPError.noDNSParam) := by
    simp only [httpRequestToMsg, h1]
    rfl
  refine ⟨by decide, h1, ?_, ?_, ?_⟩
  · simp only [ServeHTTP, h1, if_true]
  · simp only [ServeHTTP, h1, if_true, serveDoH, h2]
  · simp only [ServeHTTP, h1, if_true, serveDoH, h2]
    rfl

theorem httpRequestToMsgGet_absent (r : Request)
    (hq : r.URL.Query.lookup "dns".toList = none) :
    httpRequestToMsgGet r = some ([], some HTTPError.noDNSParam) := by
  unfold httpRequestToMsgGet
  rw [hq]

theorem httpRequestToMsgGet_repeated (r : Request) (vs : List GoString)
    (hq : r.URL.Query.lookup "dns".toList = some vs) (hlen : vs.length ≠ 1) :
    httpRequestToMsgGet r = some ([], some HTTPError.multipleDNSValues) := by
  unfold httpRequestToMsgGet
  rw [hq]
  match vs, hlen with
  | [], _ => rfl
  | [_], hlen => exact absurd rfl hlen
  | _ :: _ :: _, _ => rfl

theorem httpRequestToMsgGet_one (r : Request) (v : GoString)
    (hq : r.URL.Query.lookup "dns".toList = some [v]) :
    httpRequestToMsgGet r =
      match base64.DecodeString v with
      | none => none
      | some (b, err) => some (b, err.map HTTPError.corruptInput) := by
  unfold httpRequestToMsgGet
  rw [hq]

theorem httpRequestToMsg_wire {Msg : Type} (env : HandlerEnv Msg) (r : Request) (ok : Bool)
    (ct : GoString) (hdoh : isDoH r = some (ok, false, ct)) :
    httpRequestToMsg env r =
      if r.Method = "GET".toList then httpRequestToMsgGet r
      else if r.Method = "POST".toList then some (httpRequestToMsgPost r)
      else some ([], some (HTTPError.methodNotAllowed r.Method)) := by
  unfold httpRequestToMsg
  rw [hdoh]
  rfl

/-- What `ServeHTTP` does with a request that `isDoH` accepts. -/
theorem ServeHTTP_of_isDoH {Msg : Type} (env : HandlerEnv Msg) (r : Request)
    (isJSON : Bool) (ct : GoString) (h : isDoH r = some (true, isJSON, ct)) :
    ServeHTTP env r = serveDoH env r := by
  simp only [ServeHTTP, h, if_true]

/-- The status code of the DoH HTTP handler in terms of what `isDoH` returns.
It is 400, and the DNS handler is not called, when `isDoH` accepts the path and
the request cannot be converted to a DNS message, as with a missing, repeated
or undecodable `dns` parameter of a GET request or a wire-format request that
is neither GET nor POST.  It is 404 when `isDoH` rejects the path and no
`NonDNSHandler` is set.  It is 500 when the DNS handler has written no
response.  And a request that is not given to a `NonDNSHandler` gets 200 only
when a response was written and packed without error; the packed bytes are then
the first that were given to `Write`. -/
theorem ServeHTTP_status {Msg : Type} (env : HandlerEnv Msg) (r : Request) :
    (∀ (isJSON : Bool) (ct : GoString) (m : List Nat) (e : HTTPError),
      isDoH r = some (true, isJSON, ct) → httpRequestToMsg env r = some (m, some e) →
      (ServeHTTP env r).w.status = some 400 ∧ (ServeHTTP env r).dnsCalls = 0 ∧
        (ServeHTTP env r).invalidMsgs = 1) ∧
    (∀ ct : GoString, isDoH r = some (true, false, ct) →
      (r.Method = "GET".toList ∧ r.URL.Query.lookup "dns".toList = none) ∨
        (r.Method = "GET".toList ∧
          ∃ vs : List GoString, r.URL.Query.lookup "dns".toList = some vs ∧ vs.length ≠ 1) ∨
        (r.Method = "GET".toList ∧
          ∃ (v : GoString) (b : List Nat) (offset : Nat),
            r.URL.Query.lookup "dns".toList = some [v] ∧
            base64.DecodeString v = some (b, some offset)) ∨
        (r.Method ≠ "GET".toList ∧ r.Method ≠ "POST".toList) →
      ∃ (m : List Nat) (e : HTTPError), httpRequestToMsg env r = some (m, some e)) ∧
    (∀ (isJSON : Bool) (ct : GoString), isDoH r = some (false, isJSON, ct) →
      env.NonDNSHandler = none →
      (ServeHTTP env r).w.status = some 404 ∧ (ServeHTTP env r).dnsCalls = 0 ∧
        (ServeHTTP env r).invalidMsgs = 1) ∧
    (∀ (isJSON : Bool) (ct : GoString) (m : List Nat),
      isDoH r = some (true, isJSON, ct) → httpRequestToMsg env r = some (m, none) →
      r.RemoteAddr ≠ none → env.serveDNS (clientInfoOf env r) m = none →
      (ServeHTTP env r).w.status = some 500 ∧ (ServeHTTP env r).dnsCalls = 1) ∧
    ((ServeHTTP env r).delegated = false → (ServeHTTP env r).w.status = some 200 →
      ∃ (m : List Nat) (req resp : Msg) (buf : List Nat),
        httpRequestToMsg env r = some (m, none) ∧
        env.serveDNS (clientInfoOf env r) m = some (req, resp) ∧
        (env.Pack (env.normalize req resp) = (buf, none) ∨
          env.dnsMsgToJSON (env.normalize req resp) = (buf, none)) ∧
        (∃ more : List Nat, (ServeHTTP env r).w.body = some (buf ++ more)) ∧
        (env.Write buf = none → (ServeHTTP env r).w.body = some buf) ∧
        (ServeHTTP env r).dnsCalls = 1) := by
  refine ⟨?_, ?_, ?_, ?_, ?_⟩
  · intro isJSON ct m e hdoh hmsg
    rw [ServeHTTP_of_isDoH env r isJSON ct hdoh]
    unfold serveDoH
    rw [hmsg]
    exact ⟨rfl, rfl, rfl⟩
  · intro ct hdoh hcase
    rw [httpRequestToMsg_wire env r true ct hdoh]
    rcases hcase with ⟨hm, hq⟩ | ⟨hm, vs, hq, hlen⟩ | ⟨hm, v, b, offset, hq, hdec⟩ | ⟨hg, hp⟩
    · rw [if_pos hm, httpRequestToMsgGet_absent r hq]
      exact ⟨_, _, rfl⟩
    · rw [if_pos hm, httpRequestToMsgGet_repeated r vs hq hlen]
      exact ⟨_, _, rfl⟩
    · rw [if_pos hm, httpRequestToMsgGet_one r v hq, hdec]
      exact ⟨_, _, rfl⟩
    · rw [if_neg hg, if_neg hp]
      exact ⟨_, _, rfl⟩
  · intro isJSON ct hdoh hnil
    unfold ServeHTTP
    rw [hdoh]
    simp only [Bool.false_eq_true, if_false]
    rw [hnil]
    exact ⟨rfl, rfl, rfl⟩
  · intro isJSON ct m hdoh hmsg haddr hserve
    rw [ServeHTTP_of_isDoH env r isJSON ct hdoh]
    cases ha : r.RemoteAddr with
    | none => exact absurd ha haddr
    | some addr =>
      unfold serveDoH
      rw [hmsg]
      simp only [ha]
      rw [hserve]
      exact ⟨rfl, rfl⟩
  · intro hdel hstatus
    cases hdoh : isDoH r with
    | none => simp [ServeHTTP, hdoh] at hstatus
    | some res =>
      obtain ⟨isDNS, isJSON, ct⟩ := res
      cases isDNS with
      | false =>
        cases hn : env.NonDNSHandler with
        | none =>
          simp [ServeHTTP, hdoh, hn, httpError, ResponseWriter.WriteHeader, ResponseWriter.Write,
            StatusNotFound] at hstatus
        | some handler => simp [ServeHTTP, hdoh, hn] at hdel
      | true =>
        rw [ServeHTTP_of_isDoH env r isJSON ct hdoh] at hstatus ⊢
        cases hmsg : httpRequestToMsg env r with
        | none => simp [serveDoH, hmsg] at hstatus
        | some res =>
          obtain ⟨m, e⟩ := res
          cases e with
          | some e =>
            simp [serveDoH, hmsg, httpError, ResponseWriter.WriteHeader, ResponseWriter.Write,
              StatusBadRequest] at hstatus
          | none =>
            cases ha : r.RemoteAddr with
            | none => simp [serveDoH, hmsg, ha] at hstatus
            | some addr =>
              cases hserve : env.serveDNS (clientInfoOf env r) m with
              | none =>
                simp [serveDoH, hmsg, ha, hserve, httpError, ResponseWriter.WriteHeader,
                  ResponseWriter.Write, StatusInternalServerError] at hstatus
              | some rr =>
                obtain ⟨req, resp⟩ := rr
                simp only [serveDoH, hmsg, ha, hserve] at hstatus ⊢
                simp only [writeResponse, hdoh, Bool.not_true, Bool.false_eq_true, if_false]
                  at hstatus ⊢
                by_cases hct : ct = MimeTypeDoH
                · simp only [hct, if_true] at hstatus ⊢
                  cases hp : env.Pack (env.normalize req resp) with
                  | mk buf perr =>
                    cases perr with
                    | some pe =>
                      simp [hp, httpError, ResponseWriter.WriteHeader, ResponseWriter.Write,
                        StatusInternalServerError] at hstatus
                    | none =>
                      refine ⟨m, req, resp, buf, rfl, hserve, Or.inl hp, ?_, ?_, ?_⟩
                      · simp only [hp]
                        cases hw : env.Write buf
                        · exact ⟨[], by simp [ResponseWriter.WriteHeader, ResponseWriter.Write]⟩
                        · exact ⟨bytesOf "Internal error".toList ++ [10], by
                            simp [httpError, ResponseWriter.WriteHeader, ResponseWriter.Write,
                              StatusOK]⟩
                      · intro hw
                        simp only [hp, hw]
                        simp [ResponseWriter.WriteHeader, ResponseWriter.Write]
                      · simp only [hp]
                        cases hw : env.Write buf <;> rfl
                · by_cases hct2 : ct = MimeTypeJSON
                  · have hne : ¬ (MimeTypeJSON = MimeTypeDoH) := by decide
                    simp only [hct2, if_neg hne, if_true] at hstatus ⊢
                    cases hp : env.dnsMsgToJSON (env.normalize req resp) with
                    | mk buf perr =>
                      cases perr with
                      | some pe =>
                        simp [hp, httpError, ResponseWriter.WriteHeader, ResponseWriter.Write,
                        StatusInternalServerError] at hstatus
                      | none =>
                        refine ⟨m, req, resp, buf, rfl, hserve, Or.inr hp, ?_, ?_, ?_⟩
                        · simp only [hp]
                          cases hw : env.Write buf
                          · exact ⟨[], by
                              simp [ResponseWriter.WriteHeader, ResponseWriter.Write]⟩
                          · exact ⟨bytesOf "Internal error".toList ++ [10], by
                              simp [httpError, ResponseWriter.WriteHeader, ResponseWriter.Write,
                                StatusOK]⟩
                        · intro hw
                          simp only [hp, hw]
                          simp [ResponseWriter.WriteHeader, ResponseWriter.Write]
                        · simp only [hp]
                          cases hw : env.Write buf <;> rfl
                  · simp [hct, hct2, httpError, ResponseWriter.WriteHeader, ResponseWriter.Write,
                    StatusInternalServerError] at hstatus

/-- What `writeResponse` has sent on a writer that had sent nothing: no status
code, together with an error, or the status code 200. -/
theorem writeResponse_sent {Msg : Type} (env : HandlerEnv Msg) (req resp : Msg) (r : Request)
    (w : ResponseWriter) (e : Option HTTPError)
    (h : writeResponse env req resp r {} = some (w, e)) :
    (w.status = none ∧ e ≠ none) ∨ w.status = some 200 := by
  unfold writeResponse at h
  cases hdoh : isDoH r with
  | none => rw [hdoh] at h; simp at h
  | some res =>
    obtain ⟨isDNS, isJSON, ct⟩ := res
    rw [hdoh] at h
    cases isDNS with
    | false =>
      simp only [Bool.not_false, if_true, Option.some.injEq, Prod.mk.injEq] at h
      obtain ⟨rfl, rfl⟩ := h
      exact Or.inl ⟨rfl, by simp⟩
    | true =>
      simp only [Bool.not_true, Bool.false_eq_true, if_false] at h
      by_cases hct : ct = MimeTypeDoH
      · simp only [hct, if_true] at h
        cases hp : env.Pack (env.normalize req resp) with
        | mk buf perr =>
          simp only [hp] at h
          cases perr with
          | some pe =>
            simp only [Option.some.injEq, Prod.mk.injEq] at h
            obtain ⟨rfl, rfl⟩ := h
            exact Or.inl ⟨rfl, by simp⟩
          | none =>
            simp only [Option.some.injEq, Prod.mk.injEq] at h
            obtain ⟨rfl, _⟩ := h
            exact Or.inr rfl
      · by_cases hct2 : ct = MimeTypeJSON
        · have hne : ¬ (MimeTypeJSON = MimeTypeDoH) := by decide
          simp only [hct2, if_neg hne, if_true] at h
          cases hp : env.dnsMsgToJSON (env.normalize req resp) with
          | mk buf perr =>
            simp only [hp] at h
            cases perr with
            | some pe =>
              simp only [Option.some.injEq, Prod.mk.injEq] at h
              obtain ⟨rfl, rfl⟩ := h
              exact Or.inl ⟨rfl, by simp⟩
            | none =>
              simp only [Option.some.injEq, Prod.mk.injEq] at h
              obtain ⟨rfl, _⟩ := h
              exact Or.inr rfl
        · simp only [if_neg hct, if_neg hct2, Option.some.injEq, Prod.mk.injEq] at h
          obtain ⟨rfl, rfl⟩ := h
          exact Or.inl ⟨rfl, by simp⟩

/-- The status code that `http.Error` leaves: its own on a writer that had
sent none, and the one sent before otherwise. -/
theorem httpError_status (w : ResponseWriter) (msg : GoString) (code : Nat) :
    (httpError w msg code).status = some (w.status.getD code) := by
  cases hs : w.status with
  | none => simp [httpError, ResponseWriter.WriteHeader, ResponseWriter.Write, hs]
  | some c => simp [httpError, ResponseWriter.WriteHeader, ResponseWriter.Write, hs]

/-- The status codes of `serveDoH`: none when a panic ended the request, and
400, 500 or 200 otherwise; never 404. -/
theorem serveDoH_status {Msg : Type} (env : HandlerEnv Msg) (r : Request) :
    (serveDoH env r).w.status = none ∨ (serveDoH env r).w.status = some 400 ∨
      (serveDoH env r).w.status = some 500 ∨ (serveDoH env r).w.status = some 200 := by
  unfold serveDoH
  cases hmsg : httpRequestToMsg env r with
  | none => exact Or.inl rfl
  | some res =>
    obtain ⟨m, e⟩ := res
    cases e with
    | some err =>
      dsimp only
      exact Or.inr (Or.inl (httpError_status _ _ _))
    | none =>
      dsimp only
      cases ha : r.RemoteAddr with
      | none => exact Or.inl rfl
      | some addr =>
        dsimp only
        cases hserve : env.serveDNS (clientInfoOf env r) m with
        | none =>
          dsimp only
          exact Or.inr (Or.inr (Or.inl (httpError_status _ _ _)))
        | some rr =>
          obtain ⟨req, resp⟩ := rr
          dsimp only
          cases hw : writeResponse env req resp r {} with
          | none => exact Or.inl rfl
          | some res2 =>
            obtain ⟨w, e2⟩ := res2
            rcases writeResponse_sent env req resp r w e2 hw with ⟨h0, hne⟩ | h200
            · cases e2 with
              | none => exact absurd rfl hne
              | some e3 =>
                dsimp only
                refine Or.inr (Or.inr (Or.inl ?_))
                rw [httpError_status, h0]
                rfl
            · cases e2 with
              | none => exact Or.inr (Or.inr (Or.inr h200))
              | some e3 =>
                dsimp only
                refine Or.inr (Or.inr (Or.inr ?_))
                rw [httpError_status, h200]
                rfl

/-- C13, at the failing input: the path `/query` is not a DoH path, and a
server without `NonDNSHandler` never answers a request for it with 404.
`isDoH` accepts the path, whatever the rest of the request is, so `ServeHTTP`
runs `serveDoH`, whose status code is 400, 500 or 200: on the sample server
`GET /query` is answered with 400, `GET /query` with a `dns` value that decodes
with 200 and the packed response, and `POST /query` with an empty body, for
which the sample DNS handler writes nothing, with 500. -/
theorem ServeHTTP_query_never_404 {Msg : Type} (env : HandlerEnv Msg) (r : Request) :
    isDoH { r with URL := { r.URL with Path := "/query".toList } } =
        some (true, false, MimeTypeDoH) ∧
      ServeHTTP { env with NonDNSHandler := none }
          { r with URL := { r.URL with Path := "/query".toList } } =
        serveDoH { env with NonDNSHandler := none }
          { r with URL := { r.URL with Path := "/query".toList } } ∧
      (ServeHTTP { env with NonDNSHandler := none }
          { r with URL := { r.URL with Path := "/query".toList } }).w.status ≠ some 404 ∧
      (ServeHTTP { env with NonDNSHandler := none }
          { r with URL := { r.URL with Path := "/query".toList } }).delegated = false ∧
      sampleEnv.NonDNSHandler.isNone = true ∧
      (ServeHTTP sampleEnv { URL := { Path := "/query".toList } }).w.status = some 400 ∧
      (ServeHTTP sampleEnv
          { URL := { Path := "/query".toList,
                     Query := [("dns".toList,
                       ["AAABAAABAAAAAAAAB2V4YW1wbGUDY29tAAABAAE".toList])] } }).w.status =
        some 200 ∧
      (ServeHTTP sampleEnv
          { URL := { Path := "/query".toList,
                     Query := [("dns".toList,
                       ["AAABAAABAAAAAAAAB2V4YW1wbGUDY29tAAABAAE".toList])] } }).w.body =
        some [0, 0, 129, 128] ∧
      (ServeHTTP sampleEnv
          { URL := { Path := "/query".toList }, Method := "POST".toList }).w.status =
        some 500 := by
  have hdoh : isDoH { r with URL := { r.URL with Path := "/query".toList } } =
      some (true, false, MimeTypeDoH) := by
    have hp : pathParts "/query".toList = some ["query".toList] := by decide
    unfold isDoH
    simp only [hp]
    rfl
  have hserve := ServeHTTP_of_isDoH { env with NonDNSHandler := none }
    { r with URL := { r.URL with Path := "/query".toList } } false MimeTypeDoH hdoh
  refine ⟨hdoh, hserve, ?_, ?_, rfl, by decide, by decide, by decide, by decide⟩
  · rw [hserve]
    rcases serveDoH_status { env with NonDNSHandler := none }
      { r with URL := { r.URL with Path := "/query".toList } } with h | h | h | h <;>
      rw [h] <;> simp
  · rw [hserve]
    unfold serveDoH
    split
    · rfl
    · rfl
    · split
      · rfl
      · split
        · rfl
        · split <;> rfl

/-- The status codes on concrete requests to a server without `NonDNSHandler`:
`GET /dns-query` without a `dns` parameter gives 400 and no call of the DNS
handler, `GET /other` gives 404, and `POST /dns-query` with an empty body, for
which the sample DNS handler writes nothing, gives 500. -/
theorem ServeHTTP_status_sample :
    ((ServeHTTP sampleEnv { URL := { Path := "/dns-query".toList } }).w.status = some 400 ∧
        (ServeHTTP sampleEnv { URL := { Path := "/dns-query".toList } }).dnsCalls = 0 ∧
        (ServeHTTP sampleEnv { URL := { Path := "/dns-query".toList } }).invalidMsgs = 1) ∧
      ((ServeHTTP sampleEnv { URL := { Path := "/other".toList } }).w.status = some 404 ∧
        (ServeHTTP sampleEnv { URL := { Path := "/other".toList } }).dnsCalls = 0 ∧
        (ServeHTTP sampleEnv { URL := { Path := "/other".toList } }).invalidMsgs = 1) ∧
      ((ServeHTTP sampleEnv
          { URL := { Path := "/dns-query".toList }, Method := "POST".toList }).w.status =
          some 500 ∧
        (ServeHTTP sampleEnv
          { URL := { Path := "/dns-query".toList }, Method := "POST".toList }).dnsCalls = 1) :=
  ⟨(ServeHTTP_status sampleEnv { URL := { Path := "/dns-query".toList } }).1
      false MimeTypeDoH [] HTTPError.noDNSParam (by decide) (by decide),
    (ServeHTTP_status sampleEnv { URL := { Path := "/other".toList } }).2.2.1
      false [] (by decide) rfl,
    (ServeHTTP_status sampleEnv
      { URL := { Path := "/dns-query".toList }, Method := "POST".toList }).2.2.2.1
      false MimeTypeDoH [] (by decide) (by decide) (by decide) (by decide)⟩

end dnsserver

/-! ## The encoding `RawURLEncoding`: decoding undoes encoding -/

namespace base64

theorem or_eq_add (n x y : Nat) (hx : 2 ^ n ∣ x) (hy : y < 2 ^ n) : x ||| y = x + y := by
  obtain ⟨k, rfl⟩ := hx
  exact (Nat.mul_add_lt_is_or hy k).symm

theorem and_0x3F (x : Nat) : x &&& 0x3F = x % 64 := Nat.and_pow_two_sub_one_eq_mod x 6

/-- The value that `EncodeToString` makes of three bytes. -/
theorem join3 (a b c : Nat) (hb : b < 256) (hc : c < 256) :
    a <<< 16 ||| b <<< 8 ||| c = a * 65536 + b * 256 + c := by
  rw [Nat.shiftLeft_eq, Nat.shiftLeft_eq]
  rw [or_eq_add 16 (a * 2 ^ 16) (b * 2 ^ 8) (by show 65536 ∣ a * 65536; omega)
    (by show b * 256 < 65536; omega)]
  rw [or_eq_add 8 (a * 2 ^ 16 + b * 2 ^ 8) c (by show 256 ∣ a * 65536 + b * 256; omega)
    (by show c < 256; omega)]

/-- The value that `decodeQuantum` makes of four six-bit values. -/
theorem join4 (s0 s1 s2 s3 : Nat) (h1 : s1 < 64) (h2 : s2 < 64) (h3 : s3 < 64) :
    s0 <<< 18 ||| s1 <<< 12 ||| s2 <<< 6 ||| s3 =
      s0 * 262144 + s1 * 4096 + s2 * 64 + s3 := by
  rw [Nat.shiftLeft_eq, Nat.shiftLeft_eq, Nat.shiftLeft_eq]
  rw [or_eq_add 18 (s0 * 2 ^ 18) (s1 * 2 ^ 12) (by show 262144 ∣ s0 * 262144; omega)
    (by show s1 * 4096 < 262144; omega)]
  rw [or_eq_add 12 (s0 * 2 ^ 18 + s1 * 2 ^ 12) (s2 * 2 ^ 6)
    (by show 4096 ∣ s0 * 262144 + s1 * 4096; omega) (by show s2 * 64 < 4096; omega)]
  rw [or_eq_add 6 (s0 * 2 ^ 18 + s1 * 2 ^ 12 + s2 * 2 ^ 6) s3
    (by show 64 ∣ s0 * 262144 + s1 * 4096 + s2 * 64; omega) (by show s3 < 64; omega)]

/-- Four six-bit values taken from three bytes give the three bytes back. -/
theorem quantumBytes_three (a b c : Nat) (ha : a < 256) (hb : b < 256) (hc : c < 256) :
    quantumBytes
      [(a <<< 16 ||| b <<< 8 ||| c) >>> 18 &&& 0x3F, (a <<< 16 ||| b <<< 8 ||| c) >>> 12 &&& 0x3F,
        (a <<< 16 ||| b <<< 8 ||| c) >>> 6 &&& 0x3F, (a <<< 16 ||| b <<< 8 ||| c) &&& 0x3F] =
      [a, b, c] := by
  simp only [quantumBytes, List.getD_cons_zero, List.getD_cons_succ, List.length_cons,
    List.length_nil, and_0x3F, join3 a b c hb hc, Nat.shiftRight_eq_div_pow]
  rw [join4 _ _ _ _ (Nat.mod_lt _ (by decide)) (Nat.mod_lt _ (by decide))
    (Nat.mod_lt _ (by decide))]
  simp only [Nat.reducePow, Nat.div_one, List.cons.injEq, and_true]
  refine ⟨?_, ?_, ?_⟩ <;> omega

/-- Three six-bit values taken from two bytes give the two bytes back. -/
theorem quantumBytes_two (a b : Nat) (ha : a < 256) (hb : b < 256) :
    quantumBytes
      [(a <<< 16 ||| b <<< 8) >>> 18 &&& 0x3F, (a <<< 16 ||| b <<< 8) >>> 12 &&& 0x3F,
        (a <<< 16 ||| b <<< 8) >>> 6 &&& 0x3F] = [a, b] := by
  have hj : a <<< 16 ||| b <<< 8 = a * 65536 + b * 256 := by
    have := join3 a b 0 hb (by decide)
    simpa using this
  simp only [quantumBytes, List.getD_cons_zero, List.getD_cons_succ, List.length_cons,
    List.length_nil, List.getD_nil, and_0x3F, hj, Nat.shiftRight_eq_div_pow]
  rw [join4 _ _ _ 0 (Nat.mod_lt _ (by decide)) (Nat.mod_lt _ (by decide)) (by decide)]
  simp only [Nat.reducePow, List.cons.injEq, and_true]
  refine ⟨?_, ?_⟩ <;> omega

/-- Two six-bit values taken from one byte give the byte back. -/
theorem quantumBytes_one (a : Nat) (ha : a < 256) :
    quantumBytes [(a <<< 16) >>> 18 &&& 0x3F, (a <<< 16) >>> 12 &&& 0x3F] = [a] := by
  have hj : a <<< 16 = a * 65536 := by rw [Nat.shiftLeft_eq]
  simp only [quantumBytes, List.getD_cons_zero, List.getD_cons_succ, List.length_cons,
    List.length_nil, List.getD_nil, and_0x3F, hj, Nat.shiftRight_eq_div_pow]
  rw [join4 _ _ 0 0 (Nat.mod_lt _ (by decide)) (by decide) (by decide)]
  simp only [Nat.reducePow, List.cons.injEq, and_true]
  omega

end base64

namespace base64

theorem decodeMap_encode (i : Nat) (h : i < 64) : decodeMap (encode i) = i := by
  have key : ∀ j : Fin 64, decodeMap (encode j.val) = j.val := by decide
  exact key ⟨i, h⟩

theorem decodeMap_ne_ff_iff (c : Char) : decodeMap c ≠ 0xff ↔ c ∈ encodeURL := by
  have hlen : encodeURL.length = 64 := by decide
  unfold decodeMap
  constructor
  · intro h
    by_cases hlt : encodeURL.indexOf c < 64
    · exact List.indexOf_lt_length.mp (by rw [hlen]; exact hlt)
    · rw [if_neg hlt] at h
      exact absurd rfl h
  · intro h
    have hlt : encodeURL.indexOf c < 64 := by
      have := List.indexOf_lt_length.mpr h
      rwa [hlen] at this
    rw [if_pos hlt]
    omega

theorem decodeMap_lt (c : Char) (h : decodeMap c ≠ 0xff) : decodeMap c < 64 := by
  unfold decodeMap at h ⊢
  by_cases hlt : encodeURL.indexOf c < 64
  · rw [if_pos hlt]; exact hlt
  · rw [if_neg hlt] at h
    exact absurd rfl h

/-- Reading four bytes of the alphabet: `decodeQuantum` takes them all. -/
theorem decodeQuantum_four (c0 c1 c2 c3 : Char) (tail : GoString) (si : Nat)
    (h0 : decodeMap c0 ≠ 0xff) (h1 : decodeMap c1 ≠ 0xff) (h2 : decodeMap c2 ≠ 0xff)
    (h3 : decodeMap c3 ≠ 0xff) :
    decodeQuantum (c0 :: c1 :: c2 :: c3 :: tail) si [] =
      { rest := tail, nsi := si + 1 + 1 + 1 + 1,
        out := quantumBytes [decodeMap c0, decodeMap c1, decodeMap c2, decodeMap c3],
        err := none } := by
  simp [decodeQuantum, h0, h1, h2, h3]

/-- Reading three bytes of the alphabet at the end of the input. -/
theorem decodeQuantum_three (c0 c1 c2 : Char) (si : Nat)
    (h0 : decodeMap c0 ≠ 0xff) (h1 : decodeMap c1 ≠ 0xff) (h2 : decodeMap c2 ≠ 0xff) :
    decodeQuantum [c0, c1, c2] si [] =
      { rest := [], nsi := si + 1 + 1 + 1,
        out := quantumBytes [decodeMap c0, decodeMap c1, decodeMap c2], err := none } := by
  simp [decodeQuantum, h0, h1, h2]

/-- Reading two bytes of the alphabet at the end of the input. -/
theorem decodeQuantum_two (c0 c1 : Char) (si : Nat)
    (h0 : decodeMap c0 ≠ 0xff) (h1 : decodeMap c1 ≠ 0xff) :
    decodeQuantum [c0, c1] si [] =
      { rest := [], nsi := si + 1 + 1, out := quantumBytes [decodeMap c0, decodeMap c1],
        err := none } := by
  simp [decodeQuantum, h0, h1]

theorem encode_valid (x : Nat) : decodeMap (encode (x &&& 0x3F)) ≠ 0xff ∧
    decodeMap (encode (x &&& 0x3F)) = x &&& 0x3F := by
  have hlt : x &&& 0x3F < 64 := by rw [and_0x3F]; exact Nat.mod_lt _ (by decide)
  rw [decodeMap_encode _ hlt]
  exact ⟨by omega, rfl⟩

/-- Decoding undoes encoding, in the loop of `Decode` with enough fuel. -/
theorem decodeLoop_EncodeToString (b : List Nat) :
    (∀ x ∈ b, x < 256) → ∀ (fuel si : Nat), (EncodeToString b).length ≤ fuel →
      decodeLoop fuel (EncodeToString b) si = some (b, none) := by
  induction b using EncodeToString.induct with
  | case1 a b c rest ih =>
    intro hb fuel si hfuel
    have ha : a < 256 := hb a (by simp)
    have hb2 : b < 256 := hb b (by simp)
    have hc : c < 256 := hb c (by simp)
    have hrest : ∀ x ∈ rest, x < 256 := fun x hx => hb x (by simp [hx])
    simp only [EncodeToString, List.length_cons] at hfuel ⊢
    cases fuel with
    | zero => omega
    | succ fuel =>
      simp only [decodeLoop]
      rw [decodeQuantum_four _ _ _ _ _ _ (encode_valid _).1 (encode_valid _).1
        (encode_valid _).1 (encode_valid _).1]
      simp only [(encode_valid _).2]
      rw [quantumBytes_three a b c ha hb2 hc, ih hrest fuel _ (by omega)]
      rfl
  | case2 a b =>
    intro hb fuel si hfuel
    have ha : a < 256 := hb a (by simp)
    have hb2 : b < 256 := hb b (by simp)
    simp only [EncodeToString, List.length_cons, List.length_nil] at hfuel ⊢
    cases fuel with
    | zero => omega
    | succ fuel =>
      simp only [decodeLoop]
      rw [decodeQuantum_three _ _ _ _ (encode_valid _).1 (encode_valid _).1
        (encode_valid _).1]
      simp only [(encode_valid _).2]
      rw [quantumBytes_two a b ha hb2]
      cases fuel <;> rfl
  | case3 a =>
    intro hb fuel si hfuel
    have ha : a < 256 := hb a (by simp)
    simp only [EncodeToString, List.length_cons, List.length_nil] at hfuel ⊢
    cases fuel with
    | zero => omega
    | succ fuel =>
      simp only [decodeLoop]
      rw [decodeQuantum_two _ _ _ (encode_valid _).1 (encode_valid _).1]
      simp only [(encode_valid _).2]
      rw [quantumBytes_one a ha]
      cases fuel <;> rfl
  | case4 =>
    intro _ fuel si _
    cases fuel <;> rfl

/-- Go `RawURLEncoding.DecodeString` undoes `EncodeToString`. -/
theorem DecodeString_EncodeToString (b : List Nat) (hb : ∀ x ∈ b, x < 256) :
    DecodeString (EncodeToString b) = some (b, none) :=
  decodeLoop_EncodeToString b hb _ 0 (le_refl _)

end base64

/-! ## The encoding `RawURLEncoding`: which strings are decoded -/

namespace base64

theorem significant_cons_of_mem (c : Char) (cs : GoString) (h : c ∈ encodeURL) :
    significant (c :: cs) = c :: significant cs := by
  have h1 : c ≠ '\n' := by rintro rfl; exact absurd h (by decide)
  have h2 : c ≠ '\r' := by rintro rfl; exact absurd h (by decide)
  simp [significant, List.filter_cons, h1, h2]

theorem significant_cons_newline (c : Char) (cs : GoString) (h : c = '\n' ∨ c = '\r') :
    significant (c :: cs) = significant cs := by
  rcases h with rfl | rfl <;> simp [significant, List.filter_cons]

theorem significant_cons_other (c : Char) (cs : GoString) (h : ¬ (c = '\n' ∨ c = '\r')) :
    significant (c :: cs) = c :: significant cs := by
  push_neg at h
  simp [significant, List.filter_cons, h.1, h.2]

theorem decodeQuantum_rest_length (cs : GoString) :
    ∀ (c : Char) (si : Nat) (dbuf : List Nat),
      (decodeQuantum (c :: cs) si dbuf).rest.length ≤ cs.length := by
  induction cs with
  | nil =>
    intro c si dbuf
    simp only [decodeQuantum]
    split
    · split
      · simp
      · split <;> simp
    · split
      · split <;> simp
      · simp
  | cons d ds ih =>
    intro c si dbuf
    rw [decodeQuantum]
    split
    · split
      · simp
      · exact Nat.le_succ_of_le (ih d _ _)
    · split
      · exact Nat.le_succ_of_le (ih d _ _)
      · simp

/-- One round of decoding: it succeeds and leaves a decodable rest exactly when
the bytes it was given, without `\n` and `\r`, are all in the alphabet and
their number, with the values already read, is not 1 modulo 4. -/
theorem decodeQuantum_spec (src : GoString) :
    ∀ (si : Nat) (dbuf : List Nat), dbuf.length ≤ 3 →
      (((decodeQuantum src si dbuf).err = none ∧
          IsRawURL (significant (decodeQuantum src si dbuf).rest)) ↔
        ((∀ c ∈ significant src, c ∈ encodeURL) ∧
          (dbuf.length + (significant src).length) % 4 ≠ 1)) := by
  induction src with
  | nil =>
    intro si dbuf hlen
    have hs : significant [] = [] := rfl
    match dbuf, hlen with
    | [], _ => simp [decodeQuantum, IsRawURL, hs]
    | [_], _ => simp [decodeQuantum, IsRawURL, hs]
    | [_, _], _ => simp [decodeQuantum, IsRawURL, hs]
    | [_, _, _], _ => simp [decodeQuantum, IsRawURL, hs]
    | _ :: _ :: _ :: _ :: _, h => simp at h
  | cons c cs ih =>
    intro si dbuf hlen
    rw [decodeQuantum]
    by_cases hv : decodeMap c ≠ 0xff
    · have hmem := (decodeMap_ne_ff_iff c).mp hv
      rw [if_pos hv, significant_cons_of_mem c cs hmem]
      by_cases h3 : dbuf.length = 3
      · rw [if_pos h3]
        simp only [IsRawURL, true_and, List.mem_cons, forall_eq_or_imp, hmem, List.length_cons,
          h3]
        constructor
        · rintro ⟨h1, h2⟩; exact ⟨h1, by omega⟩
        · rintro ⟨h1, h2⟩; exact ⟨h1, by omega⟩
      · rw [if_neg h3]
        have := ih (si + 1) (dbuf ++ [decodeMap c]) (by simp; omega)
        rw [this]
        simp only [List.length_append, List.length_cons, List.length_nil, List.mem_cons,
          forall_eq_or_imp, hmem, true_and]
        constructor
        · rintro ⟨h1, h2⟩; exact ⟨h1, by omega⟩
        · rintro ⟨h1, h2⟩; exact ⟨h1, by omega⟩
    · rw [if_neg hv]
      by_cases hn : c = '\n' ∨ c = '\r'
      · rw [if_pos hn, significant_cons_newline c cs hn]
        exact ih (si + 1) dbuf hlen
      · rw [if_neg hn, significant_cons_other c cs hn]
        have hnot : c ∉ encodeURL := fun hm => hv ((decodeMap_ne_ff_iff c).mpr hm)
        simp [hnot]

/-- The loop of `Decode` returns, and without error exactly when the input,
without `\n` and `\r`, is unpadded base64url. -/
theorem decodeLoop_spec (fuel : Nat) :
    ∀ (src : GoString) (si : Nat), src.length ≤ fuel →
      ∃ (bs : List Nat) (e : Option Nat), decodeLoop fuel src si = some (bs, e) ∧
        (e = none ↔ IsRawURL (significant src)) := by
  induction fuel with
  | zero =>
    intro src si h
    have : src = [] := List.length_eq_zero.mp (Nat.le_zero.mp h)
    subst this
    exact ⟨[], none, rfl, by simp [IsRawURL, significant]⟩
  | succ n ih =>
    intro src si h
    cases src with
    | nil => exact ⟨[], none, rfl, by simp [IsRawURL, significant]⟩
    | cons c cs =>
      have hspec := decodeQuantum_spec (c :: cs) si [] (by simp)
      have hrest := decodeQuantum_rest_length cs c si []
      simp only [List.length_nil, Nat.zero_add] at hspec
      simp only [decodeLoop]
      cases herr : (decodeQuantum (c :: cs) si []).err with
      | some offset =>
        refine ⟨_, _, rfl, ?_⟩
        constructor
        · intro hh; simp at hh
        · intro hraw
          have := hspec.mpr hraw
          rw [herr] at this
          simp at this
      | none =>
        obtain ⟨bs, e, hdec, he⟩ := ih (decodeQuantum (c :: cs) si []).rest
          (decodeQuantum (c :: cs) si []).nsi (by simp at h; omega)
        refine ⟨(decodeQuantum (c :: cs) si []).out ++ bs, e, by rw [hdec], ?_⟩
        rw [he]
        constructor
        · intro hraw; exact hspec.mp ⟨herr, hraw⟩
        · intro hraw; exact (hspec.mpr hraw).2

/-- Go `RawURLEncoding.DecodeString` returns for every string, and without
error exactly when the string, without `\n` and `\r`, is unpadded
base64url. -/
theorem DecodeString_spec (s : GoString) :
    ∃ (bs : List Nat) (e : Option Nat), DecodeString s = some (bs, e) ∧
      (e = none ↔ IsRawURL (significant s)) :=
  decodeLoop_spec s.length s 0 (le_refl _)

/-- One round of decoding that reads a whole group: with the values already
read, the next bytes of the alphabet make four; they are joined and the rest of
the input is left. -/
theorem decodeQuantum_group (src : GoString) :
    ∀ (si : Nat) (dbuf : List Nat) (gs tail : GoString), dbuf.length ≤ 3 →
      dbuf.length + gs.length = 4 → (∀ c ∈ gs, c ∈ encodeURL) →
      significant src = gs ++ tail →
      (decodeQuantum src si dbuf).err = none ∧
        (decodeQuantum src si dbuf).out = quantumBytes (dbuf ++ gs.map decodeMap) ∧
        significant (decodeQuantum src si dbuf).rest = tail := by
  induction src with
  | nil =>
    intro si dbuf gs tail hd hlen _ hsig
    have hs : significant [] = [] := rfl
    rw [hs] at hsig
    have hgs : gs = [] := (List.append_eq_nil.mp hsig.symm).1
    subst hgs
    simp at hlen
    omega
  | cons c cs ih =>
    intro si dbuf gs tail hd hlen hgs hsig
    cases gs with
    | nil => simp at hlen; omega
    | cons g gs =>
      rw [decodeQuantum]
      by_cases hv : decodeMap c ≠ 0xff
      · have hmem := (decodeMap_ne_ff_iff c).mp hv
        rw [if_pos hv]
        rw [significant_cons_of_mem c cs hmem] at hsig
        have hcg : c = g := (List.cons.inj hsig).1
        have hrest : significant cs = gs ++ tail := (List.cons.inj hsig).2
        subst hcg
        by_cases h3 : dbuf.length = 3
        · rw [if_pos h3]
          have hnil : gs = [] := by
            apply List.length_eq_zero.mp
            simp only [List.length_cons] at hlen
            omega
          subst hnil
          exact ⟨rfl, rfl, hrest⟩
        · rw [if_neg h3]
          have := ih (si + 1) (dbuf ++ [decodeMap c]) gs tail
            (by simp only [List.length_append, List.length_cons, List.length_nil]; omega)
            (by simp only [List.length_append, List.length_cons, List.length_nil] at hlen ⊢
                omega)
            (fun x hx => hgs x (List.mem_cons_of_mem _ hx)) hrest
          simpa [List.append_assoc] using this
      · rw [if_neg hv]
        by_cases hn : c = '\n' ∨ c = '\r'
        · rw [if_pos hn]
          rw [significant_cons_newline c cs hn] at hsig
          exact ih (si + 1) dbuf (g :: gs) tail hd hlen hgs hsig
        · rw [significant_cons_other c cs hn] at hsig
          have hcg : c = g := (List.cons.inj hsig).1
          exact absurd ((decodeMap_ne_ff_iff c).mpr (hcg ▸ hgs g (List.mem_cons_self _ _))) hv

/-- One round of decoding that fails: when, with the values already read, a
byte outside the alphabet comes before a fourth value, or the input ends after
one value, the round returns an error and no bytes. -/
theorem decodeQuantum_corrupt (src : GoString) :
    ∀ (si : Nat) (dbuf : List Nat),
      ((∃ (gs : GoString) (c : Char) (tail : GoString),
          significant src = gs ++ c :: tail ∧ (∀ x ∈ gs, x ∈ encodeURL) ∧
            dbuf.length + gs.length ≤ 3 ∧ c ∉ encodeURL) ∨
        ((∀ x ∈ significant src, x ∈ encodeURL) ∧
          dbuf.length + (significant src).length = 1)) →
      (decodeQuantum src si dbuf).err ≠ none ∧ (decodeQuantum src si dbuf).out = [] := by
  induction src with
  | nil =>
    intro si dbuf h
    have hs : significant [] = [] := rfl
    rcases h with ⟨gs, c, tail, hsig, _, _, _⟩ | ⟨_, hlen⟩
    · rw [hs] at hsig
      exact absurd hsig.symm (by simp)
    · rw [hs] at hlen
      simp only [List.length_nil, Nat.add_zero] at hlen
      match dbuf, hlen with
      | [_], _ => simp [decodeQuantum]
  | cons c cs ih =>
    intro si dbuf h
    rw [decodeQuantum]
    by_cases hv : decodeMap c ≠ 0xff
    · have hmem := (decodeMap_ne_ff_iff c).mp hv
      rw [if_pos hv]
      rw [significant_cons_of_mem c cs hmem] at h
      rcases h with ⟨gs, c2, tail, hsig, hgs, hlen, hc2⟩ | ⟨hall, hlen⟩
      · cases gs with
        | nil =>
          have : c = c2 := (List.cons.inj hsig).1
          exact absurd (this ▸ hmem) hc2
        | cons g gs =>
          have hrest : significant cs = gs ++ c2 :: tail := (List.cons.inj hsig).2
          simp only [List.length_cons] at hlen
          rw [if_neg (by omega)]
          exact ih (si + 1) (dbuf ++ [decodeMap c]) (Or.inl ⟨gs, c2, tail, hrest,
            fun x hx => hgs x (List.mem_cons_of_mem _ hx),
            by simp only [List.length_append, List.length_cons, List.length_nil]; omega, hc2⟩)
      · simp only [List.length_cons] at hlen
        rw [if_neg (by omega)]
        exact ih (si + 1) (dbuf ++ [decodeMap c]) (Or.inr
          ⟨fun x hx => hall x (List.mem_cons_of_mem _ hx),
            by simp only [List.length_append, List.length_cons, List.length_nil]; omega⟩)
    · rw [if_neg hv]
      by_cases hn : c = '\n' ∨ c = '\r'
      · rw [if_pos hn]
        rw [significant_cons_newline c cs hn] at h
        exact ih (si + 1) dbuf h
      · rw [if_neg hn]
        exact ⟨by simp, rfl⟩

/-- The group of four bytes that `EncodeToString` makes of three bytes is in
the alphabet and is decoded to the three bytes. -/
theorem EncodeToString_cons3 (a b c : Nat) (rest : List Nat) (ha : a < 256) (hb : b < 256)
    (hc : c < 256) :
    ∃ gs : GoString, EncodeToString (a :: b :: c :: rest) = gs ++ EncodeToString rest ∧
      gs.length = 4 ∧ (∀ x ∈ gs, x ∈ encodeURL) ∧
      quantumBytes (gs.map decodeMap) = [a, b, c] := by
  refine ⟨[encode ((a <<< 16 ||| b <<< 8 ||| c) >>> 18 &&& 0x3F),
    encode ((a <<< 16 ||| b <<< 8 ||| c) >>> 12 &&& 0x3F),
    encode ((a <<< 16 ||| b <<< 8 ||| c) >>> 6 &&& 0x3F),
    encode ((a <<< 16 ||| b <<< 8 ||| c) &&& 0x3F)], rfl, rfl, ?_, ?_⟩
  · intro x hx
    simp only [List.mem_cons, List.mem_singleton, List.not_mem_nil, or_false] at hx
    rcases hx with rfl | rfl | rfl | rfl <;>
      exact (decodeMap_ne_ff_iff _).mp (encode_valid _).1
  · simp only [List.map_cons, List.map_nil, (encode_valid _).2]
    exact quantumBytes_three a b c ha hb hc

/-- The loop of `Decode` on an input that is the encoding of whole groups of
three bytes followed by a group that cannot be decoded, `\n` and `\r` left
out: the error comes with the bytes of the whole groups. -/
theorem decodeLoop_corrupt (fuel : Nat) :
    ∀ (src : GoString) (si : Nat) (b0 : List Nat) (p : GoString), src.length ≤ fuel →
      (∀ x ∈ b0, x < 256) → b0.length % 3 = 0 →
      significant src = EncodeToString b0 ++ p → CorruptGroup p →
      ∃ offset : Nat, decodeLoop fuel src si = some (b0, some offset) := by
  have hnil : ¬ CorruptGroup [] := by
    rintro (⟨x, _, h⟩ | ⟨gs, c, tail, h, _⟩)
    · exact absurd h (by simp)
    · exact absurd h.symm (by simp)
  have hsrc : ∀ (b0 : List Nat) (p : GoString),
      significant [] = EncodeToString b0 ++ p → CorruptGroup p → False := by
    intro b0 p hsig hp
    have hs : significant [] = [] := rfl
    rw [hs] at hsig
    have : p = [] := (List.append_eq_nil.mp hsig.symm).2
    subst this
    exact hnil hp
  induction fuel with
  | zero =>
    intro src si b0 p h _ _ hsig hp
    have : src = [] := List.length_eq_zero.mp (Nat.le_zero.mp h)
    subst this
    exact absurd hp (fun hp => hsrc b0 p hsig hp)
  | succ n ih =>
    intro src si b0 p h hb hlen hsig hp
    cases src with
    | nil => exact absurd hp (fun hp => hsrc b0 p hsig hp)
    | cons c cs =>
      have hrest := decodeQuantum_rest_length cs c si []
      simp only [decodeLoop]
      match b0, hb, hlen, hsig with
      | [], _, _, hsig =>
        have hsig2 : significant (c :: cs) = p := by simpa [EncodeToString] using hsig
        have hq := decodeQuantum_corrupt (c :: cs) si [] (by
          rcases hp with ⟨x, hx, rfl⟩ | ⟨gs, c2, tail, rfl, hgs, hl, hc2⟩
          · right
            rw [hsig2]
            exact ⟨by intro y hy; simp at hy; subst hy; exact hx, rfl⟩
          · left
            exact ⟨gs, c2, tail, hsig2, hgs, by simpa using hl, hc2⟩)
        cases herr : (decodeQuantum (c :: cs) si []).err with
        | none => exact absurd herr hq.1
        | some offset => exact ⟨offset, by rw [hq.2]⟩
      | [_], _, hlen, _ => simp at hlen
      | [_, _], _, hlen, _ => simp at hlen
      | a :: b :: c3 :: rest0, hb, hlen, hsig =>
        obtain ⟨gs, henc, hgl, hgs, hbytes⟩ := EncodeToString_cons3 a b c3 rest0
          (hb a (by simp)) (hb b (by simp)) (hb c3 (by simp))
        rw [henc, List.append_assoc] at hsig
        obtain ⟨h1, h2, h3⟩ := decodeQuantum_group (c :: cs) si [] gs
          (EncodeToString rest0 ++ p) (by simp) (by simpa using hgl) hgs hsig
        rw [h1]
        simp only
        obtain ⟨offset, hdec⟩ := ih (decodeQuantum (c :: cs) si []).rest
          (decodeQuantum (c :: cs) si []).nsi rest0 p
          (by simp only [List.length_cons] at h; omega)
          (fun x hx => hb x (by simp [hx]))
          (by simp only [List.length_cons] at hlen; omega) h3 hp
        refine ⟨offset, ?_⟩
        rw [hdec, h2]
        simp only [List.nil_append, hbytes]
        rfl

/-- Go `RawURLEncoding.DecodeString` on a string that, without `\n` and `\r`,
is the encoding of whole groups of three bytes followed by a group that cannot
be decoded: it returns an error together with the bytes of the whole groups. -/
theorem DecodeString_corrupt (s : GoString) (b0 : List Nat) (p : GoString)
    (hb : ∀ x ∈ b0, x < 256) (hlen : b0.length % 3 = 0)
    (hsig : significant s = EncodeToString b0 ++ p) (hp : CorruptGroup p) :
    ∃ offset : Nat, DecodeString s = some (b0, some offset) :=
  decodeLoop_corrupt s.length s 0 b0 p (le_refl _) hb hlen hsig hp

theorem encode_decodeMap (c : Char) (h : c ∈ encodeURL) : encode (decodeMap c) = c := by
  have key : ∀ x ∈ encodeURL, encode (decodeMap x) = x := by decide
  exact key c h

/-- Every group of four bytes of the alphabet is the encoding of three
bytes. -/
theorem EncodeToString_surj4 (c0 c1 c2 c3 : Char) (rest : List Nat) (h0 : c0 ∈ encodeURL)
    (h1 : c1 ∈ encodeURL) (h2 : c2 ∈ encodeURL) (h3 : c3 ∈ encodeURL) :
    ∃ a b c : Nat, a < 256 ∧ b < 256 ∧ c < 256 ∧
      EncodeToString (a :: b :: c :: rest) = c0 :: c1 :: c2 :: c3 :: EncodeToString rest := by
  have l0 := decodeMap_lt c0 ((decodeMap_ne_ff_iff c0).mpr h0)
  have l1 := decodeMap_lt c1 ((decodeMap_ne_ff_iff c1).mpr h1)
  have l2 := decodeMap_lt c2 ((decodeMap_ne_ff_iff c2).mpr h2)
  have l3 := decodeMap_lt c3 ((decodeMap_ne_ff_iff c3).mpr h3)
  have ha : decodeMap c0 * 4 + decodeMap c1 / 16 < 256 := by omega
  have hb : decodeMap c1 % 16 * 16 + decodeMap c2 / 4 < 256 := by omega
  have hc : decodeMap c2 % 4 * 64 + decodeMap c3 < 256 := by omega
  refine ⟨decodeMap c0 * 4 + decodeMap c1 / 16, decodeMap c1 % 16 * 16 + decodeMap c2 / 4,
    decodeMap c2 % 4 * 64 + decodeMap c3, ha, hb, hc, ?_⟩
  simp only [EncodeToString, join3 _ _ _ hb hc, and_0x3F, Nat.shiftRight_eq_div_pow]
  have e0 : ((decodeMap c0 * 4 + decodeMap c1 / 16) * 65536 +
      (decodeMap c1 % 16 * 16 + decodeMap c2 / 4) * 256 +
      (decodeMap c2 % 4 * 64 + decodeMap c3)) / 2 ^ 18 % 64 = decodeMap c0 := by
    simp only [Nat.reducePow]; omega
  have e1 : ((decodeMap c0 * 4 + decodeMap c1 / 16) * 65536 +
      (decodeMap c1 % 16 * 16 + decodeMap c2 / 4) * 256 +
      (decodeMap c2 % 4 * 64 + decodeMap c3)) / 2 ^ 12 % 64 = decodeMap c1 := by
    simp only [Nat.reducePow]; omega
  have e2 : ((decodeMap c0 * 4 + decodeMap c1 / 16) * 65536 +
      (decodeMap c1 % 16 * 16 + decodeMap c2 / 4) * 256 +
      (decodeMap c2 % 4 * 64 + decodeMap c3)) / 2 ^ 6 % 64 = decodeMap c2 := by
    simp only [Nat.reducePow]; omega
  have e3 : ((decodeMap c0 * 4 + decodeMap c1 / 16) * 65536 +
      (decodeMap c1 % 16 * 16 + decodeMap c2 / 4) * 256 +
      (decodeMap c2 % 4 * 64 + decodeMap c3)) % 64 = decodeMap c3 := by
    omega
  rw [e0, e1, e2, e3, encode_decodeMap c0 h0, encode_decodeMap c1 h1, encode_decodeMap c2 h2,
    encode_decodeMap c3 h3]

/-- A string of at most three bytes that is not unpadded base64url starts with
a group that cannot be decoded, and so does every string with a byte outside
the alphabet among its first four. -/
theorem corruptGroup_of_bad (gs : GoString) (c : Char) (tail : GoString)
    (hgs : ∀ x ∈ gs, x ∈ encodeURL) (hlen : gs.length ≤ 3) (hc : c ∉ encodeURL) :
    CorruptGroup (gs ++ c :: tail) :=
  Or.inr ⟨gs, c, tail, rfl, hgs, hlen, hc⟩

/-- A string that is not unpadded base64url is the encoding of whole groups of
three bytes followed by a group that cannot be decoded. -/
theorem corrupt_decomposition (n : Nat) :
    ∀ s : GoString, s.length ≤ n → ¬ IsRawURL s →
      ∃ (b0 : List Nat) (p : GoString), (∀ x ∈ b0, x < 256) ∧ b0.length % 3 = 0 ∧
        s = EncodeToString b0 ++ p ∧ CorruptGroup p := by
  induction n with
  | zero =>
    intro s h hraw
    have : s = [] := List.length_eq_zero.mp (Nat.le_zero.mp h)
    subst this
    exact absurd (show IsRawURL [] from ⟨by simp, by simp⟩) hraw
  | succ n ih =>
    intro s h hraw
    have hstart : ∀ p : GoString, CorruptGroup p →
        ∃ (b0 : List Nat) (q : GoString), (∀ x ∈ b0, x < 256) ∧ b0.length % 3 = 0 ∧
          p = EncodeToString b0 ++ q ∧ CorruptGroup q :=
      fun p hp => ⟨[], p, by simp, rfl, rfl, hp⟩
    match s, h, hraw with
    | [], _, hraw => exact absurd (show IsRawURL [] from ⟨by simp, by simp⟩) hraw
    | c0 :: t0, h, hraw =>
      by_cases h0 : c0 ∈ encodeURL
      · match t0, h, hraw with
        | [], _, _ => exact hstart _ (Or.inl ⟨c0, h0, rfl⟩)
        | c1 :: t1, h, hraw =>
          by_cases h1 : c1 ∈ encodeURL
          · match t1, h, hraw with
            | [], _, hraw =>
              exact absurd (show IsRawURL [c0, c1] from
                ⟨by intro x hx; simp at hx; rcases hx with rfl | rfl <;> assumption,
                  by simp⟩) hraw
            | c2 :: t2, h, hraw =>
              by_cases h2 : c2 ∈ encodeURL
              · match t2, h, hraw with
                | [], _, hraw =>
                  exact absurd (show IsRawURL [c0, c1, c2] from
                    ⟨by intro x hx; simp at hx; rcases hx with rfl | rfl | rfl <;> assumption,
                      by simp⟩) hraw
                | c3 :: t3, h, hraw =>
                  by_cases h3 : c3 ∈ encodeURL
                  · have hraw3 : ¬ IsRawURL t3 := by
                      intro ht
                      apply hraw
                      refine ⟨?_, ?_⟩
                      · intro x hx
                        simp only [List.mem_cons] at hx
                        rcases hx with rfl | rfl | rfl | rfl | hx
                        · exact h0
                        · exact h1
                        · exact h2
                        · exact h3
                        · exact ht.1 x hx
                      · have := ht.2
                        simp only [List.length_cons]
                        omega
                    obtain ⟨b0, p, hb, hl, hs, hp⟩ := ih t3
                      (by simp only [List.length_cons] at h; omega) hraw3
                    obtain ⟨a, b, c, ha, hb2, hc, henc⟩ :=
                      EncodeToString_surj4 c0 c1 c2 c3 b0 h0 h1 h2 h3
                    refine ⟨a :: b :: c :: b0, p, ?_, ?_, ?_, hp⟩
                    · intro x hx
                      simp only [List.mem_cons] at hx
                      rcases hx with rfl | rfl | rfl | hx
                      · exact ha
                      · exact hb2
                      · exact hc
                      · exact hb x hx
                    · simp only [List.length_cons]; omega
                    · rw [henc, hs]; rfl
                  · exact hstart _ (corruptGroup_of_bad [c0, c1, c2] c3 t3
                      (by intro x hx; simp at hx; rcases hx with rfl | rfl | rfl <;> assumption)
                      (by simp) h3)
              · exact hstart _ (corruptGroup_of_bad [c0, c1] c2 t2
                  (by intro x hx; simp at hx; rcases hx with rfl | rfl <;> assumption)
                  (by simp) h2)
          · exact hstart _ (corruptGroup_of_bad [c0] c1 t1
              (by intro x hx; simp at hx; subst hx; exact h0) (by simp) h1)
      · exact hstart _ (corruptGroup_of_bad [] c0 t0 (by simp) (by simp) h0)

theorem DecodeString_isSome (s : GoString) : (DecodeString s).isSome = true := by
  obtain ⟨bs, e, h, _⟩ := DecodeString_spec s
  rw [h]; rfl

end base64

/-! ## The `dns` parameter of a GET request -/

namespace dnsserver

/-- C12, as stated, fails in two ways.  The value `AAAB` followed by a line
feed is not unpadded base64url, and `httpRequestToMsgGet` returns three bytes
for it and no error, since the decoder skips `\n` and `\r`.  And for the padded
value of the spec's query it returns an error together with a message, the 27
bytes decoded before the padding. -/
theorem httpRequestToMsgGet_not_as_stated :
    (¬ base64.IsRawURL "AAAB\n".toList ∧
      httpRequestToMsgGet
          { URL := { Path := "/dns-query".toList,
                     Query := [("dns".toList, ["AAAB\n".toList])] } } =
        some ([0, 0, 1], none)) ∧
    (¬ base64.IsRawURL "AAABAAABAAAAAAAAB2V4YW1wbGUDY29tAAABAAE=".toList ∧
      httpRequestToMsgGet
          { URL := { Path := "/dns-query".toList,
                     Query := [("dns".toList,
                       ["AAABAAABAAAAAAAAB2V4YW1wbGUDY29tAAABAAE=".toList])] } } =
        some ([0, 0, 1, 0, 0, 1, 0, 0, 0, 0, 0, 0, 7, 101, 120, 97, 109, 112, 108, 101, 3, 99,
          111, 109, 0, 0, 1], some (HTTPError.corruptInput 39))) := by
  refine ⟨⟨?_, by decide⟩, ⟨?_, by decide⟩⟩
  · unfold base64.IsRawURL
    decide
  · unfold base64.IsRawURL
    decide

/-- C12, amended: for every byte string `b`, `httpRequestToMsgGet` on a request
whose query has exactly one `dns` value, the unpadded base64url encoding of
`b`, returns `b` and no error.  It returns an error and no message when the
`dns` parameter is absent or has not exactly one value.  With exactly one
value it returns, and the error is nil exactly when the value without its `\n`
and `\r` bytes is unpadded base64url: every byte in the alphabet, so no
padding, and a length that is not 1 modulo 4.  When it is not, the value
without `\n` and `\r` is the encoding of a byte string `b0` of whole groups of
three bytes followed by a group that cannot be decoded, and for every such
`b0` the result is a `CorruptInputError` together with `b0`, the bytes decoded
before the error. -/
theorem httpRequestToMsgGet_spec (r : Request) :
    (∀ b : List Nat, (∀ x ∈ b, x < 256) →
      r.URL.Query.lookup "dns".toList = some [base64.EncodeToString b] →
      httpRequestToMsgGet r = some (b, none)) ∧
    (r.URL.Query.lookup "dns".toList = none →
      httpRequestToMsgGet r = some ([], some HTTPError.noDNSParam)) ∧
    (∀ vs : List GoString, r.URL.Query.lookup "dns".toList = some vs → vs.length ≠ 1 →
      httpRequestToMsgGet r = some ([], some HTTPError.multipleDNSValues)) ∧
    (∀ v : GoString, r.URL.Query.lookup "dns".toList = some [v] →
      ∃ (b : List Nat) (e : Option HTTPError), httpRequestToMsgGet r = some (b, e) ∧
        (e = none ↔ base64.IsRawURL (base64.significant v))) ∧
    (∀ (v : GoString) (b0 : List Nat) (p : GoString),
      r.URL.Query.lookup "dns".toList = some [v] → (∀ x ∈ b0, x < 256) →
      b0.length % 3 = 0 → base64.significant v = base64.EncodeToString b0 ++ p →
      base64.CorruptGroup p →
      ∃ offset : Nat, httpRequestToMsgGet r = some (b0, some (HTTPError.corruptInput offset))) ∧
    (∀ v : GoString, r.URL.Query.lookup "dns".toList = some [v] →
      ¬ base64.IsRawURL (base64.significant v) →
      ∃ (b0 : List Nat) (p : GoString) (offset : Nat),
        (∀ x ∈ b0, x < 256) ∧ b0.length % 3 = 0 ∧
        base64.significant v = base64.EncodeToString b0 ++ p ∧ base64.CorruptGroup p ∧
        httpRequestToMsgGet r = some (b0, some (HTTPError.corruptInput offset))) := by
  have herr : ∀ (v : GoString) (b0 : List Nat) (p : GoString),
      r.URL.Query.lookup "dns".toList = some [v] → (∀ x ∈ b0, x < 256) →
      b0.length % 3 = 0 → base64.significant v = base64.EncodeToString b0 ++ p →
      base64.CorruptGroup p →
      ∃ offset : Nat,
        httpRequestToMsgGet r = some (b0, some (HTTPError.corruptInput offset)) := by
    intro v b0 p hq hb hlen hsig hp
    obtain ⟨offset, hdec⟩ := base64.DecodeString_corrupt v b0 p hb hlen hsig hp
    exact ⟨offset, by rw [httpRequestToMsgGet_one r v hq, hdec]; rfl⟩
  refine ⟨?_, httpRequestToMsgGet_absent r, httpRequestToMsgGet_repeated r, ?_, herr, ?_⟩
  · intro b hb hq
    rw [httpRequestToMsgGet_one r _ hq, base64.DecodeString_EncodeToString b hb]
    rfl
  · intro v hq
    obtain ⟨bs, e, hdec, he⟩ := base64.DecodeString_spec v
    refine ⟨bs, e.map HTTPError.corruptInput, ?_, ?_⟩
    · rw [httpRequestToMsgGet_one r v hq, hdec]
    · rw [← he]
      cases e <;> simp
  · intro v hq hraw
    obtain ⟨b0, p, hb, hlen, hsig, hp⟩ :=
      base64.corrupt_decomposition (base64.significant v).length (base64.significant v)
        (le_refl _) hraw
    obtain ⟨offset, hres⟩ := herr v b0 p hq hb hlen hsig hp
    exact ⟨b0, p, offset, hb, hlen, hsig, hp, hres⟩

/-- C12, amended, on the spec's query: the value
`AAABAAABAAAAAAAAB2V4YW1wbGUDY29tAAABAAE` gives the 29 bytes of the query for
`example.com`, type A; and the padded value `AAAB=` gives an error together
with the three bytes decoded before the padding. -/
theorem httpRequestToMsgGet_spec_witness :
    httpRequestToMsgGet
        { URL := { Path := "/dns-query/abc123".toList,
                   Query := [("dns".toList,
                     ["AAABAAABAAAAAAAAB2V4YW1wbGUDY29tAAABAAE".toList])] } } =
      some ([0, 0, 1, 0, 0, 1, 0, 0, 0, 0, 0, 0, 7, 101, 120, 97, 109, 112, 108, 101, 3, 99,
        111, 109, 0, 0, 1, 0, 1], none) ∧
    ∃ offset : Nat,
      httpRequestToMsgGet
          { URL := { Path := "/dns-query".toList,
                     Query := [("dns".toList, ["AAAB=".toList])] } } =
        some ([0, 0, 1], some (HTTPError.corruptInput offset)) :=
  ⟨(httpRequestToMsgGet_spec
      { URL := { Path := "/dns-query/abc123".toList,
                 Query := [("dns".toList,
                   ["AAABAAABAAAAAAAAB2V4YW1wbGUDY29tAAABAAE".toList])] } }).1
      [0, 0, 1, 0, 0, 1, 0, 0, 0, 0, 0, 0, 7, 101, 120, 97, 109, 112, 108, 101, 3, 99,
        111, 109, 0, 0, 1, 0, 1]
      (by decide) (by decide),
    (httpRequestToMsgGet_spec
      { URL := { Path := "/dns-query".toList,
                 Query := [("dns".toList, ["AAAB=".toList])] } }).2.2.2.2.1
      "AAAB=".toList [0, 0, 1] "=".toList (by decide) (by decide) (by decide) (by decide)
      (Or.inr ⟨[], '=', [], rfl, by simp, by simp, by decide⟩)⟩

end dnsserver

/-! ## The value that the cache middleware stores -/

namespace ecscache

open agdnet

/-- The message given to `m.set` is the response as `rmHopToHopData` left it,
whatever the other operations do. -/
theorem writeUpstreamResponse_stored_resp {Msg : Type} (ops : Ops Msg) (req resp : Msg)
    (ri : agd.RequestInfo) (locSubnet : netip.Prefix) (ecsFam : AddrFamily) (reqDO : Bool) :
    ∀ c ∈ (writeUpstreamResponse ops req resp ri locSubnet ecsFam reqDO).1.stored,
      c.resp = ops.rmHopToHopData resp ri.QType reqDO := by
  intro c hc
  unfold writeUpstreamResponse at hc
  split at hc
  · simp at hc
  · simp only at hc
    split at hc
    · split at hc
      · simp at hc
        rw [hc]
      · split at hc <;> simp at hc <;> rw [hc]
    · split at hc <;> simp at hc <;> rw [hc]

/-- What is written to the client is written with the request, and it is the
stored message after `setRespAD`, and after `setECS` if that was applied. -/
theorem writeUpstreamResponse_written_resp {Msg : Type} (ops : Ops Msg) (req resp : Msg)
    (ri : agd.RequestInfo) (locSubnet : netip.Prefix) (ecsFam : AddrFamily) (reqDO : Bool) :
    ∀ w ∈ (writeUpstreamResponse ops req resp ri locSubnet ecsFam reqDO).1.written,
      w.1 = req ∧
      (w.2 = ops.setRespAD (ops.rmHopToHopData resp ri.QType reqDO)
          (ops.AuthenticatedData req) reqDO ∨
        ∃ (e : agd.ECS) (fam : AddrFamily),
          w.2 = (ops.setECS (ops.setRespAD (ops.rmHopToHopData resp ri.QType reqDO)
            (ops.AuthenticatedData req) reqDO) e fam true).1) := by
  intro w hw
  unfold writeUpstreamResponse at hw
  split at hw
  · simp at hw
  · simp only at hw
    split at hw
    · rename_i e _ _
      split at hw
      · simp at hw
      · rename_i resp1 hset
        split at hw <;> simp at hw <;> rw [hw] <;>
          exact ⟨rfl, Or.inr ⟨e, _, by rw [hset]⟩⟩
    · split at hw <;> simp at hw <;> rw [hw] <;> exact ⟨rfl, Or.inl rfl⟩

theorem rmHopToHopData_clean (resp : dns.Msg) (qt : Nat) (reqDO : Bool) :
    (rmHopToHopData resp qt reqDO).hasOPT = false ∧
      (rmHopToHopData resp qt reqDO).AuthenticatedData = false := by
  refine ⟨?_, rfl⟩
  simp [dns.Msg.hasOPT, rmHopToHopData, List.any_eq_false]

/-- C21: in `writeUpstreamResponse` the message handed to the cache is the
upstream response after the removal of its hop-to-hop data and before the AD
bit and the ECS option of the client are applied to the outbound copy, which is
what is written.  So, `rmHopToHopData` dropping the OPT records and clearing the
AD bit, the stored value contains no OPT record and has the AD bit clear. -/
theorem writeUpstreamResponse_cached_value (ops : Ops dns.Msg)
    (hrm : ops.rmHopToHopData = rmHopToHopData) (req resp : dns.Msg)
    (ri : agd.RequestInfo) (locSubnet : netip.Prefix) (ecsFam : AddrFamily) (reqDO : Bool) :
    (∀ c ∈ (writeUpstreamResponse ops req resp ri locSubnet ecsFam reqDO).1.stored,
      c.resp = rmHopToHopData resp ri.QType reqDO ∧ c.resp.hasOPT = false ∧
        c.resp.AuthenticatedData = false) ∧
    (∀ w ∈ (writeUpstreamResponse ops req resp ri locSubnet ecsFam reqDO).1.written,
      w.1 = req ∧
      (w.2 = ops.setRespAD (rmHopToHopData resp ri.QType reqDO)
          (ops.AuthenticatedData req) reqDO ∨
        ∃ (e : agd.ECS) (fam : AddrFamily),
          w.2 = (ops.setECS (ops.setRespAD (rmHopToHopData resp ri.QType reqDO)
            (ops.AuthenticatedData req) reqDO) e fam true).1)) ∧
    (∀ (subnet : netip.Prefix) (scope : Nat), ops.ECSFromMsg resp = (subnet, scope, none) →
      (writeUpstreamResponse ops req resp ri locSubnet ecsFam reqDO).1.stored.length = 1) := by
  refine ⟨?_, ?_, ?_⟩
  · intro c hc
    have h := writeUpstreamResponse_stored_resp ops req resp ri locSubnet ecsFam reqDO c hc
    rw [hrm] at h
    rw [h]
    exact ⟨rfl, rmHopToHopData_clean resp ri.QType reqDO⟩
  · intro w hw
    have h := writeUpstreamResponse_written_resp ops req resp ri locSubnet ecsFam reqDO w hw
    rw [hrm] at h
    exact h
  · intro subnet scope hecs
    unfold writeUpstreamResponse
    rw [hecs]
    simp only
    split
    · split
      · rfl
      · split <;> rfl
    · split <;> rfl

/-- C21, on a concrete upstream response with the AD bit and an OPT record,
for a request with the AD bit and an ECS option: the stored value has neither,
and the outbound copy has both again. -/
theorem writeUpstreamResponse_cached_value_witness :
    (writeUpstreamResponse sampleMsgOps sampleReq sampleResp sampleRequestInfo
        { ip := { addr := 167772160, z := 1 }, bits := 8 } AddrFamily.AddrFamilyIPv4
        false).1.stored.map (fun c => (c.resp.hasOPT, c.resp.AuthenticatedData)) =
        [(false, false)] ∧
      (writeUpstreamResponse sampleMsgOps sampleReq sampleResp sampleRequestInfo
        { ip := { addr := 167772160, z := 1 }, bits := 8 } AddrFamily.AddrFamilyIPv4
        false).1.written.map (fun w => (w.2.hasOPT, w.2.AuthenticatedData)) =
        [(true, true)] ∧
      ∀ c ∈ (writeUpstreamResponse sampleMsgOps sampleReq sampleResp sampleRequestInfo
          { ip := { addr := 167772160, z := 1 }, bits := 8 } AddrFamily.AddrFamilyIPv4
          false).1.stored,
        c.resp = rmHopToHopData sampleResp sampleRequestInfo.QType false ∧
          c.resp.hasOPT = false ∧ c.resp.AuthenticatedData = false :=
  ⟨by decide, by decide,
    (writeUpstreamResponse_cached_value sampleMsgOps rfl sampleReq sampleResp
      sampleRequestInfo { ip := { addr := 167772160, z := 1 }, bits := 8 }
      AddrFamily.AddrFamilyIPv4 false).1⟩

end ecscache

/-! ## The route check of the device-ID extraction and of the DoH routing -/

namespace dnssvc

open dnsserver agd

/-- The result of `deviceIDFromDoHURL` in terms of the parts of the path. -/
theorem deviceIDFromDoHURL_of_parts (grammar : Grammar) (u : URL) (p0 : GoString)
    (rest : List GoString) (h : pathParts u.Path = some (p0 :: rest)) :
    (¬ (p0 ≠ [] ∧ (p0 <:+ PathDoH ∨ p0 <:+ PathJSON)) →
      deviceIDFromDoHURL grammar u = some ([], some (GoError.badPath u.Path))) ∧
    (p0 ≠ [] ∧ (p0 <:+ PathDoH ∨ p0 <:+ PathJSON) →
      deviceIDFromDoHURL grammar u = some ([], none) ∨
      (∃ p1 : GoString, deviceIDFromDoHURL grammar u = some (NewDeviceID grammar p1)) ∨
      deviceIDFromDoHURL grammar u = some ([], some (GoError.badPathExtraParts u.Path))) := by
  have hcond : (p0 = [] ∨ (strings.HasSuffix PathDoH p0 = false ∧
      strings.HasSuffix PathJSON p0 = false)) ↔
      ¬ (p0 ≠ [] ∧ (p0 <:+ PathDoH ∨ p0 <:+ PathJSON)) := by
    rw [← strings.HasSuffix_iff, ← strings.HasSuffix_iff]
    cases strings.HasSuffix PathDoH p0 <;> cases strings.HasSuffix PathJSON p0 <;>
      by_cases h0 : p0 = [] <;> simp [h0]
  constructor
  · intro hn
    simp only [deviceIDFromDoHURL, h, if_pos (hcond.mpr hn)]
  · intro hy
    have hneg : ¬ (p0 = [] ∨ (strings.HasSuffix PathDoH p0 = false ∧
        strings.HasSuffix PathJSON p0 = false)) := fun hc => hcond.mp hc hy
    simp only [deviceIDFromDoHURL, h, if_neg hneg]
    match rest with
    | [] => exact Or.inl rfl
    | [p1] =>
      refine Or.inr (Or.inl ⟨p1, ?_⟩)
      cases hg : grammar p1 <;> simp [NewDeviceID, hg]
    | _ :: _ :: _ => exact Or.inr (Or.inr rfl)

/-- C22: `deviceIDFromDoHURL` and `isDoH` accept the same paths.  With a
device-ID grammar whose errors are device-ID errors, `deviceIDFromDoHURL`
returns its `bad path` error exactly when `isDoH` returns `ok = false` for a
request with that URL, so a request that is routed to the DoH handler passes the
route check.  Both functions return for every path, without an index out of
range, and both reject the empty path and the path `/`. -/
theorem deviceIDFromDoHURL_isDoH_agree (grammar : Grammar)
    (hgr : ∀ (x : GoString) (e : GoError), grammar x = some e →
      ∃ msg : GoString, e = GoError.badDeviceID msg)
    (r : Request) :
    (deviceIDFromDoHURL grammar r.URL = some ([], some (GoError.badPath r.URL.Path)) ↔
        isDoH r = some (false, false, [])) ∧
      (deviceIDFromDoHURL grammar r.URL = some ([], some (GoError.badPath r.URL.Path)) ↔
        ∃ (isJSON : Bool) (ct : GoString), isDoH r = some (false, isJSON, ct)) ∧
      (deviceIDFromDoHURL grammar r.URL).isSome = true ∧ (isDoH r).isSome = true ∧
      deviceIDFromDoHURL grammar { r.URL with Path := [] } =
        some ([], some (GoError.badPath [])) ∧
      isDoH { r with URL := { r.URL with Path := [] } } = some (false, false, []) ∧
      deviceIDFromDoHURL grammar { r.URL with Path := "/".toList } =
        some ([], some (GoError.badPath "/".toList)) ∧
      isDoH { r with URL := { r.URL with Path := "/".toList } } = some (false, false, []) := by
  obtain ⟨p0, rest, hparts⟩ := pathParts_cons r.URL.Path
  obtain ⟨isJSON, ct, hdoh⟩ := isDoH_of_parts r p0 rest hparts
  have hdev := deviceIDFromDoHURL_of_parts grammar r.URL p0 rest hparts
  -- the shape of a rejection by isDoH
  have hrej : ∀ (j : Bool) (c : GoString), isDoH r = some (false, j, c) →
      isDoH r = some (false, false, []) := by
    intro j c hh
    unfold isDoH at hh ⊢
    rw [hparts] at hh ⊢
    simp only at hh ⊢
    split at hh
    · rename_i h0; rw [if_pos h0]
    · rename_i h0
      rw [if_neg h0]
      split at hh
      · simp at hh
      · rename_i h1
        rw [if_neg h1]
        split at hh
        · split at hh <;> simp at hh
        · rename_i h2; rw [if_neg h2]
  have key : deviceIDFromDoHURL grammar r.URL = some ([], some (GoError.badPath r.URL.Path)) ↔
      ∃ (j : Bool) (c : GoString), isDoH r = some (false, j, c) := by
    by_cases hacc : p0 ≠ [] ∧ (p0 <:+ PathDoH ∨ p0 <:+ PathJSON)
    · have hok : isDoH r = some (true, isJSON, ct) := by simpa [hacc] using hdoh
      constructor
      · intro hbad
        exfalso
        rcases hdev.2 hacc with h1 | ⟨p1, h1⟩ | h1
        · rw [h1] at hbad; simp at hbad
        · rw [h1] at hbad
          cases hg : grammar p1 with
          | none => simp [NewDeviceID, hg] at hbad
          | some e =>
            obtain ⟨msg, rfl⟩ := hgr p1 e hg
            simp [NewDeviceID, hg] at hbad
        · rw [h1] at hbad; simp at hbad
      · rintro ⟨j, c, hh⟩
        rw [hok] at hh
        simp at hh
    · have hno : isDoH r = some (false, isJSON, ct) := by simpa [hacc] using hdoh
      exact ⟨fun _ => ⟨isJSON, ct, hno⟩, fun _ => hdev.1 hacc⟩
  refine ⟨?_, key, ?_, ?_, ?_, ?_, ?_, ?_⟩
  · rw [key]
    exact ⟨fun ⟨j, c, hh⟩ => hrej j c hh, fun hh => ⟨false, [], hh⟩⟩
  · by_cases hacc : p0 ≠ [] ∧ (p0 <:+ PathDoH ∨ p0 <:+ PathJSON)
    · rcases hdev.2 hacc with h1 | ⟨p1, h1⟩ | h1 <;> rw [h1] <;> rfl
    · rw [hdev.1 hacc]; rfl
  · rw [hdoh]; rfl
  · have hp : pathParts ([] : GoString) = some [".".toList] := by decide
    simp only [deviceIDFromDoHURL, hp]
    rfl
  · have hp : pathParts ([] : GoString) = some [".".toList] := by decide
    simp only [isDoH, hp]
    rfl
  · have hp : pathParts "/".toList = some [[]] := by decide
    simp only [deviceIDFromDoHURL, hp]
    rfl
  · have hp : pathParts "/".toList = some [[]] := by decide
    simp only [isDoH, hp]
    rfl

/-- C22, on concrete requests: `/other` is rejected by both functions, and
`/dns-query/abc123` is accepted by both. -/
theorem deviceIDFromDoHURL_isDoH_agree_witness :
    (deviceIDFromDoHURL sampleGrammar { Path := "/other".toList } =
        some ([], some (GoError.badPath "/other".toList)) ↔
      isDoH { URL := { Path := "/other".toList } } = some (false, false, [])) ∧
    (deviceIDFromDoHURL sampleGrammar { Path := "/dns-query/abc123".toList } =
        some ([], some (GoError.badPath "/dns-query/abc123".toList)) ↔
      isDoH { URL := { Path := "/dns-query/abc123".toList } } = some (false, false, [])) ∧
    isDoH { URL := { Path := "/other".toList } } = some (false, false, []) ∧
    isDoH { URL := { Path := "/dns-query/abc123".toList } } =
      some (true, false, MimeTypeDoH) :=
  have hgr : ∀ (x : GoString) (e : GoError), sampleGrammar x = some e →
      ∃ msg : GoString, e = GoError.badDeviceID msg := by
    intro x e h
    unfold sampleGrammar at h
    split at h
    · exact ⟨_, (Option.some.inj h).symm⟩
    · split at h
      · exact ⟨_, (Option.some.inj h).symm⟩
      · split at h
        · simp at h
        · exact ⟨_, (Option.some.inj h).symm⟩
  ⟨(deviceIDFromDoHURL_isDoH_agree sampleGrammar hgr
      { URL := { Path := "/other".toList } }).1,
    (deviceIDFromDoHURL_isDoH_agree sampleGrammar hgr
      { URL := { Path := "/dns-query/abc123".toList } }).1,
    by decide, by decide⟩

end dnssvc

/-! ## The order of the wildcards -/

namespace dnssvc

open dnsserver agd

/-- The wildcard loop gives the same domain for two lists of wildcards that are
permutations of each other. -/
theorem matchWildcards_perm (name : GoString) (ws1 ws2 : List GoString)
    (hform : ∀ w ∈ ws1, IsWildcard w) (hperm : ws1.Perm ws2) :
    matchWildcards name ws1 = matchWildcards name ws2 := by
  have hform2 : ∀ w ∈ ws2, IsWildcard w := fun w hw => hform w (hperm.mem_iff.mpr hw)
  by_cases h : ∃ d : GoString, ('*' :: '.' :: d) ∈ ws1 ∧ ImmediateSubdomainOf name d
  · obtain ⟨d, hmem, hsub⟩ := h
    rw [matchWildcards_match name d ws1 hform hmem hsub,
      matchWildcards_match name d ws2 hform2 (hperm.mem_iff.mp hmem) hsub]
  · have hno1 : ∀ d : GoString, ('*' :: '.' :: d) ∈ ws1 → ¬ ImmediateSubdomainOf name d :=
      fun d hmem hsub => h ⟨d, hmem, hsub⟩
    have hno2 : ∀ d : GoString, ('*' :: '.' :: d) ∈ ws2 → ¬ ImmediateSubdomainOf name d :=
      fun d hmem hsub => h ⟨d, hperm.mem_iff.mpr hmem, hsub⟩
    rw [matchWildcards_no_match name ws1 hform hno1,
      matchWildcards_no_match name ws2 hform2 hno2]

/-- What the wildcard loop returns is the empty string or the domain of one of
the wildcards, of which the name is an immediate subdomain. -/
theorem matchWildcards_result (name : GoString) (ws : List GoString)
    (hform : ∀ w ∈ ws, IsWildcard w) :
    ∃ d : GoString, matchWildcards name ws = some d ∧
      (d = [] ∨ (('*' :: '.' :: d) ∈ ws ∧ agdnet.IsImmediateSubdomain name d = true)) := by
  induction ws with
  | nil => exact ⟨[], rfl, Or.inl rfl⟩
  | cons w rest ih =>
    obtain ⟨d, rfl⟩ := hform w (List.mem_cons_self _ _)
    by_cases hd : agdnet.IsImmediateSubdomain name d = true
    · exact ⟨d, by simp [matchWildcards, hd], Or.inr ⟨List.mem_cons_self _ _, hd⟩⟩
    · obtain ⟨e, he, hor⟩ := ih (fun w hw => hform w (List.mem_cons_of_mem _ hw))
      simp only [Bool.not_eq_true] at hd
      refine ⟨e, by simp [matchWildcards, hd, he], ?_⟩
      rcases hor with h | ⟨hmem, hsub⟩
      · exact Or.inl h
      · exact Or.inr ⟨List.mem_cons_of_mem _ hmem, hsub⟩

/-- The slice of the name before a domain of which it is an immediate
subdomain is in range, and is the label. -/
theorem immediateSubdomain_slice (name d : GoString)
    (h : agdnet.IsImmediateSubdomain name d = true) :
    d.length + 1 ≤ name.length ∧
      name.take (name.length - d.length - 1) ≠ [] ∧
      '.' ∉ name.take (name.length - d.length - 1) ∧
      name.take (name.length - d.length - 1) ++ '.' :: d = name := by
  obtain ⟨label, hne, hdot, rfl⟩ := (IsImmediateSubdomain_iff name d).mp h
  have hlen : (label ++ '.' :: d).length - d.length - 1 = label.length := by
    simp only [List.length_append, List.length_cons]; omega
  have htake : (label ++ '.' :: d).take ((label ++ '.' :: d).length - d.length - 1) =
      label := by
    rw [hlen, List.take_left']
    rfl
  rw [htake]
  refine ⟨?_, hne, hdot, rfl⟩
  simp only [List.length_append, List.length_cons]; omega

/-- C23: the result of `deviceIDFromClientServerName` does not depend on the
order of the wildcards.  For wildcards of the form `*.<domain>` and two lists
that are permutations of each other the function returns, and returns the same
ID and error, for every client server name; a name is an immediate subdomain of
at most one domain; and for the domain the loop matched, as for every domain of
which the name is an immediate subdomain, the slice bound
`len(name) - len(domain) - 1` is in range and the extracted label, followed by
a dot and the domain, is the server name. -/
theorem deviceIDFromClientServerName_perm (grammar : Grammar) (name : GoString)
    (ws1 ws2 : List GoString) (hform : ∀ w ∈ ws1, IsWildcard w) (hperm : ws1.Perm ws2) :
    deviceIDFromClientServerName grammar name ws1 =
        deviceIDFromClientServerName grammar name ws2 ∧
      (deviceIDFromClientServerName grammar name ws1).isSome = true ∧
      (∀ d1 d2 : GoString, agdnet.IsImmediateSubdomain name d1 = true →
        agdnet.IsImmediateSubdomain name d2 = true → d1 = d2) ∧
      (∀ d : GoString, matchWildcards name ws1 = some d → d ≠ [] →
        agdnet.IsImmediateSubdomain name d = true ∧ ('*' :: '.' :: d) ∈ ws1) ∧
      (∀ d : GoString, agdnet.IsImmediateSubdomain name d = true →
        d.length + 1 ≤ name.length ∧
        name.length - d.length - 1 ≤ name.length ∧
        name.take (name.length - d.length - 1) ≠ [] ∧
        name.take (name.length - d.length - 1) ++ '.' :: d = name) := by
  refine ⟨?_, ?_, ?_, ?_, ?_⟩
  · unfold deviceIDFromClientServerName
    rw [matchWildcards_perm name ws1 ws2 hform hperm]
  · obtain ⟨d, hd, hor⟩ := matchWildcards_result name ws1 hform
    unfold deviceIDFromClientServerName
    rw [hd]
    by_cases hn : name = []
    · rw [if_pos hn]; rfl
    · rw [if_neg hn]
      simp only
      by_cases hd0 : d = []
      · rw [if_pos hd0]; rfl
      · rw [if_neg hd0]
        rcases hor with h | ⟨_, hsub⟩
        · exact absurd h hd0
        · have hlen := (immediateSubdomain_slice name d hsub).1
          rw [if_neg (by omega)]
          split <;> rfl
  · intro d1 d2 h1 h2
    exact ImmediateSubdomainOf_domain_unique name d1 d2
      ((IsImmediateSubdomain_iff name d1).mp h1) ((IsImmediateSubdomain_iff name d2).mp h2)
  · intro d hd hne
    obtain ⟨e, he, hor⟩ := matchWildcards_result name ws1 hform
    rw [hd] at he
    have hde : d = e := Option.some.inj he
    subst hde
    rcases hor with h | ⟨hmem, hsub⟩
    · exact absurd h hne
    · exact ⟨hsub, hmem⟩
  · intro d hsub
    obtain ⟨h1, h2, _, h4⟩ := immediateSubdomain_slice name d hsub
    exact ⟨h1, by omega, h2, h4⟩

/-- C23, on two orders of three wildcards: the server name
`dev42.d.example.com` gives the device ID `dev42` with both. -/
theorem deviceIDFromClientServerName_perm_witness :
    deviceIDFromClientServerName sampleGrammar "dev42.d.example.com".toList
        ["*.example.com".toList, "*.d.example.com".toList, "*.example.org".toList] =
      deviceIDFromClientServerName sampleGrammar "dev42.d.example.com".toList
        ["*.example.org".toList, "*.d.example.com".toList, "*.example.com".toList] ∧
    deviceIDFromClientServerName sampleGrammar "dev42.d.example.com".toList
        ["*.example.org".toList, "*.d.example.com".toList, "*.example.com".toList] =
      some ("dev42".toList, none) :=
  ⟨(deviceIDFromClientServerName_perm sampleGrammar "dev42.d.example.com".toList
      ["*.example.com".toList, "*.d.example.com".toList, "*.example.org".toList]
      ["*.example.org".toList, "*.d.example.com".toList, "*.example.com".toList]
      (by
        intro w hw
        simp only [List.mem_cons, List.mem_singleton, List.not_mem_nil, or_false] at hw
        rcases hw with rfl | rfl | rfl
        · exact ⟨"example.com".toList, rfl⟩
        · exact ⟨"d.example.com".toList, rfl⟩
        · exact ⟨"example.org".toList, rfl⟩)
      (by decide)).1,
    by decide⟩

end dnssvc

/-! ## A `Start` that fails -/

namespace dnsserver

/-- After `Start` on a server that was not started the flag is set, whatever
`Start` returned. -/
theorem serverDNS_start_started (s : ServerDNS) (listenErr : Option ServerError)
    (hs : s.ServerBase.started = false) : (s.Start listenErr).1.ServerBase.started = true := by
  obtain ⟨⟨name, addr, proto, started, udp, tcp, wg, calls⟩, conf, up, tp, conns⟩ := s
  simp only at hs
  subst hs
  cases proto <;> cases listenErr <;> rfl

/-- A `Start` of a `ServerDNS` that fails sets no listener. -/
theorem serverDNS_start_failed_listeners (s : ServerDNS) (listenErr : Option ServerError)
    (hs : s.ServerBase.started = false) (hfail : (s.Start listenErr).2 ≠ none) :
    (s.Start listenErr).1.ServerBase.udpListener = s.ServerBase.udpListener ∧
      (s.Start listenErr).1.ServerBase.tcpListener = s.ServerBase.tcpListener := by
  obtain ⟨⟨name, addr, proto, started, udp, tcp, wg, calls⟩, conf, up, tp, conns⟩ := s
  simp only at hs
  subst hs
  revert hfail
  cases proto <;> cases listenErr <;> intro hfail <;>
    first | exact ⟨rfl, rfl⟩ | exact absurd rfl hfail

/-- A `Start` of a `ServerDNS` whose protocol is neither UDP nor TCP returns
`ErrInvalidArgument`. -/
theorem serverDNS_start_invalid_proto (s : ServerDNS) (listenErr : Option ServerError)
    (hs : s.ServerBase.started = false) (h1 : s.ServerBase.proto ≠ Protocol.ProtoDNSUDP)
    (h2 : s.ServerBase.proto ≠ Protocol.ProtoDNSTCP) :
    (s.Start listenErr).2 = some ServerError.ErrInvalidArgument := by
  obtain ⟨⟨name, addr, proto, started, udp, tcp, wg, calls⟩, conf, up, tp, conns⟩ := s
  simp only at hs h1 h2
  subst hs
  revert h1 h2
  cases proto <;> intro h1 h2 <;>
    first | rfl | exact absurd rfl h1 | exact absurd rfl h2

theorem serverTLS_start_started (s : ServerTLS) (listenErr : Option ServerError)
    (hs : s.ServerDNS.ServerBase.started = false) :
    (s.Start listenErr).1.ServerDNS.ServerBase.started = true := by
  unfold ServerTLS.Start
  rw [hs]
  cases listenErr <;> rfl

theorem serverHTTPS_start_started (s : ServerHTTPS) (listenErr : Option ServerError)
    (hs : s.ServerBase.started = false) : (s.Start listenErr).1.ServerBase.started = true := by
  unfold ServerHTTPS.Start
  rw [hs]
  cases listenErr <;> rfl

/-- The guard of `Start`: on a server whose started flag is set it returns
`ErrServerAlreadyStarted` and changes nothing. -/
theorem serverDNS_start_of_started (s : ServerDNS) (listenErr : Option ServerError)
    (hs : s.ServerBase.started = true) :
    s.Start listenErr = (s, some ServerError.ErrServerAlreadyStarted) := by
  unfold ServerDNS.Start
  rw [if_pos hs]

theorem serverTLS_start_of_started (s : ServerTLS) (listenErr : Option ServerError)
    (hs : s.ServerDNS.ServerBase.started = true) :
    s.Start listenErr = (s, some ServerError.ErrServerAlreadyStarted) := by
  unfold ServerTLS.Start
  rw [if_pos hs]

theorem serverHTTPS_start_of_started (s : ServerHTTPS) (listenErr : Option ServerError)
    (hs : s.ServerBase.started = true) :
    s.Start listenErr = (s, some ServerError.ErrServerAlreadyStarted) := by
  unfold ServerHTTPS.Start
  rw [if_pos hs]

/-- A `Start` of a `ServerHTTPS` that fails leaves `httpServer` as it was. -/
theorem serverHTTPS_start_failed_httpServer (s : ServerHTTPS)
    (listenErr : Option ServerError) (hfail : (s.Start listenErr).2 ≠ none) :
    (s.Start listenErr).1.httpServer = s.httpServer := by
  unfold ServerHTTPS.Start at hfail ⊢
  by_cases hs : s.ServerBase.started = true
  · rw [if_pos hs]
  · rw [if_neg hs] at hfail ⊢
    cases listenErr with
    | none => exact absurd rfl hfail
    | some e => rfl

/-- When the started flag is set, `Shutdown` of a `ServerDNS` passes the guard
and returns the result of `waitShutdown`. -/
theorem serverDNS_shutdown_started (s : ServerDNS) (waitErr : Option ServerError)
    (hs : s.ServerBase.started = true) :
    s.shutdown.2 = none ∧ (s.Shutdown waitErr).2 = waitErr := by
  simp [ServerDNS.Shutdown, ServerDNS.shutdown, hs, ServerBase.waitShutdown]

/-- When the started flag is set, `Shutdown` of a `ServerHTTPS` passes the
guard; it then returns the result of `waitShutdown` if `httpServer` is set, and
panics on the nil `httpServer` otherwise. -/
theorem serverHTTPS_shutdown_started (s : ServerHTTPS) (waitErr : Option ServerError)
    (hs : s.ServerBase.started = true) :
    (s.httpServer = true → ∃ s1 : ServerHTTPS, s.Shutdown waitErr = some (s1, waitErr)) ∧
      (s.httpServer = false → s.Shutdown waitErr = none) := by
  constructor
  · intro hh
    simp [ServerHTTPS.Shutdown, ServerHTTPS.shutdown, hs, hh, ServerBase.waitShutdown]
  · intro hh
    simp [ServerHTTPS.Shutdown, ServerHTTPS.shutdown, hs, hh]

/-- C24: `ServerDNS.Start`, `ServerTLS.Start` and `ServerHTTPS.Start` set the
started flag before they listen.  On a server that was not started, when
`Start` returns an error (listening failed, or the protocol of a `ServerDNS` is
neither UDP nor TCP), the server stays marked as started and no listener is
set; a following `Start` returns `ErrServerAlreadyStarted` and changes nothing;
a following `Shutdown` passes the guard, so that it does not return
`ErrServerNotStarted`: for `ServerDNS` and `ServerTLS` it returns the result of
`waitShutdown`, and so does the one of `ServerHTTPS` when `httpServer` was set
by an earlier `Start`, while with `httpServer` still nil it does not return at
all, because `s.httpServer.Shutdown` dereferences the nil pointer. -/
theorem lifecycle_failed_start (d : ServerDNS) (t : ServerTLS) (h : ServerHTTPS)
    (listenErr next waitErr : Option ServerError)
    (hd : d.ServerBase.started = false) (ht : t.ServerDNS.ServerBase.started = false)
    (hh : h.ServerBase.started = false) :
    -- when Start fails
    (∀ e : ServerError,
        (d.ServerBase.proto = Protocol.ProtoDNSUDP ∨ d.ServerBase.proto = Protocol.ProtoDNSTCP →
          (d.Start (some e)).2 = some e) ∧
        (t.Start (some e)).2 = some e ∧ (h.Start (some e)).2 = some e) ∧
      (d.ServerBase.proto ≠ Protocol.ProtoDNSUDP → d.ServerBase.proto ≠ Protocol.ProtoDNSTCP →
        (d.Start listenErr).2 = some ServerError.ErrInvalidArgument) ∧
      -- ServerDNS
      ((d.Start listenErr).2 ≠ none →
        (d.Start listenErr).1.ServerBase.started = true ∧
        (d.Start listenErr).1.ServerBase.udpListener = d.ServerBase.udpListener ∧
        (d.Start listenErr).1.ServerBase.tcpListener = d.ServerBase.tcpListener ∧
        (d.Start listenErr).1.Start next =
          ((d.Start listenErr).1, some ServerError.ErrServerAlreadyStarted) ∧
        (d.Start listenErr).1.shutdown.2 = none ∧
        ((d.Start listenErr).1.Shutdown waitErr).2 = waitErr ∧
        (waitErr ≠ some ServerError.ErrServerNotStarted →
          ((d.Start listenErr).1.Shutdown waitErr).2 ≠
            some ServerError.ErrServerNotStarted)) ∧
      -- ServerTLS
      ((t.Start listenErr).2 ≠ none →
        (t.Start listenErr).1.ServerDNS.ServerBase.started = true ∧
        (t.Start listenErr).1.ServerDNS.ServerBase.tcpListener =
          t.ServerDNS.ServerBase.tcpListener ∧
        (t.Start listenErr).1.Start next =
          ((t.Start listenErr).1, some ServerError.ErrServerAlreadyStarted) ∧
        ((t.Start listenErr).1.Shutdown waitErr).2 = waitErr ∧
        (waitErr ≠ some ServerError.ErrServerNotStarted →
          ((t.Start listenErr).1.Shutdown waitErr).2 ≠
            some ServerError.ErrServerNotStarted)) ∧
      -- ServerHTTPS
      ((h.Start listenErr).2 ≠ none →
        (h.Start listenErr).1.ServerBase.started = true ∧
        (h.Start listenErr).1.ServerBase.tcpListener = h.ServerBase.tcpListener ∧
        (h.Start listenErr).1.httpServer = h.httpServer ∧
        (h.Start listenErr).1.Start next =
          ((h.Start listenErr).1, some ServerError.ErrServerAlreadyStarted) ∧
        (∀ (s1 : ServerHTTPS) (err : Option ServerError),
          (h.Start listenErr).1.Shutdown waitErr = some (s1, err) → err = waitErr) ∧
        (waitErr ≠ some ServerError.ErrServerNotStarted →
          ∀ s1 : ServerHTTPS, (h.Start listenErr).1.Shutdown waitErr ≠
            some (s1, some ServerError.ErrServerNotStarted)) ∧
        (h.httpServer = true →
          ∃ s1 : ServerHTTPS, (h.Start listenErr).1.Shutdown waitErr = some (s1, waitErr)) ∧
        (h.httpServer = false → (h.Start listenErr).1.Shutdown waitErr = none)) := by
  have hds := serverDNS_start_started d listenErr hd
  have hts := serverTLS_start_started t listenErr ht
  have hhs := serverHTTPS_start_started h listenErr hh
  refine ⟨?_, ?_, ?_, ?_, ?_⟩
  · intro e
    refine ⟨?_, ?_, ?_⟩
    · rintro (hp | hp) <;> simp [ServerDNS.Start, hd, hp]
    · simp [ServerTLS.Start, ht]
    · simp [ServerHTTPS.Start, hh]
  · exact serverDNS_start_invalid_proto d listenErr hd
  · intro hfail
    have hsd := serverDNS_shutdown_started (d.Start listenErr).1 waitErr hds
    have hl := serverDNS_start_failed_listeners d listenErr hd hfail
    refine ⟨hds, hl.1, hl.2, ?_, hsd.1, hsd.2, ?_⟩
    · exact serverDNS_start_of_started _ next hds
    · intro hw
      rw [hsd.2]
      exact hw
  · intro hfail
    have hsd := serverDNS_shutdown_started (t.Start listenErr).1.ServerDNS waitErr hts
    have hsh : ((t.Start listenErr).1.Shutdown waitErr).2 = waitErr := by
      simpa [ServerTLS.Shutdown] using hsd.2
    refine ⟨hts, ?_, ?_, hsh, ?_⟩
    · unfold ServerTLS.Start at hfail ⊢
      rw [ht] at hfail ⊢
      revert hfail
      cases listenErr <;> intro hfail <;> first | rfl | exact absurd rfl hfail
    · exact serverTLS_start_of_started _ next hts
    · intro hw
      rw [hsh]
      exact hw
  · intro hfail
    have hsd := serverHTTPS_shutdown_started (h.Start listenErr).1 waitErr hhs
    have hsrv := serverHTTPS_start_failed_httpServer h listenErr hfail
    have hret : ∀ (s1 : ServerHTTPS) (err : Option ServerError),
        (h.Start listenErr).1.Shutdown waitErr = some (s1, err) → err = waitErr := by
      intro s1 err hr
      cases hsv : (h.Start listenErr).1.httpServer with
      | true =>
        obtain ⟨s2, h2⟩ := hsd.1 hsv
        rw [h2] at hr
        exact ((Prod.mk.inj (Option.some.inj hr)).2).symm
      | false =>
        rw [hsd.2 hsv] at hr
        exact absurd hr (by simp)
    refine ⟨hhs, ?_, hsrv, ?_, hret, ?_, ?_, ?_⟩
    · unfold ServerHTTPS.Start at hfail ⊢
      rw [hh] at hfail ⊢
      revert hfail
      cases listenErr <;> intro hfail <;> first | rfl | exact absurd rfl hfail
    · exact serverHTTPS_start_of_started _ next hhs
    · intro hw s1 hr
      exact hw (hret s1 _ hr).symm
    · intro hsv
      exact hsd.1 (hsrv.trans hsv)
    · intro hsv
      exact hsd.2 (hsrv.trans hsv)

/-- C24, on new servers whose listening fails: the second `Start` returns
`ErrServerAlreadyStarted`, the `Shutdown` of the UDP and of the TLS server
returns nil, and the `Shutdown` of the HTTPS server, whose `httpServer` is nil,
does not return. -/
theorem lifecycle_failed_start_witness :
    (((newServerDNS sampleConfigDNS).Start
        (some (ServerError.listen "address already in use".toList))).1.Start none).2 =
      some ServerError.ErrServerAlreadyStarted ∧
    (((newServerDNS sampleConfigDNS).Start
        (some (ServerError.listen "address already in use".toList))).1.Shutdown none).2 =
      none ∧
    (((NewServerTLS sampleConfigDNS true).Start
        (some (ServerError.listen "address already in use".toList))).1.Shutdown none).2 =
      none ∧
    ((NewServerHTTPS sampleConfigDNS.ConfigBase true).Start
        (some (ServerError.listen "address already in use".toList))).1.Shutdown none =
      none :=
  have hall := lifecycle_failed_start (newServerDNS sampleConfigDNS)
    (NewServerTLS sampleConfigDNS true) (NewServerHTTPS sampleConfigDNS.ConfigBase true)
    (some (ServerError.listen "address already in use".toList)) none none
    (by decide) (by decide) (by decide)
  ⟨congrArg Prod.snd (hall.2.2.1 (by decide)).2.2.2.1,
    (hall.2.2.1 (by decide)).2.2.2.2.2.1,
    (hall.2.2.2.1 (by decide)).2.2.2.1,
    (hall.2.2.2.2 (by decide)).2.2.2.2.2.2.2 (by decide)⟩

end dnsserver

end AdGuardDNS
